import Mathlib

/-!
# The rsync transfer engine of incusd (`incusd/rsync/rsync.go`)

A shallow embedding of the package `rsync`: the version probe `AtLeast`, the
feature expansion `rsyncFeatureArgs`, the local mirror `LocalCopy` and the two
halves of the bridged transfer, `Send` (with `sendSetup`) and `Recv`; and of
`ExtractInterfaceFromConfigName` of `lxd/containers.go`.

Conventions of the embedding.

* A Go `string` is a Lean `String`; the functions of package `strings` work on
  its characters. The separators used by the code are ASCII, for which splitting
  by characters and splitting by bytes agree.
* A Go `error` result is an `Option`: `none` is `nil`.
* A function that can index a slice or dereference a handle returns an
  `Option` of its Go result: `none` means the call panics, `some r` that it
  returns `r`.
* What the operating system, the subprocess and the peers do is an explicit
  argument (`Host`, `SendSession`, `RecvSession`): the functions are
  deterministic in it.
-/

namespace Incus

/-! ## Errors -/

/-- The error values produced outside this package: an `*exec.ExitError`, with the
value of `ExitCode()` and the text of `Error()`, or any other error, with its text. -/
inductive BasicError where
  | exitError (code : Int) (text : String)
  | other (text : String)
  deriving DecidableEq, Repr

/-- The method `Error()` of an error value. -/
def BasicError.Error : BasicError → String
  | .exitError _ text => text
  | .other text => text

/-- How a started subprocess ends, as `cmd.Wait` and `cmd.Run` see it. -/
inductive ProcExit where
  /-- the process exited by itself with this status -/
  | exited (status : Nat)
  /-- the process was ended by a signal; `ExitCode()` is then -1 -/
  | signaled (text : String)
  /-- the process could not be run or its streams could not be copied -/
  | broken (text : String)
  deriving DecidableEq, Repr

/-- The error of `cmd.Wait` (and `cmd.Run`): `nil` exactly for exit status zero, an
`*exec.ExitError` for an unsuccessful exit, another error otherwise. -/
def cmdWait : ProcExit → Option BasicError
  | .exited 0 => none
  | .exited (n + 1) => some (.exitError (Int.ofNat (n + 1)) ("exit status " ++ Nat.repr (n + 1)))
  | .signaled text => some (.exitError (-1) text)
  | .broken text => some (.other text)

/-! ## Package `strings` -/

namespace strings

/-- The loop of `strings.Split` for a separator that is not empty: `skip` counts the
characters of a separator just matched that are still to be passed over, `acc`
holds the current field in reverse. -/
def splitGo (sep : List Char) : Nat → List Char → List Char → List (List Char)
  | _, [], acc => [acc.reverse]
  | skip + 1, _ :: cs, acc => splitGo sep skip cs acc
  | 0, c :: cs, acc =>
    if sep.isPrefixOf (c :: cs) then acc.reverse :: splitGo sep (sep.length - 1) cs []
    else splitGo sep 0 cs (c :: acc)

/-- The function `strings.Split(s, sep)`: the fields of `s` between the occurrences of
`sep`, found from the left without overlap; an empty `sep` explodes `s` into its
characters. -/
def Split (s sep : String) : List String :=
  if sep.data = [] then s.data.map (fun c => String.mk [c])
  else (splitGo sep.data 0 s.data []).map String.mk

/-- The function `strings.TrimPrefix(s, p)`: `s` without the leading `p`, or `s`
itself when it does not start with `p`. -/
def TrimPrefix (s p : String) : String :=
  if p.data.isPrefixOf s.data then String.mk (s.data.drop p.data.length) else s

end strings

/-! ## Package `version` -/

namespace version

/-- The part of package `internal/version` that `AtLeast` calls. The package is not
part of the sources at hand, so the code is embedded over any implementation of
it: the version type, `Parse`, `NewDottedVersion` (both `none` on error) and the
method `Compare`. -/
structure Pkg where
  DottedVersion : Type
  Parse : String → Option DottedVersion
  NewDottedVersion : String → Option DottedVersion
  Compare : DottedVersion → DottedVersion → Int

/-- Modelled from the spec: the type `DottedVersion` of package `internal/version`,
which is not under src/. The spec calls it "a dotted version value" and gives the
format of the tool as "X.Y.Z": three numeric components. -/
structure DottedVersion where
  Major : Nat
  Minor : Nat
  Patch : Nat
  deriving DecidableEq, Repr

/-- The fields of a character list between the occurrences of the character `sep`. -/
def fieldsOf (sep : Char) : List Char → List (List Char)
  | [] => [[]]
  | c :: cs =>
    if c = sep then [] :: fieldsOf sep cs
    else
      match fieldsOf sep cs with
      | [] => [[c]]
      | f :: fs => (c :: f) :: fs

/-- The value of a decimal numeral read from the left, `acc` being the value so far. -/
def digitsValue : Nat → List Char → Nat
  | acc, [] => acc
  | acc, c :: cs => digitsValue (acc * 10 + (c.toNat - 48)) cs

/-- A component of a dotted version: one or more decimal digits, read as a number. -/
def component (cs : List Char) : Option Nat :=
  if cs ≠ [] ∧ cs.all Char.isDigit then some (digitsValue 0 cs) else none

/-- Modelled from the spec: `version.NewDottedVersion` of package `internal/version`,
which is not under src/. The text is parsed "as a dotted version" of the form
"X.Y.Z"; anything else is an error (`none`). -/
def NewDottedVersion (s : String) : Option DottedVersion :=
  match fieldsOf '.' s.data with
  | [a, b, c] =>
    match component a, component b, component c with
    | some x, some y, some z => some ⟨x, y, z⟩
    | _, _, _ => none
  | _ => none

/-- Modelled from the spec: `version.Parse` of package `internal/version`, which is
not under src/. The spec has the version token parsed "as a dotted version". -/
def Parse (s : String) : Option DottedVersion :=
  NewDottedVersion s

/-- Three-way comparison of two numbers: -1, 0 or 1. -/
def compareInts (a b : Nat) : Int :=
  if a < b then -1 else if b < a then 1 else 0

/-- Modelled from the spec: the method `Compare` of package `internal/version`, which
is not under src/. The versions are compared "using numeric, not lexicographic,
ordering": component by component, the first difference decides. -/
def DottedVersion.Compare (v other : DottedVersion) : Int :=
  if compareInts v.Major other.Major ≠ 0 then compareInts v.Major other.Major
  else if compareInts v.Minor other.Minor ≠ 0 then compareInts v.Minor other.Minor
  else compareInts v.Patch other.Patch

/-- The package as the spec describes it. -/
def specPkg : Pkg where
  DottedVersion := DottedVersion
  Parse := Parse
  NewDottedVersion := NewDottedVersion
  Compare := DottedVersion.Compare

/-- The order of the spec on dotted versions, written as a relation: `a` is at most
`b` when the first component in which they differ is smaller in `a`, or when there
is none. -/
def DottedVersion.AtMost (a b : DottedVersion) : Prop :=
  a.Major < b.Major ∨
    (a.Major = b.Major ∧ (a.Minor < b.Minor ∨ (a.Minor = b.Minor ∧ a.Patch ≤ b.Patch)))

instance (a b : DottedVersion) : Decidable (DottedVersion.AtMost a b) := by
  unfold DottedVersion.AtMost; infer_instance

end version

/-! ## Run errors -/

/-- The type `subprocess.RunError` of package `shared/subprocess`: the error of a run
together with the command, its arguments and the two output buffers. -/
structure RunError where
  cmd : String
  args : List String
  err : BasicError
  stdout : String
  stderr : String
  deriving DecidableEq, Repr

/-- An `error` value as `LocalCopy` tells them apart by its type assertions: a
`subprocess.RunError` or anything else. -/
inductive GoError where
  | basic (e : BasicError)
  | run (r : RunError)
  deriving DecidableEq, Repr

/-- Modelled from the spec: `subprocess.NewRunError` of package `shared/subprocess`,
which is not under src/: "a tagged error variant" that wraps the error of the run;
`rsync` hands it the command, the arguments, the error and both buffers. -/
def NewRunError (cmd : String) (args : List String) (err : BasicError)
    (stdout stderr : String) : GoError :=
  .run ⟨cmd, args, err, stdout, stderr⟩

/-- Modelled from the spec: the method `Unwrap` of `subprocess.RunError`, which is not
under src/: the wrapped error of the run. -/
def RunError.Unwrap (r : RunError) : BasicError :=
  r.err

/-! ## The host -/

/-- The outcome of one run of the tool under `cmd.Run`. -/
structure RunOutcome where
  stdout : String
  stderr : String
  exit : ProcExit

/-- The process-wide settings of the package and the behaviour of the machine it runs
on. -/
structure Host where
  /-- the variable `Debug` -/
  Debug : Bool
  /-- the variable `RunWrapper`: `none` when nil, else the error it returns for the
  argument list of the command, the source and the destination; the error is of any
  type, a run error included -/
  RunWrapper : Option (List String → String → String → Option GoError)
  /-- the result of `subprocess.RunCommand("rsync", "--version")` -/
  rsyncVersion : Except BasicError String
  /-- the result of `os.MkdirAll(dest, 0755)` -/
  MkdirAll : String → Option BasicError
  /-- what running `rsync` with an argument list gives -/
  run : List String → RunOutcome
  /-- the helper `internalUtil.AddSlash`, which is not part of the sources at hand -/
  AddSlash : String → String
  /-- the constant `linux.ABSTRACT_UNIX_SOCK_LEN`, which is not part of the sources at
  hand -/
  ABSTRACT_UNIX_SOCK_LEN : Nat

/-! ## `AtLeast` and `rsyncFeatureArgs` -/

/-- Modelled from the spec: `util.ValueInSlice` of package `shared/util`, which is not
under src/: whether the name is "present" in the feature list. -/
def ValueInSlice (key : String) (list : List String) : Bool :=
  list.contains key

/-- The function `AtLeast`: compares the local version to a minimum version. -/
def AtLeast (v : version.Pkg) (h : Host) (min : String) : Option Bool :=
  match h.rsyncVersion with
  | .error _ => some false
  | .ok out =>
    match (strings.Split out "\n")[0]? with
    | none => none
    | some line =>
      let fields := strings.Split line "  "
      if fields.length < 3 then some false
      else
        match fields[1]? with
        | none => none
        | some field =>
          let versionStr := strings.TrimPrefix field "version "
          match v.Parse versionStr with
          | none => some false
          | some ver =>
            match v.NewDottedVersion min with
            | none => some false
            | some minVer => some (decide (v.Compare ver minVer ≥ 0))

/-- The function `rsyncFeatureArgs`. -/
def rsyncFeatureArgs (v : version.Pkg) (h : Host) (features : List String) :
    Option (List String) := do
  let args : List String := []
  let args ←
    if ValueInSlice "xattrs" features then do
      let args := args ++ ["--xattrs"]
      if ← AtLeast v h "3.1.3" then pure (args ++ ["--filter=-x security.selinux"])
      else pure args
    else pure args
  let args := if ValueInSlice "delete" features then args ++ ["--delete"] else args
  let args :=
    if ValueInSlice "compress" features then (args ++ ["--compress"]) ++ ["--compress-level=2"]
    else args
  pure args

/-! ## `rsync` and `LocalCopy` -/

/-- The function `rsync`: runs the tool with the arguments, through `RunWrapper` when
it is set; gives the standard output and the error. -/
def rsync (h : Host) (args : List String) : Option (String × Option GoError) :=
  if args.length < 2 then
    some ("", some (.basic (.other
      "rsync call expects a minimum of two arguments (source and destination)")))
  else
    let wrapped : Option (Option GoError) :=
      match h.RunWrapper with
      | none => some none
      | some wrapper =>
        match args[args.length - 2]?, args[args.length - 1]? with
        | some source, some destination => some (wrapper args source destination)
        | _, _ => none
    match wrapped with
    | none => none
    | some (some err) => some ("", some err)
    | some none =>
      let out := h.run args
      match cmdWait out.exit with
      | some err => some (out.stdout, some (NewRunError "rsync" args err out.stdout out.stderr))
      | none => some (out.stdout, none)

/-- The argument list `LocalCopy` builds for the tool. -/
def LocalCopyArgs (v : version.Pkg) (h : Host) (source dest bwlimit : String) (xattrs : Bool)
    (rsyncArgs : List String) : Option (List String) := do
  let rsyncVerbosity := if h.Debug then "-vi" else "-q"
  let args := ["-a", "-HA", "--sparse", "--devices", "--delete", "--checksum", "--numeric-ids"]
  let args ←
    if xattrs then do
      let args := args ++ ["--xattrs"]
      if ← AtLeast v h "3.1.3" then pure (args ++ ["--filter=-x security.selinux"])
      else pure args
    else pure args
  let args := if bwlimit ≠ "" then args ++ ["--bwlimit", bwlimit] else args
  let args := if rsyncArgs.length > 0 then args ++ rsyncArgs else args
  pure (args ++ [rsyncVerbosity, h.AddSlash source, dest])

/-- The function `LocalCopy`: copies a directory using rsync. It gives the text and
the error it returns. -/
def LocalCopy (v : version.Pkg) (h : Host) (source dest bwlimit : String) (xattrs : Bool)
    (rsyncArgs : List String) : Option (String × Option GoError) :=
  match h.MkdirAll dest with
  | some err => some ("", some (.basic err))
  | none =>
    match LocalCopyArgs v h source dest bwlimit xattrs rsyncArgs with
    | none => none
    | some args =>
      match rsync h args with
      | none => none
      | some (msg, none) => some (msg, none)
      | some (msg, some err) =>
        match err with
        | .run runError =>
          match runError.Unwrap with
          | .exitError code _ => if code = 24 then some (msg, none) else some (msg, some err)
          | .other _ => some (msg, some err)
        | .basic _ => some (msg, some err)

/-! ## `sendSetup` and `Send` -/

/-- What the `select` of `sendSetup` sees: a connection on the listener, a failed
accept, or the ten seconds passing first. -/
inductive AcceptOutcome where
  | connected
  | failed
  | timedOut
  deriving DecidableEq, Repr

/-- What happens around one call of `Send`. -/
structure SendSession where
  /-- the result of `uuid.New()` -/
  uuid : String
  /-- the error of `net.Listen("unix", auds)` -/
  listenErr : Option BasicError
  /-- the error of `cmd.StderrPipe()` -/
  stderrPipeErr : Option BasicError
  /-- the error of `cmd.Start()` -/
  startErr : Option BasicError
  /-- the outcome of the accept -/
  accept : AcceptOutcome
  /-- what `io.ReadAll(stderr)` reads in `sendSetup` after a failed accept or the
  timeout, when that read returns -/
  setupStderr : String
  /-- what `io.ReadAll(stderr)` gives in `Send`: the text read and the error -/
  stderrRead : String × Option BasicError
  /-- how the subprocess ends -/
  exit : ProcExit
  /-- the error of the copy from the rendezvous connection into the stream -/
  copyNetcat : Option BasicError
  /-- the error of the copy from the stream into the rendezvous connection -/
  copyTarget : Option BasicError

/-- A command handle: the `*exec.Cmd` made by `exec.Command("rsync", args...)`. -/
structure Cmd where
  args : List String
  deriving DecidableEq, Repr

/-- A connection accepted on the rendezvous listener, with the name listened on. -/
structure Conn where
  addr : String
  deriving DecidableEq, Repr

/-- The read end of the stderr pipe of the subprocess. -/
structure Pipe where
  deriving DecidableEq, Repr

/-- The four results of `sendSetup`. -/
structure SetupResult where
  cmd : Option Cmd
  conn : Option Conn
  stderr : Option Pipe
  err : Option GoError
  deriving DecidableEq, Repr

/-- The name of the rendezvous endpoint: the generated name, cut to the maximum
length when longer. -/
def sendAuds (h : Host) (s : SendSession) : String :=
  let auds := "@incusd/" ++ s.uuid
  if auds.length > h.ABSTRACT_UNIX_SOCK_LEN - 1 then
    String.mk (auds.data.take (h.ABSTRACT_UNIX_SOCK_LEN - 1))
  else auds

/-- The argument list `sendSetup` builds for the tool. -/
def sendArgs (v : version.Pkg) (h : Host) (s : SendSession) (name path bwlimit execPath : String)
    (features rsyncArgs : List String) : Option (List String) := do
  let rsyncCmd := execPath ++ " netcat " ++ sendAuds h s ++ " " ++ name ++ " --"
  let args := ["-ar", "--devices", "--numeric-ids", "--partial", "--sparse"]
  let args := if bwlimit ≠ "" then args ++ ["--bwlimit", bwlimit] else args
  let args ←
    if features.length > 0 then do pure (args ++ (← rsyncFeatureArgs v h features))
    else pure args
  let args := if rsyncArgs.length > 0 then args ++ rsyncArgs else args
  pure (args ++ [path, "localhost:/tmp/foo", "-e", rsyncCmd])

/-- The function `sendSetup`. -/
def sendSetup (v : version.Pkg) (h : Host) (s : SendSession)
    (name path bwlimit execPath : String) (features rsyncArgs : List String) :
    Option SetupResult :=
  match s.listenErr with
  | some err => some ⟨none, none, none, some (.basic err)⟩
  | none =>
    match sendArgs v h s name path bwlimit execPath features rsyncArgs with
    | none => none
    | some args =>
      let wrapped : Option GoError :=
        match h.RunWrapper with
        | none => none
        | some wrapper => wrapper args path ""
      match wrapped with
      | some err => some ⟨none, none, none, some err⟩
      | none =>
        match s.stderrPipeErr with
        | some err => some ⟨none, none, none, some (.basic err)⟩
        | none =>
          match s.startErr with
          | some err => some ⟨none, none, none, some (.basic err)⟩
          | none =>
            match s.accept with
            | .failed =>
              some ⟨none, none, none, some (.basic (.other
                ("Failed to connect to rsync socket (" ++ s.setupStderr ++ ")")))⟩
            | .timedOut =>
              some ⟨none, none, none, some (.basic (.other
                ("rsync failed to spawn after 10s (" ++ s.setupStderr ++ ")")))⟩
            | .connected => some ⟨some ⟨args⟩, some ⟨sendAuds h s⟩, some ⟨⟩, none⟩

/-- The texts of a list of errors with one blank between them. -/
def joinErrors : List BasicError → String
  | [] => ""
  | [e] => e.Error
  | e :: es => e.Error ++ " " ++ joinErrors es

/-- The verb `%v` of package `fmt` on a slice of errors: the texts of the errors in
square brackets with one blank between them. -/
def fmtErrors (errs : List BasicError) : String :=
  "[" ++ joinErrors errs ++ "]"

/-- The errors `Send` and `Recv` collect after the join: nothing when the wait
gave no error, else the error of the wait followed by the errors of the two copies
that have one. -/
def collectErrors (err first second : Option BasicError) : List BasicError :=
  let errs : List BasicError := []
  match err with
  | none => errs
  | some e =>
    let errs := errs ++ [e]
    let errs := match first with
      | some c => errs ++ [c]
      | none => errs
    match second with
    | some c => errs ++ [c]
    | none => errs

/-- The function `Send`. The progress tracker, which only observes, is left out, and
so are the kill and the log line after a failed read of stderr, which do not touch
the result: how the subprocess then ends is part of the session. -/
def Send (v : version.Pkg) (h : Host) (s : SendSession) (name path : String)
    (features : List String) (bwlimit execPath : String) (rsyncArgs : List String) :
    Option (Option GoError) :=
  match sendSetup v h s name path bwlimit execPath features rsyncArgs with
  | none => none
  | some setup =>
    match setup.err with
    | some err => some (some err)
    | none =>
      match setup.cmd, setup.conn, setup.stderr with
      | some _, some _, some _ =>
        let output := s.stderrRead.1
        let err := cmdWait s.exit
        let errs := collectErrors err s.copyNetcat s.copyTarget
        if errs.length > 0 then
          some (some (.basic (.other ("Rsync send failed: " ++ name ++ ", " ++ path ++ ": " ++
            fmtErrors errs ++ " (" ++ output ++ ")"))))
        else some none
      | _, _, _ => none

/-! ## `Recv` -/

/-- What happens around one call of `Recv`. -/
structure RecvSession where
  /-- the error of `cmd.StdoutPipe()` -/
  stdoutPipeErr : Option BasicError
  /-- the error of `cmd.StdinPipe()` -/
  stdinPipeErr : Option BasicError
  /-- the error of `cmd.StderrPipe()` -/
  stderrPipeErr : Option BasicError
  /-- the error of `cmd.Start()` -/
  startErr : Option BasicError
  /-- what `io.ReadAll(stderr)` gives: the text read and the error -/
  stderrRead : String × Option BasicError
  /-- how the subprocess ends -/
  exit : ProcExit
  /-- the error of the copy from the standard output of the subprocess into the
  stream -/
  copyRsync : Option BasicError
  /-- the error of the copy from the stream into the standard input of the
  subprocess -/
  copySource : Option BasicError

/-- The argument list `Recv` builds for the tool. -/
def recvArgs (v : version.Pkg) (h : Host) (path : String) (features : List String) :
    Option (List String) := do
  let args := ["--server", "-vlogDtpre.iLsfx", "--numeric-ids", "--devices", "--partial",
    "--sparse"]
  let args ←
    if features.length > 0 then do pure (args ++ (← rsyncFeatureArgs v h features))
    else pure args
  pure (args ++ [".", path])

/-- The function `Recv` (the progress tracker, which only observes, is left out).
When the stderr pipe cannot be had, the code calls `Kill` on the process of a command
that was not started, a nil handle: the call panics. -/
def Recv (v : version.Pkg) (h : Host) (s : RecvSession) (path : String)
    (features : List String) : Option (Option GoError) :=
  match recvArgs v h path features with
  | none => none
  | some args =>
    let wrapped : Option GoError :=
      match h.RunWrapper with
      | none => none
      | some wrapper => wrapper args "" path
    match wrapped with
    | some err => some (some err)
    | none =>
      match s.stdoutPipeErr with
      | some err => some (some (.basic err))
      | none =>
        match s.stdinPipeErr with
        | some err => some (some (.basic err))
        | none =>
          match s.stderrPipeErr with
          | some _ => none
          | none =>
            match s.startErr with
            | some err => some (some (.basic err))
            | none =>
              let output := s.stderrRead.1
              let err := cmdWait s.exit
              let errs := collectErrors err s.copyRsync s.copySource
              if errs.length > 0 then
                some (some (.basic (.other ("Rsync receive failed: " ++ path ++ ": " ++
                  fmtErrors errs ++ " (" ++ output ++ ")"))))
              else some none

/-! ## The calls as sequences of events

The functions above give what a call returns. The ones below give, next to the
result, what the call does on the way: the operations on the listener, the
subprocess, the hook and the tasks, in program order. The calling goroutine has
one sequence; every spawned task (goroutine) has its own, fixed by its body. A
deferred call stands where it runs: at the return, and during a panic. -/

/-- The tasks the calls spawn: the accept of `sendSetup`, the two copies of `Send`
and the two copies of `Recv`. -/
inductive Task where
  | accept
  | copyNetcat
  | copyTarget
  | copyRsync
  | copySource
  deriving DecidableEq, Repr

/-- The operations of a call that the statements speak about. -/
inductive Event where
  /-- `net.Listen("unix", addr)`, with its success -/
  | listen (addr : String) (ok : Bool)
  /-- `l.Close()` on the rendezvous listener -/
  | closeListener
  /-- `RunWrapper(cmd, source, destination)`, with its success -/
  | runWrapper (source destination : String) (ok : Bool)
  /-- the cleanup function the hook returned -/
  | cleanup
  /-- `cmd.StdoutPipe()`, with its success -/
  | stdoutPipe (ok : Bool)
  /-- `cmd.StdinPipe()`, with its success -/
  | stdinPipe (ok : Bool)
  /-- `cmd.StderrPipe()`, with its success -/
  | stderrPipe (ok : Bool)
  /-- `cmd.Start()`, with its success -/
  | start (ok : Bool)
  /-- a `go` statement starting the task -/
  | spawn (t : Task)
  /-- a receive from the channel of the task: the join -/
  | recv (t : Task)
  /-- the receive from `time.After(10 * time.Second)` -/
  | timeout
  /-- `io.ReadAll(stderr)` -/
  | readStderr
  /-- `cmd.Process.Kill()` -/
  | kill
  /-- `cmd.Wait()` -/
  | wait
  /-- `logger.Errorf` -/
  | log
  /-- `l.Accept()`, in the accept task -/
  | accept
  /-- `io.Copy` of the task, until it returns -/
  | copy (t : Task)
  /-- the send of the result of the task into its channel -/
  | send (t : Task)
  /-- `conn.Close()` on the stream of the caller -/
  | closeStream
  /-- a `Close()` on the rendezvous connection -/
  | closeNetcat
  /-- `stdout.Close()` -/
  | closeStdout
  /-- `stdin.Close()` -/
  | closeStdin
  /-- `os.MkdirAll(dest, 0755)`, with its success -/
  | mkdirAll (ok : Bool)
  /-- `cmd.Run()`: the start of the subprocess and the wait for its exit -/
  | run
  deriving DecidableEq, Repr

/-- The body of each task, in program order. -/
def taskProgram : Task → List Event
  | .accept => [.accept, .send .accept]
  | .copyNetcat => [.copy .copyNetcat, .send .copyNetcat, .closeNetcat, .closeNetcat,
      .closeStream]
  | .copyTarget => [.copy .copyTarget, .send .copyTarget, .closeNetcat]
  | .copyRsync => [.copy .copyRsync, .closeStdout, .closeStream, .send .copyRsync]
  | .copySource => [.copy .copySource, .closeStdin, .send .copySource]

/-- A call with what it did: the events of the calling goroutine up to its return
(or its panic), and the result, `none` when the call panicked. -/
structure Run (α : Type) where
  events : List Event
  result : Option α

/-- The tasks a sequence of events spawns, in order. -/
def spawnedTasks : List Event → List Task
  | [] => []
  | .spawn t :: es => t :: spawnedTasks es
  | _ :: es => spawnedTasks es

/-- All events of a call: those of the calling goroutine followed by the bodies of
the tasks it spawned. The order between goroutines is not meant: the list serves to
count. -/
def Run.allEvents {α : Type} (r : Run α) : List Event :=
  r.events ++ (spawnedTasks r.events).flatMap taskProgram

/-- The events of the hook call on an invocation: none when `RunWrapper` is nil. -/
def wrapperEvents (h : Host) (args : List String) (source destination : String) :
    List Event :=
  match h.RunWrapper with
  | none => []
  | some wrapper => [.runWrapper source destination (wrapper args source destination).isNone]

/-- The deferred cleanup of the hook: registered when `RunWrapper` is set and gave no
error. -/
def cleanupEvents (h : Host) : List Event :=
  match h.RunWrapper with
  | none => []
  | some _ => [.cleanup]

/-- The function `sendSetup` with its events. The deferred calls, the cleanup of the
hook and then the close of the listener, end every sequence after their `defer`.
The sequence is the program order of a call each of whose operations returns, and
the result is what the call then returns; how far a call gets when a read of stderr
cannot return is told by `reachedWhileRunning`. -/
def sendSetupRun (v : version.Pkg) (h : Host) (s : SendSession)
    (name path bwlimit execPath : String) (features rsyncArgs : List String) :
    Run SetupResult :=
  match s.listenErr with
  | some err => ⟨[.listen (sendAuds h s) false], some ⟨none, none, none, some (.basic err)⟩⟩
  | none =>
    match sendArgs v h s name path bwlimit execPath features rsyncArgs with
    | none => ⟨[.listen (sendAuds h s) true, .closeListener], none⟩
    | some args =>
      let opened : List Event := .listen (sendAuds h s) true :: wrapperEvents h args path ""
      let wrapped : Option GoError :=
        match h.RunWrapper with
        | none => none
        | some wrapper => wrapper args path ""
      match wrapped with
      | some err => ⟨opened ++ [.closeListener], some ⟨none, none, none, some err⟩⟩
      | none =>
        let deferred : List Event := cleanupEvents h ++ [.closeListener]
        match s.stderrPipeErr with
        | some err =>
          ⟨opened ++ [.stderrPipe false] ++ deferred,
            some ⟨none, none, none, some (.basic err)⟩⟩
        | none =>
          match s.startErr with
          | some err =>
            ⟨opened ++ [.stderrPipe true, .start false] ++ deferred,
              some ⟨none, none, none, some (.basic err)⟩⟩
          | none =>
            let started : List Event :=
              opened ++ [.stderrPipe true, .start true, .spawn .accept]
            match s.accept with
            | .failed =>
              ⟨started ++ [.recv .accept, .readStderr, .kill, .wait] ++ deferred,
                some ⟨none, none, none, some (.basic (.other
                  ("Failed to connect to rsync socket (" ++ s.setupStderr ++ ")")))⟩⟩
            | .timedOut =>
              ⟨started ++ [.timeout, .readStderr, .kill, .wait] ++ deferred,
                some ⟨none, none, none, some (.basic (.other
                  ("rsync failed to spawn after 10s (" ++ s.setupStderr ++ ")")))⟩⟩
            | .connected =>
              ⟨started ++ [.recv .accept] ++ deferred,
                some ⟨some ⟨args⟩, some ⟨sendAuds h s⟩, some ⟨⟩, none⟩⟩

/-- The function `Send` with its events. -/
def SendRun (v : version.Pkg) (h : Host) (s : SendSession) (name path : String)
    (features : List String) (bwlimit execPath : String) (rsyncArgs : List String) :
    Run (Option GoError) :=
  let setup := sendSetupRun v h s name path bwlimit execPath features rsyncArgs
  match setup.result with
  | none => ⟨setup.events, none⟩
  | some r =>
    match r.err with
    | some err => ⟨setup.events, some (some err)⟩
    | none =>
      let forwarding : List Event := setup.events ++ [.spawn .copyNetcat, .spawn .copyTarget]
      match r.cmd, r.conn, r.stderr with
      | some _, some _, some _ =>
        let output := s.stderrRead.1
        let drained : List Event :=
          match s.stderrRead.2 with
          | none => [.readStderr]
          | some _ => [.readStderr, .kill, .log]
        let err := cmdWait s.exit
        let errs := collectErrors err s.copyNetcat s.copyTarget
        ⟨forwarding ++ drained ++ [.wait, .recv .copyNetcat, .recv .copyTarget],
          if errs.length > 0 then
            some (some (.basic (.other ("Rsync send failed: " ++ name ++ ", " ++ path ++ ": " ++
              fmtErrors errs ++ " (" ++ output ++ ")"))))
          else some none⟩
      | _, _, _ => ⟨forwarding, none⟩

/-- The function `Recv` with its events. When the stderr pipe cannot be had the call
issues the kill on a process that was never started and panics in it; the deferred
cleanup runs during the panic. -/
def RecvRun (v : version.Pkg) (h : Host) (s : RecvSession) (path : String)
    (features : List String) : Run (Option GoError) :=
  match recvArgs v h path features with
  | none => ⟨[], none⟩
  | some args =>
    let hooked : List Event := wrapperEvents h args "" path
    let wrapped : Option GoError :=
      match h.RunWrapper with
      | none => none
      | some wrapper => wrapper args "" path
    match wrapped with
    | some err => ⟨hooked, some (some err)⟩
    | none =>
      let deferred : List Event := cleanupEvents h
      match s.stdoutPipeErr with
      | some err => ⟨hooked ++ [.stdoutPipe false] ++ deferred, some (some (.basic err))⟩
      | none =>
        match s.stdinPipeErr with
        | some err =>
          ⟨hooked ++ [.stdoutPipe true, .spawn .copyRsync, .stdinPipe false] ++ deferred,
            some (some (.basic err))⟩
        | none =>
          let piped : List Event :=
            hooked ++ [.stdoutPipe true, .spawn .copyRsync, .stdinPipe true, .spawn .copySource]
          match s.stderrPipeErr with
          | some _ => ⟨piped ++ [.stderrPipe false, .kill] ++ deferred, none⟩
          | none =>
            match s.startErr with
            | some err =>
              ⟨piped ++ [.stderrPipe true, .start false] ++ deferred, some (some (.basic err))⟩
            | none =>
              let output := s.stderrRead.1
              let drained : List Event :=
                match s.stderrRead.2 with
                | none => [.readStderr]
                | some _ => [.readStderr, .log]
              let err := cmdWait s.exit
              let errs := collectErrors err s.copyRsync s.copySource
              ⟨piped ++ [.stderrPipe true, .start true] ++ drained ++
                  [.wait, .recv .copyRsync, .recv .copySource] ++ deferred,
                if errs.length > 0 then
                  some (some (.basic (.other ("Rsync receive failed: " ++ path ++ ": " ++
                    fmtErrors errs ++ " (" ++ output ++ ")"))))
                else some none⟩

/-- The function `rsync` with its events. The deferred cleanup of the hook runs at the
return, after `cmd.Run` has returned. -/
def rsyncRun (h : Host) (args : List String) : Run (String × Option GoError) :=
  if args.length < 2 then
    ⟨[], some ("", some (.basic (.other
      "rsync call expects a minimum of two arguments (source and destination)")))⟩
  else
    match h.RunWrapper with
    | none =>
      let out := h.run args
      match cmdWait out.exit with
      | some err =>
        ⟨[.run], some (out.stdout, some (NewRunError "rsync" args err out.stdout out.stderr))⟩
      | none => ⟨[.run], some (out.stdout, none)⟩
    | some wrapper =>
      match args[args.length - 2]?, args[args.length - 1]? with
      | some source, some destination =>
        match wrapper args source destination with
        | some err => ⟨[.runWrapper source destination false], some ("", some err)⟩
        | none =>
          let out := h.run args
          match cmdWait out.exit with
          | some err =>
            ⟨[.runWrapper source destination true, .run, .cleanup],
              some (out.stdout, some (NewRunError "rsync" args err out.stdout out.stderr))⟩
          | none => ⟨[.runWrapper source destination true, .run, .cleanup], some (out.stdout, none)⟩
      | _, _ => ⟨[], none⟩

/-- The function `LocalCopy` with its events. -/
def LocalCopyRun (v : version.Pkg) (h : Host) (source dest bwlimit : String) (xattrs : Bool)
    (rsyncArgs : List String) : Run (String × Option GoError) :=
  match h.MkdirAll dest with
  | some err => ⟨[.mkdirAll false], some ("", some (.basic err))⟩
  | none =>
    match LocalCopyArgs v h source dest bwlimit xattrs rsyncArgs with
    | none => ⟨[.mkdirAll true], none⟩
    | some args =>
      let call := rsyncRun h args
      ⟨.mkdirAll true :: call.events,
        match call.result with
        | none => none
        | some (msg, none) => some (msg, none)
        | some (msg, some err) =>
          match err with
          | .run runError =>
            match runError.Unwrap with
            | .exitError code _ => if code = 24 then some (msg, none) else some (msg, some err)
            | .other _ => some (msg, some err)
          | .basic _ => some (msg, some err)⟩

/-- An event comes before another in a sequence: the second occurs after the first
occurrence of the first. -/
def Before (a b : Event) (l : List Event) : Prop :=
  b ∈ (l.dropWhile (fun e => e != a)).drop 1

instance (a b : Event) (l : List Event) : Decidable (Before a b l) := by
  unfold Before; infer_instance

/-- Every task the sequence spawns is joined later in it: after the `spawn` of a task
comes a `recv` of that task. -/
def AllJoined (l : List Event) : Prop :=
  ∀ t ∈ spawnedTasks l, Before (.spawn t) (.recv t) l

instance (l : List Event) : Decidable (AllJoined l) := by
  unfold AllJoined; infer_instance

/-! ## `ExtractInterfaceFromConfigName` (`lxd/containers.go`) -/

namespace regexp

/-- A match of the pattern `volatile\.([^.]*)\.hwaddr` that starts at the head of the
text: the matched text and the group. The group is the whole run of characters
other than a dot after `volatile.`, as the pattern can only go on at a dot. -/
def matchVolatileHere (s : List Char) : Option (List (List Char)) :=
  if "volatile.".data.isPrefixOf s then
    let rest := s.drop "volatile.".data.length
    let group := rest.takeWhile (fun c => c != '.')
    if ".hwaddr".data.isPrefixOf (rest.dropWhile (fun c => c != '.')) then
      some ["volatile.".data ++ group ++ ".hwaddr".data, group]
    else none
  else none

/-- The method `FindStringSubmatch` of the compiled pattern
`volatile\.([^.]*)\.hwaddr`: the leftmost match in the text with its group, `none`
(nil) when the text holds no match. -/
def findVolatile : List Char → Option (List (List Char))
  | [] => matchVolatileHere []
  | c :: cs =>
    match matchVolatileHere (c :: cs) with
    | some m => some m
    | none => findVolatile cs

end regexp

/-- The function `ExtractInterfaceFromConfigName`: the interface name and the
error. -/
def ExtractInterfaceFromConfigName (k : String) : Option (String × Option BasicError) :=
  let m := regexp.findVolatile k.data
  match m with
  | some l =>
    if l.length > 1 then
      match l[1]? with
      | some group => some (String.mk group, none)
      | none => none
    else some ("", some (.other (k ++ " did not match")))
  | none => some ("", some (.other (k ++ " did not match")))

/-! ## Package `path` -/

namespace strings

/-- The function `strings.HasPrefix(s, p)`: whether the text `s` begins with the text
`p`, character by character. -/
def HasPrefix (s p : String) : Bool :=
  p.data.isPrefixOf s.data

end strings

namespace path

/-- The elements of a path: the runs of characters between its slashes, with the empty
runs. -/
def elements (p : String) : List String :=
  strings.Split p "/"

/-- One step of `Clean` on the elements kept so far (last one first): an empty
element and `.` are dropped; `..` removes the element before it when that is not
itself `..`, is dropped at the root of a rooted path, and is kept otherwise; any
other element is kept. -/
def cleanStep (rooted : Bool) (kept : List String) (e : String) : List String :=
  if e = "" ∨ e = "." then kept
  else if e = ".." then
    match kept with
    | [] => if rooted then [] else [".."]
    | k :: ks => if k = ".." then ".." :: k :: ks else ks
  else e :: kept

/-- The function `path.Clean`: the shortest path name equivalent to `p` by purely
lexical processing; the empty path becomes `.`. -/
def Clean (p : String) : String :=
  if p = "" then "."
  else
    let rooted := strings.HasPrefix p "/"
    let kept := ((elements p).foldl (cleanStep rooted) []).reverse
    if rooted then "/" ++ "/".intercalate kept
    else if kept = [] then "."
    else "/".intercalate kept

/-- The function `path.Join`: the elements that come after the leading empty ones,
joined with slashes and cleaned; the empty text when every element is empty. -/
def Join (elem : List String) : String :=
  match elem.dropWhile (fun e => e == "") with
  | [] => ""
  | rest => Clean ("/".intercalate rest)

end path

/-! ## The handlers of `lxd/containers.go` -/

/-- The responses of the handlers, as far as the statements tell them apart. -/
inductive Response where
  /-- `SmartError(err)` -/
  | smartError (err : BasicError)
  /-- `BadRequest(err)` -/
  | badRequest (err : BasicError)
  /-- `InternalError(err)`; the error may be nil -/
  | internalError (err : Option BasicError)
  /-- the response `Conflict` -/
  | conflict
  /-- the response `NotFound` -/
  | notFound
  /-- `containerFileGet(r, p)`: the file at `p` of the host is sent -/
  | fileGet (p : String)
  /-- `containerFilePut(r, p)`: the file at `p` of the host is written -/
  | filePut (p : String)
  /-- `AsyncResponse` of the operation that renames `oldDir` to `newDir` -/
  | asyncRename (oldDir newDir : String)
  deriving DecidableEq, Repr

/-- What `containerFileHandler` reads from the request and from the container. -/
structure FileRequest where
  /-- the error of `newLxdContainer(name, d)` -/
  containerErr : Option BasicError
  /-- `r.FormValue("path")` -/
  targetPath : String
  /-- `c.c.Running()` -/
  running : Bool
  /-- `c.c.InitPid()` -/
  initPid : Nat
  /-- `shared.VarPath("lxc", name, "rootfs")` -/
  varPath : String
  /-- `r.Method` -/
  method : String

/-- The directory `containerFileHandler` takes as the root file system of the
container. -/
def FileRequest.rootfs (r : FileRequest) : String :=
  if r.running then "/proc/" ++ Nat.repr r.initPid ++ "/root" else r.varPath

/-- The function `containerFileHandler`. -/
def containerFileHandler (r : FileRequest) : Response :=
  match r.containerErr with
  | some err => .smartError err
  | none =>
    if r.targetPath = "" then .badRequest (.other "missing path argument")
    else
      let rootfs := r.rootfs
      let p := path.Clean (path.Join [rootfs, r.targetPath])
      if !strings.HasPrefix p (path.Clean rootfs) then
        .badRequest (.other (p ++ " is not in the container's rootfs"))
      else if r.method = "GET" then .fileGet p
      else if r.method = "POST" then .filePut p
      else .notFound

/-- The text `fmt.Sprintf("%x", n)` of a number that is not negative: its digits in
base sixteen, in lower case. -/
def fmtHex (n : Nat) : List Char :=
  Nat.toDigits 16 n

/-- The loop of `GenerateMacAddr` over the characters of the template: `k` counts the
draws made from the random source, `ret` is the buffer. -/
def generateMacAddrLoop (rand : Nat → Except BasicError (Fin 16)) :
    List Char → Nat → List Char → Except BasicError (List Char)
  | [], _, ret => .ok ret
  | c :: cs, k, ret =>
    if c = 'x' then
      match rand k with
      | .error err => .error err
      | .ok d => generateMacAddrLoop rand cs (k + 1) (ret ++ fmtHex d.val)
    else generateMacAddrLoop rand cs k (ret ++ [c])

/-- The function `GenerateMacAddr`. The random source gives the outcome of the k-th
call of `rand.Int(rand.Reader, big.NewInt(16))`: an error, or a number below 16. -/
def GenerateMacAddr (rand : Nat → Except BasicError (Fin 16)) (template : String) :
    String × Option BasicError :=
  match generateMacAddrLoop rand template.data 0 [] with
  | .error err => ("", some err)
  | .ok ret => (String.mk ret, none)

/-- The error of `os.Stat`, as `snapshotPost` tells the cases apart: the one for which
`os.IsNotExist` holds, or another one. -/
inductive StatError where
  | notExist
  | other (err : BasicError)
  deriving DecidableEq, Repr

/-- The function `os.IsNotExist` on the error of `os.Stat`; it is false for nil. -/
def IsNotExist : Option StatError → Bool
  | some .notExist => true
  | _ => false

/-- The error value handed to `InternalError` by `snapshotPost`. -/
def StatError.toBasic : StatError → BasicError
  | .notExist => .other "no such file or directory"
  | .other err => err

/-- What `snapshotPost` reads from the request and the host. -/
structure RenameRequest where
  /-- the error of decoding the body as JSON -/
  decodeErr : Option BasicError
  /-- `raw.GetString("name")` -/
  newName : Except BasicError String
  /-- `snapshotsDir(c)` -/
  snapshotsDir : String
  /-- the argument `oldName` -/
  oldName : String
  /-- the error of `os.Stat` on a path: nil when the path exists -/
  stat : String → Option StatError

/-- The function `snapshotDir`: the directory of a snapshot name. -/
def snapshotDir (snapshotsDir name : String) : String :=
  path.Join [snapshotsDir, name]

/-- The function `snapshotPost`. -/
def snapshotPost (r : RenameRequest) : Response :=
  match r.decodeErr with
  | some err => .badRequest err
  | none =>
    match r.newName with
    | .error err => .badRequest err
    | .ok newName =>
      let oldDir := snapshotDir r.snapshotsDir r.oldName
      let newDir := snapshotDir r.snapshotsDir newName
      let err := r.stat newDir
      if !IsNotExist err then .internalError (err.map StatError.toBasic)
      else if err = none then .conflict
      else .asyncRename oldDir newDir

namespace fmt

/-- The white space `Sscanf` passes over before a number; a newline is not part of
it. -/
def isBlank (c : Char) : Bool :=
  c = ' ' ∨ c = '\t' ∨ c = '\r' ∨ c = '\x0b' ∨ c = '\x0c'

/-- The value of a run of decimal digits read from the left, `acc` being the value of
the digits already read. -/
def digitsValue (acc : Nat) : List Char → Nat
  | [] => acc
  | c :: cs => digitsValue (acc * 10 + (c.toNat - '0'.toNat)) cs

/-- The call `fmt.Sscanf(s, "%d", &num)` when it stores a number: leading blanks are
passed over, an optional sign is read, then the longest run of decimal digits, which
must not be empty; what follows the digits is left unread. `none` stands for a
count other than one or an error, which is also the outcome when the number does
not fit 64 bits. -/
def sscanfInt (s : List Char) : Option Int :=
  let s := s.dropWhile isBlank
  let (negative, s) :=
    match s with
    | '-' :: rest => (true, rest)
    | '+' :: rest => (false, rest)
    | _ => (false, s)
  let digits := s.takeWhile Char.isDigit
  if digits = [] then none
  else
    let n : Int := if negative then - Int.ofNat (digitsValue 0 digits)
      else Int.ofNat (digitsValue 0 digits)
    if - (2 : Int) ^ 63 ≤ n ∧ n < (2 : Int) ^ 63 then some n else none

end fmt

/-- The loop of `nextSnapshot` over the rows of the query, `max` being the variable of
the same name. `none` is the panic of the slice expression. -/
def nextSnapshotLoop (length : Nat) : List String → Int → Option Int
  | [], max => some max
  | numstr :: rows, max =>
    if numstr.data.length ≤ length then nextSnapshotLoop length rows max
    else
      let substr := numstr.data.drop length
      match fmt.sscanfInt substr with
      | none => nextSnapshotLoop length rows max
      | some num =>
        if num ≥ max then nextSnapshotLoop length rows (num + 1)
        else nextSnapshotLoop length rows max

/-- The function `nextSnapshot`, on the outcome of its query
`SELECT MAX(name) FROM containers WHERE type=? AND SUBSTR(name,1,?)=?`: the rows of
one text each, or the error. Names are taken to be ASCII, so that lengths in bytes
and in characters agree. -/
def nextSnapshot (results : Except BasicError (List String)) (name : String) : Option Int :=
  let base := name ++ "/snap"
  let length := base.data.length
  match results with
  | .error _ => some 0
  | .ok rows => nextSnapshotLoop length rows 0

/-- The name `containerSnapshotsPost` gives a snapshot that comes without one:
`fmt.Sprintf("snap%d", i)` behind the name of the container. -/
def defaultSnapshotName (name : String) (i : Int) : String :=
  name ++ "/snap" ++ toString i

/-- The order of texts the database compares names in: character by character from
the left, a proper prefix coming first. -/
def textLess : List Char → List Char → Bool
  | [], [] => false
  | [], _ :: _ => true
  | _ :: _, [] => false
  | a :: as, b :: bs =>
    if a.toNat < b.toNat then true
    else if b.toNat < a.toNat then false
    else textLess as bs

/-- The value of `MAX(name)` over the names that start with `base`: the greatest one
in the order of texts, `none` when there is none. -/
def greatestName (existing : List String) (base : String) : Option String :=
  (existing.filter (fun n => strings.HasPrefix n base)).foldl
    (fun best n =>
      match best with
      | none => some n
      | some m => if textLess m.data n.data then some n else some m)
    none

/-! ## `GetInstanceSnapshot` (`internal/server/db/cluster/snapshots.mapper.go`) -/

/-- The errors `GetInstanceSnapshot` returns: one made by `api.StatusErrorf`, which
carries an HTTP status; one made by `fmt.Errorf` from a text alone; one made by
`fmt.Errorf` with `%w`, which wraps its cause. -/
inductive DbError where
  | status (code : Nat) (text : String)
  | plain (text : String)
  | wrapped (text : String) (cause : BasicError)
  deriving DecidableEq, Repr

/-- The HTTP status an error carries, if it is a status error. -/
def DbError.statusCode : DbError → Option Nat
  | .status code _ => some code
  | _ => none

/-- The constant `http.StatusNotFound`. -/
def StatusNotFound : Nat := 404

/-- The filter `InstanceSnapshotFilter`, with the four fields the mapper reads: each is
nil or a value to match. -/
structure InstanceSnapshotFilter where
  ID : Option Int
  Project : Option String
  Instance : Option String
  Name : Option String
  deriving DecidableEq, Repr

/-- The function `GetInstanceSnapshot`, over the rows (or the error) that
`GetInstanceSnapshots` gives for a filter: the snapshot and the error returned.
`none` is the panic of the index expression. -/
def GetInstanceSnapshot {σ : Type}
    (GetInstanceSnapshots : InstanceSnapshotFilter → Except BasicError (List σ))
    (project inst name : String) : Option (Option σ × Option DbError) :=
  let filter : InstanceSnapshotFilter :=
    { ID := none, Project := some project, Instance := some inst, Name := some name }
  match GetInstanceSnapshots filter with
  | .error err =>
    some (none, some (.wrapped "Failed to fetch from \"instances_snapshots\" table: " err))
  | .ok objects =>
    match objects.length with
    | 0 => some (none, some (.status StatusNotFound "InstanceSnapshot not found"))
    | 1 =>
      match objects[0]? with
      | some object => some (some object, none)
      | none => none
    | _ => some (none, some (.plain "More than one \"instances_snapshots\" entry matches"))

/-! ## `AuthorizationRun` (`internal/server/scriptlet/auth/auth.go`) -/

namespace starlark

/-- A value a Starlark call returns: a `starlark.Bool`, or a value of another type,
with the name `Type()` gives and its printed form. -/
inductive Value where
  | bool (b : Bool)
  | other (typ : String) (text : String)
  deriving DecidableEq, Repr

/-- The method `Type()` of a value. -/
def Value.Type : Value → String
  | .bool _ => "bool"
  | .other typ _ => typ

/-- The printed form of a value under `%v`. -/
def Value.text : Value → String
  | .bool true => "True"
  | .bool false => "False"
  | .other _ text => text

end starlark

/-- What one run of the authorization scriptlet meets on its way. -/
structure AuthSession where
  /-- the error of `scriptletLoad.AuthorizationProgram()` -/
  programErr : Option BasicError
  /-- the result of `prog.Init(thread, env)`: the names of the globals -/
  globals : Except BasicError (List String)
  /-- the error of `marshal.StarlarkMarshal(details)` -/
  marshalErr : Option BasicError
  /-- the result of `starlark.Call` on the authorizer -/
  call : Except BasicError starlark.Value

/-- The function `AuthorizationRun`: the verdict and the error. `none` is the panic of
a type assertion that fails. -/
def AuthorizationRun (s : AuthSession) : Option (Bool × Option BasicError) :=
  match s.programErr with
  | some err => some (false, some err)
  | none =>
    match s.globals with
    | .error err => some (false, some (.other ("Failed initializing: " ++ err.Error)))
    | .ok globals =>
      if ¬ globals.contains "authorize" then
        some (false, some (.other "Scriptlet missing authorize function"))
      else
        match s.marshalErr with
        | some err => some (false, some (.other ("Marshalling details failed: " ++ err.Error)))
        | none =>
          match s.call with
          | .error err => some (false, some (.other ("Failed to run: " ++ err.Error)))
          | .ok v =>
            if v.Type ≠ "bool" then
              some (false, some (.other ("Failed with unexpected return value: " ++ v.text)))
            else
              match v with
              | .bool b => some (b, none)
              | .other _ _ => none

/-! ## Notions of the statements -/

/-- A text contains another when the characters of the second occur in the first
as one contiguous run. -/
def Contains (text part : String) : Prop :=
  part.data <:+: text.data

instance (text part : String) : Decidable (Contains text part) := by
  unfold Contains; infer_instance

/-- The first line of a text: what comes before its first newline. -/
def firstLine (out : String) : String :=
  String.mk (out.data.takeWhile (fun c => c != '\n'))

/-- A `Send` session got past setup: `sendSetup` returned without an error. -/
def SendPastSetup (v : version.Pkg) (h : Host) (s : SendSession)
    (name path bwlimit execPath : String) (features rsyncArgs : List String) : Prop :=
  ∃ setup, sendSetup v h s name path bwlimit execPath features rsyncArgs = some setup ∧
    setup.err = none

/-- The subprocess of a `Recv` session was started: the hook did not fail on the built
invocation, the three pipes were obtained and `cmd.Start` gave no error. -/
def RecvStarted (v : version.Pkg) (h : Host) (s : RecvSession) (path : String)
    (features : List String) : Prop :=
  (∀ w args, h.RunWrapper = some w → recvArgs v h path features = some args →
      w args "" path = none) ∧
    s.stdoutPipeErr = none ∧ s.stdinPipeErr = none ∧ s.stderrPipeErr = none ∧
    s.startErr = none

/-- A path lies inside a directory: it is the directory itself or goes on from it
with a slash. -/
def WithinDir (dir p : String) : Prop :=
  p = dir ∨ (dir ++ "/").data <+: p.data

instance (dir p : String) : Decidable (WithinDir dir p) := by
  unfold WithinDir; infer_instance

/-- A character is one lowercase hexadecimal digit. -/
def IsLowerHex (c : Char) : Prop :=
  c ∈ "0123456789abcdef".data

instance (c : Char) : Decidable (IsLowerHex c) := by
  unfold IsLowerHex; infer_instance

/-- How far a call gets through its sequence when the subprocess, once started, keeps
running until it is killed. `io.ReadAll(stderr)` returns at the end of the stream,
which a running subprocess holds open, and `cmd.Wait` returns when the subprocess
has exited; so the call stays in the first of the two that it reaches while the
subprocess runs, and nothing after it is carried out. `running` tells whether the
subprocess runs before the head of the sequence. -/
def reachedWhileRunning (running : Bool) : List Event → List Event
  | [] => []
  | e :: es =>
    if running = true ∧ (e = .readStderr ∨ e = .wait) then [e]
    else
      e :: reachedWhileRunning
        (if e = .start true then true else if e = .kill then false else running) es

/-! ## Concrete inputs -/

/-- A host with rsync 3.2.7, a confinement hook that succeeds, and a tool whose every
run ends as `out`. -/
def hostRunning (out : RunOutcome) : Host where
  Debug := false
  RunWrapper := some (fun _ _ _ => none)
  rsyncVersion := .ok "rsync  version 3.2.7  protocol version 31\nCopyright (C) 1996-2022"
  MkdirAll := fun _ => none
  run := fun _ => out
  AddSlash := fun s => s ++ "/"
  ABSTRACT_UNIX_SOCK_LEN := 107

/-- A `Send` session that gets past setup and then ends with the given exit of the
subprocess, the given errors of the two copies and the given stderr text. -/
def sendSessionEnding (exit : ProcExit) (copyNetcat copyTarget : Option BasicError)
    (stderr : String) : SendSession where
  uuid := "6ba7b810-9dad-11d1-80b4-00c04fd430c8"
  listenErr := none
  stderrPipeErr := none
  startErr := none
  accept := .connected
  setupStderr := ""
  stderrRead := (stderr, none)
  exit := exit
  copyNetcat := copyNetcat
  copyTarget := copyTarget

/-- A `Recv` session whose subprocess starts and then ends with the given exit, the
given errors of the two copies and the given stderr text. -/
def recvSessionEnding (exit : ProcExit) (copyRsync copySource : Option BasicError)
    (stderr : String) : RecvSession where
  stdoutPipeErr := none
  stdinPipeErr := none
  stderrPipeErr := none
  startErr := none
  stderrRead := (stderr, none)
  exit := exit
  copyRsync := copyRsync
  copySource := copySource

/-- A `Send` session in which the subprocess starts and the accept ends as given,
the stderr of the subprocess holding the given text. -/
def sendSessionAccepting (accept : AcceptOutcome) (stderr : String) : SendSession where
  uuid := "6ba7b810-9dad-11d1-80b4-00c04fd430c8"
  listenErr := none
  stderrPipeErr := none
  startErr := none
  accept := accept
  setupStderr := stderr
  stderrRead := (stderr, none)
  exit := .signaled "signal: killed"
  copyNetcat := none
  copyTarget := none

/-- A `Send` session in which the listener cannot be opened. -/
def sendSessionNotListening : SendSession where
  uuid := "6ba7b810-9dad-11d1-80b4-00c04fd430c8"
  listenErr := some (.other "listen unix: address already in use")
  stderrPipeErr := none
  startErr := none
  accept := .connected
  setupStderr := ""
  stderrRead := ("", none)
  exit := .exited 0
  copyNetcat := none
  copyTarget := none

/-- A `Recv` session in which the stderr pipe of the subprocess cannot be had. -/
def recvSessionNoStderr : RecvSession where
  stdoutPipeErr := none
  stdinPipeErr := none
  stderrPipeErr := some (.other "exec: Stderr already set")
  startErr := none
  stderrRead := ("", none)
  exit := .exited 0
  copyRsync := none
  copySource := none

/-- A request for the file `../rootfs.bak/etc/shadow` of a stopped container whose
root file system is `/var/lib/lxd/lxc/c1/rootfs`. -/
def siblingRequest : FileRequest where
  containerErr := none
  targetPath := "../rootfs.bak/etc/shadow"
  running := false
  initPid := 0
  varPath := "/var/lib/lxd/lxc/c1/rootfs"
  method := "GET"

/-- A request to rename the snapshot `snap0` of `c1` to `snap1`, on a host where the
given directories exist and every other `os.Stat` gives not-exist. -/
def renameRequest (present : List String) : RenameRequest where
  decodeErr := none
  newName := .ok "snap1"
  snapshotsDir := "/var/lib/lxd/lxc/c1/snapshots"
  oldName := "snap0"
  stat := fun p => if p ∈ present then none else some .notExist

/-- The snapshots `snap0` to `snap10` of the container `c1`, next to one of `c2`. -/
def elevenSnapshots : List String :=
  ["c1/snap0", "c1/snap1", "c1/snap2", "c1/snap3", "c1/snap4", "c1/snap5", "c1/snap6",
    "c1/snap7", "c1/snap8", "c1/snap9", "c1/snap10", "c2/snap50"]

/-- A random source that gives 10, 11, 12, ... in turn, modulo 16. -/
def countingSource (k : Nat) : Except BasicError (Fin 16) :=
  .ok ⟨(k + 10) % 16, Nat.mod_lt _ (by decide)⟩

/-- A random source that fails at its third call. -/
def failingSource (k : Nat) : Except BasicError (Fin 16) :=
  if k = 2 then .error (.other "read /dev/urandom: input/output error")
  else .ok ⟨k % 16, Nat.mod_lt _ (by decide)⟩

/-- An authorization run in which the scriptlet answers with the given value. -/
def authSessionAnswering (v : starlark.Value) : AuthSession where
  programErr := none
  globals := .ok ["authorize"]
  marshalErr := none
  call := .ok v

/-! # Theorems -/

/-! ## The string functions -/

theorem strings.splitGo_ne_nil (sep : List Char) (l : List Char) :
    ∀ (skip : Nat) (acc : List Char), strings.splitGo sep skip l acc ≠ [] := by
  induction l with
  | nil => intro skip acc; simp [strings.splitGo]
  | cons c cs ih =>
    intro skip acc
    cases skip with
    | zero =>
      simp only [strings.splitGo]
      split
      · simp
      · exact ih 0 (c :: acc)
    | succ k => simp only [strings.splitGo]; exact ih k acc

theorem strings.splitGo_newline_head (l : List Char) :
    ∀ acc : List Char, (strings.splitGo ['\n'] 0 l acc)[0]? =
      some (acc.reverse ++ l.takeWhile (fun c => c != '\n')) := by
  induction l with
  | nil => intro acc; simp [strings.splitGo]
  | cons c cs ih =>
    intro acc
    by_cases hc : c = '\n'
    · subst hc
      simp [strings.splitGo]
    · have hpre : List.isPrefixOf ['\n'] (c :: cs) = false := by
        simp [List.isPrefixOf, Ne.symm hc]
      simp only [strings.splitGo, hpre]
      rw [if_neg (by simp), ih]
      have hb : (c != '\n') = true := by simpa using hc
      simp [List.takeWhile, hb]

theorem strings.Split_newline_first (out : String) :
    (strings.Split out "\n")[0]? = some (firstLine out) := by
  unfold strings.Split firstLine
  rw [if_neg (by decide)]
  have h := strings.splitGo_newline_head out.data []
  have hd : ("\n" : String).data = ['\n'] := rfl
  rw [hd]
  simp only [List.getElem?_map, h]
  simp

theorem AtLeast_false_on_failure (v : version.Pkg) (h : Host) (min : String) :
    ∃ b, AtLeast v h min = some b ∧
      (∀ e, h.rsyncVersion = .error e → b = false) ∧
      (∀ out, h.rsyncVersion = .ok out →
        ((strings.Split (firstLine out) "  ").length < 3 → b = false) ∧
        (∀ field, (strings.Split (firstLine out) "  ")[1]? = some field →
          v.Parse (strings.TrimPrefix field "version ") = none → b = false)) ∧
      (v.NewDottedVersion min = none → b = false) := by
  unfold AtLeast
  cases hv : h.rsyncVersion with
  | error e =>
    exact ⟨false, rfl, fun _ _ => rfl, fun _ ho => (by cases ho), fun _ => rfl⟩
  | ok out =>
    simp only [strings.Split_newline_first]
    by_cases hlen : (strings.Split (firstLine out) "  ").length < 3
    · refine ⟨false, by simp [hlen], fun _ _ => rfl, fun o ho => ?_, fun _ => rfl⟩
      exact ⟨fun _ => rfl, fun _ _ _ => rfl⟩
    · simp only [hlen, if_false]
      have h1 : 1 < (strings.Split (firstLine out) "  ").length := by omega
      rw [List.getElem?_eq_getElem h1]
      simp only
      cases hp : v.Parse (strings.TrimPrefix ((strings.Split (firstLine out) "  ")[1]) "version ") with
      | none =>
        refine ⟨false, rfl, fun _ _ => rfl, fun o ho => ?_, fun _ => rfl⟩
        exact ⟨fun _ => rfl, fun _ _ _ => rfl⟩
      | some ver =>
        cases hm : v.NewDottedVersion min with
        | none =>
          refine ⟨false, rfl, fun _ _ => rfl, fun o ho => ?_, fun _ => rfl⟩
          exact ⟨fun _ => rfl, fun _ _ _ => rfl⟩
        | some minVer =>
          refine ⟨_, rfl, fun e he => (by cases he), fun o ho => ?_, fun hn => (by cases hn)⟩
          cases ho
          refine ⟨fun hl => absurd hl hlen, fun field hf hpn => ?_⟩
          rw [List.getElem?_eq_getElem h1] at hf
          cases hf
          rw [hp] at hpn
          cases hpn

theorem AtLeast_short_output (v : version.Pkg) (h : Host) (min out : String)
    (hlen : (strings.Split (firstLine out) "  ").length < 3) :
    AtLeast v { h with rsyncVersion := .ok out } min = some false := by
  simp only [AtLeast, strings.Split_newline_first]
  rw [if_pos hlen]

theorem AtLeast_some (v : version.Pkg) (h : Host) (min : String) :
    ∃ b, AtLeast v h min = some b := by
  obtain ⟨b, hb, _⟩ := AtLeast_false_on_failure v h min
  exact ⟨b, hb⟩

/-- The flags `rsyncFeatureArgs` produces, written as one expression of the three
membership facts and the answer of the version probe. -/
theorem rsyncFeatureArgs_eq (v : version.Pkg) (h : Host) (features : List String) (b : Bool)
    (hb : AtLeast v h "3.1.3" = some b) :
    rsyncFeatureArgs v h features = some (
      (if "xattrs" ∈ features then
        "--xattrs" :: (if b = true then ["--filter=-x security.selinux"] else [])
       else []) ++
      (if "delete" ∈ features then ["--delete"] else []) ++
      (if "compress" ∈ features then ["--compress", "--compress-level=2"] else [])) := by
  unfold rsyncFeatureArgs ValueInSlice
  by_cases hx : "xattrs" ∈ features <;> by_cases hd : "delete" ∈ features <;>
    by_cases hc : "compress" ∈ features <;> cases b <;>
    simp [hx, hd, hc, hb]

/-- C7: for every feature list `rsyncFeatureArgs` returns (without panicking) exactly
`--xattrs` when `xattrs` is present, directly followed by
`--filter=-x security.selinux` exactly when `AtLeast("3.1.3")` is true, then `--delete`
when `delete` is present, then `--compress` and `--compress-level=2` when `compress`
is present, and nothing else; the filter flag occurs in the result only together
with `--xattrs` and only when the probe answered true. -/
theorem rsyncFeatureArgs_exact (v : version.Pkg) (h : Host) (features : List String) :
    ∃ b args, AtLeast v h "3.1.3" = some b ∧
      rsyncFeatureArgs v h features = some args ∧
      args =
        (if "xattrs" ∈ features then
          "--xattrs" :: (if b = true then ["--filter=-x security.selinux"] else [])
         else []) ++
        (if "delete" ∈ features then ["--delete"] else []) ++
        (if "compress" ∈ features then ["--compress", "--compress-level=2"] else []) ∧
      ("--filter=-x security.selinux" ∈ args ↔ ("xattrs" ∈ features ∧ b = true)) ∧
      ("--filter=-x security.selinux" ∈ args → "--xattrs" ∈ args) := by
  obtain ⟨b, hb⟩ := AtLeast_some v h "3.1.3"
  refine ⟨b, _, hb, rsyncFeatureArgs_eq v h features b hb, rfl, ?_, ?_⟩
  · by_cases hx : "xattrs" ∈ features <;> by_cases hd : "delete" ∈ features <;>
      by_cases hc : "compress" ∈ features <;> cases b <;> simp [hx, hd, hc]
  · by_cases hx : "xattrs" ∈ features <;> by_cases hd : "delete" ∈ features <;>
      by_cases hc : "compress" ∈ features <;> cases b <;> simp [hx, hd, hc]

/-- C8: for a fixed host (a fixed probed version) the result of `rsyncFeatureArgs`
depends only on which of `xattrs`, `delete` and `compress` occur in the list: two
lists that agree on these three memberships (a permutation, a list with repeated
names, a list with other names added) give the same flags, and the call returns. -/
theorem rsyncFeatureArgs_membership_only (v : version.Pkg) (h : Host) (f g : List String)
    (hx : "xattrs" ∈ f ↔ "xattrs" ∈ g) (hd : "delete" ∈ f ↔ "delete" ∈ g)
    (hc : "compress" ∈ f ↔ "compress" ∈ g) :
    rsyncFeatureArgs v h f = rsyncFeatureArgs v h g ∧
      ∃ args, rsyncFeatureArgs v h f = some args := by
  obtain ⟨b, hb⟩ := AtLeast_some v h "3.1.3"
  rw [rsyncFeatureArgs_eq v h f b hb, rsyncFeatureArgs_eq v h g b hb]
  refine ⟨?_, _, rfl⟩
  simp only [hx, hd, hc]


/-! ## The fields of the version line -/

theorem strings.splitGo_cons (sep : List Char) (c : Char) (cs acc : List Char) :
    strings.splitGo sep 0 (c :: cs) acc =
      if sep.isPrefixOf (c :: cs) then
        acc.reverse :: strings.splitGo sep (sep.length - 1) cs []
      else strings.splitGo sep 0 cs (c :: acc) := rfl

theorem strings.splitGo_skip (sep : List Char) (k : Nat) (c : Char) (cs acc : List Char) :
    strings.splitGo sep (k + 1) (c :: cs) acc = strings.splitGo sep k cs acc := rfl

theorem strings.splitGo_run (r : List Char) :
    ∀ (a acc : List Char), (∀ c ∈ a, c ≠ ' ') →
      strings.splitGo [' ', ' '] 0 (a ++ r) acc =
        strings.splitGo [' ', ' '] 0 r (a.reverse ++ acc) := by
  intro a
  induction a with
  | nil => intro acc _; simp
  | cons c cs ih =>
    intro acc hns
    have hc : c ≠ ' ' := hns c (List.mem_cons_self _ _)
    have hpre : List.isPrefixOf [' ', ' '] (c :: (cs ++ r)) = false := by
      simp [List.isPrefixOf, Ne.symm hc]
    rw [List.cons_append, strings.splitGo_cons, hpre, if_neg (by simp),
      ih (c :: acc) (fun d hd => hns d (List.mem_cons_of_mem _ hd))]
    simp

theorem strings.splitGo_sep (r acc : List Char) :
    strings.splitGo [' ', ' '] 0 (' ' :: ' ' :: r) acc =
      acc.reverse :: strings.splitGo [' ', ' '] 0 r [] := by
  have hpre : List.isPrefixOf [' ', ' '] (' ' :: ' ' :: r) = true := by
    simp [List.isPrefixOf]
  rw [strings.splitGo_cons, hpre, if_pos rfl]
  simp [strings.splitGo_skip]

theorem strings.splitGo_single (c : Char) (r acc : List Char) (hc : c ≠ ' ') :
    strings.splitGo [' ', ' '] 0 (' ' :: c :: r) acc =
      strings.splitGo [' ', ' '] 0 (c :: r) (' ' :: acc) := by
  have hpre : List.isPrefixOf [' ', ' '] (' ' :: c :: r) = false := by
    simp [List.isPrefixOf, Ne.symm hc]
  rw [strings.splitGo_cons, hpre, if_neg (by simp)]

theorem strings.splitGo_first_field (r : List Char) :
    ∀ (a acc : List Char), ¬ [' ', ' '] <:+: a ++ [' '] →
      strings.splitGo [' ', ' '] 0 (a ++ ' ' :: ' ' :: r) acc =
        (acc.reverse ++ a) :: strings.splitGo [' ', ' '] 0 r [] := by
  intro a
  induction a with
  | nil => intro acc _; simpa using strings.splitGo_sep r acc
  | cons c cs ih =>
    intro acc hno
    have htail : ¬ [' ', ' '] <:+: cs ++ [' '] := fun hc => hno (List.infix_cons hc)
    have hpre : List.isPrefixOf [' ', ' '] (c :: (cs ++ ' ' :: ' ' :: r)) = false := by
      cases cs with
      | nil =>
        have hc : c ≠ ' ' := by
          rintro rfl
          exact hno (List.infix_refl _)
        simp [List.isPrefixOf, Ne.symm hc]
      | cons d ds =>
        by_cases hc : c = ' '
        · subst hc
          have hd : d ≠ ' ' := by
            rintro rfl
            exact hno ⟨[], ds ++ [' '], by simp⟩
          simp [List.isPrefixOf, Ne.symm hd]
        · simp [List.isPrefixOf, Ne.symm hc]
    rw [List.cons_append, strings.splitGo_cons, hpre, if_neg (by simp), ih (c :: acc) htail]
    simp

/-- The fields of a line `name  version V  rest` in which the first two blanks are
those after the name and the version token holds no blank: the name, then
`version V`, then the fields of the rest. -/
theorem strings.splitGo_version_line (name V r : List Char)
    (hname : ¬ [' ', ' '] <:+: name ++ [' ']) (hV : ∀ c ∈ V, c ≠ ' ') (hne : V ≠ []) :
    strings.splitGo [' ', ' '] 0
        (name ++ (' ' :: ' ' :: 'v' :: 'e' :: 'r' :: 's' :: 'i' :: 'o' :: 'n' :: ' ' ::
          (V ++ (' ' :: ' ' :: r)))) [] =
      name :: (['v', 'e', 'r', 's', 'i', 'o', 'n', ' '] ++ V) ::
        strings.splitGo [' ', ' '] 0 r [] := by
  rw [strings.splitGo_first_field _ name [] hname]
  have hvers : ∀ c ∈ ['v', 'e', 'r', 's', 'i', 'o', 'n'], c ≠ ' ' := by decide
  have h1 := strings.splitGo_run (' ' :: (V ++ (' ' :: ' ' :: r)))
    ['v', 'e', 'r', 's', 'i', 'o', 'n'] [] hvers
  simp only [List.cons_append, List.nil_append] at h1
  rw [h1]
  cases V with
  | nil => exact absurd rfl hne
  | cons d ds =>
    have hd : d ≠ ' ' := hV d (List.mem_cons_self _ _)
    rw [List.cons_append, strings.splitGo_single d _ _ hd, ← List.cons_append,
      strings.splitGo_run _ (d :: ds) _ hV, strings.splitGo_sep]
    simp


/-! ## Dotted versions -/

theorem version.fieldsOf_ne_nil (sep : Char) (l : List Char) : version.fieldsOf sep l ≠ [] := by
  cases l with
  | nil => simp [version.fieldsOf]
  | cons c cs =>
    unfold version.fieldsOf
    split
    · simp
    · split <;> simp

theorem version.mem_fieldsOf (sep : Char) (l : List Char) :
    ∀ c ∈ l, c = sep ∨ ∃ f ∈ version.fieldsOf sep l, c ∈ f := by
  induction l with
  | nil => intro c hc; cases hc
  | cons d ds ih =>
    intro c hc
    unfold version.fieldsOf
    by_cases hd : d = sep
    · rw [if_pos hd]
      rcases List.mem_cons.mp hc with rfl | hmem
      · exact Or.inl hd
      · rcases ih c hmem with hs | ⟨f, hf, hcf⟩
        · exact Or.inl hs
        · exact Or.inr ⟨f, List.mem_cons_of_mem _ hf, hcf⟩
    · rw [if_neg hd]
      cases hfs : version.fieldsOf sep ds with
      | nil => exact absurd hfs (version.fieldsOf_ne_nil sep ds)
      | cons f fs =>
        simp only
        rcases List.mem_cons.mp hc with rfl | hmem
        · exact Or.inr ⟨c :: f, List.mem_cons_self _ _, List.mem_cons_self _ _⟩
        · rcases ih c hmem with hs | ⟨g, hg, hcg⟩
          · exact Or.inl hs
          · rw [hfs] at hg
            rcases List.mem_cons.mp hg with rfl | hg2
            · exact Or.inr ⟨d :: g, List.mem_cons_self _ _, List.mem_cons_of_mem _ hcg⟩
            · exact Or.inr ⟨g, List.mem_cons_of_mem _ hg2, hcg⟩

theorem version.component_digits (cs : List Char) (n : Nat)
    (h : version.component cs = some n) : ∀ c ∈ cs, c.isDigit = true := by
  unfold version.component at h
  split at h
  · rename_i hc
    intro c hmem
    exact (List.all_eq_true.mp hc.2) c hmem
  · cases h

/-- A text that parses as a dotted version is not empty and holds digits and dots
only. -/
theorem version.NewDottedVersion_chars (V : String) (ver : version.DottedVersion)
    (h : version.NewDottedVersion V = some ver) :
    V.data ≠ [] ∧ ∀ c ∈ V.data, c.isDigit = true ∨ c = '.' := by
  unfold version.NewDottedVersion at h
  split at h
  · rename_i a b c hf
    split at h
    · rename_i x y z hx hy hz
      constructor
      · intro hnil
        rw [hnil] at hf
        simp [version.fieldsOf] at hf
      · intro d hd
        rcases version.mem_fieldsOf '.' V.data d hd with hdot | ⟨f, hfm, hdf⟩
        · exact Or.inr hdot
        · rw [hf] at hfm
          simp only [List.mem_cons, List.mem_singleton, List.not_mem_nil, or_false] at hfm
          rcases hfm with rfl | rfl | rfl
          · exact Or.inl (version.component_digits _ _ hx d hdf)
          · exact Or.inl (version.component_digits _ _ hy d hdf)
          · exact Or.inl (version.component_digits _ _ hz d hdf)
    · cases h
  · cases h

theorem version.Compare_nonneg_iff (a b : version.DottedVersion) :
    0 ≤ version.DottedVersion.Compare a b ↔ version.DottedVersion.AtMost b a := by
  unfold version.DottedVersion.Compare version.DottedVersion.AtMost version.compareInts
  split_ifs <;> constructor <;> intro h <;> omega


/-! ## The version probe -/

theorem isDigit_ne_blank (c : Char) (h : c.isDigit = true ∨ c = '.') :
    c ≠ ' ' ∧ c ≠ '\n' := by
  constructor
  · rintro rfl
    rcases h with h | h
    · exact absurd h (by decide)
    · exact absurd h (by decide)
  · rintro rfl
    rcases h with h | h
    · exact absurd h (by decide)
    · exact absurd h (by decide)

/-- The version token `AtLeast` extracts from a first line `name  version V  rest`. -/
theorem versionLine_fields (name V rest : String)
    (hnl : ∀ c ∈ name.data, c ≠ '\n') (hsep : ¬ [' ', ' '] <:+: name.data ++ [' '])
    (hV : ∀ c ∈ V.data, c ≠ ' ' ∧ c ≠ '\n') (hne : V.data ≠ []) :
    ¬ (strings.Split (firstLine (name ++ "  version " ++ V ++ "  " ++ rest)) "  ").length < 3 ∧
      (strings.Split (firstLine (name ++ "  version " ++ V ++ "  " ++ rest)) "  ")[1]? =
        some ("version " ++ V) := by
  have hline : (firstLine (name ++ "  version " ++ V ++ "  " ++ rest)).data =
      name.data ++ (' ' :: ' ' :: 'v' :: 'e' :: 'r' :: 's' :: 'i' :: 'o' :: 'n' :: ' ' ::
        (V.data ++ (' ' :: ' ' :: (firstLine rest).data))) := by
    have h1 : ("  version " : String).data =
        [' ', ' ', 'v', 'e', 'r', 's', 'i', 'o', 'n', ' '] := rfl
    have h2 : ("  " : String).data = [' ', ' '] := rfl
    have hpre : ∀ c ∈ name.data ++ [' ', ' ', 'v', 'e', 'r', 's', 'i', 'o', 'n', ' '] ++
        V.data ++ [' ', ' '], (c != '\n') = true := by
      intro c hc
      simp only [List.mem_append] at hc
      rcases hc with ((hc | hc) | hc) | hc
      · simpa using hnl c hc
      · revert c; decide
      · simpa using (hV c hc).2
      · revert c; decide
    simp only [firstLine, String.data_append, h1, h2]
    rw [List.takeWhile_append_of_pos hpre]
    simp
  have hsplit : strings.Split (firstLine (name ++ "  version " ++ V ++ "  " ++ rest)) "  " =
      (name.data :: (['v', 'e', 'r', 's', 'i', 'o', 'n', ' '] ++ V.data) ::
        strings.splitGo [' ', ' '] 0 (firstLine rest).data []).map String.mk := by
    unfold strings.Split
    rw [if_neg (by decide), hline]
    have h2 : ("  " : String).data = [' ', ' '] := rfl
    rw [h2, strings.splitGo_version_line _ _ _ hsep (fun c hc => (hV c hc).1) hne]
  rw [hsplit]
  constructor
  · have := strings.splitGo_ne_nil [' ', ' '] (firstLine rest).data 0 []
    cases hs : strings.splitGo [' ', ' '] 0 (firstLine rest).data [] with
    | nil => exact absurd hs this
    | cons f fs => simp
  · simp only [List.map_cons, List.getElem?_cons_succ, List.getElem?_cons_zero]
    rfl

theorem TrimPrefix_version (V : String) :
    strings.TrimPrefix ("version " ++ V) "version " = V := by
  unfold strings.TrimPrefix
  have h1 : ("version " : String).data = ['v', 'e', 'r', 's', 'i', 'o', 'n', ' '] := rfl
  simp [String.data_append, h1, List.isPrefixOf]

/-- C9: when the first line of the tool output is `name  version V  rest`, where the
two blanks after `name` are the first two adjacent blanks of the line (so for every
name without blanks) and `name` holds no newline, `V` is a well-formed dotted
version and `min` is a well-formed dotted version, `AtLeast(min)` returns true
exactly when `min` is at most `V` in the component-wise numeric order; equal
versions give true. -/
theorem AtLeast_iff_version_ge (h : Host) (name V rest min : String)
    (ver minVer : version.DottedVersion)
    (hout : h.rsyncVersion = .ok (name ++ "  version " ++ V ++ "  " ++ rest))
    (hnl : ∀ c ∈ name.data, c ≠ '\n') (hsep : ¬ [' ', ' '] <:+: name.data ++ [' '])
    (hV : version.NewDottedVersion V = some ver)
    (hmin : version.NewDottedVersion min = some minVer) :
    AtLeast version.specPkg h min = some (decide (version.DottedVersion.AtMost minVer ver)) ∧
      (ver = minVer → AtLeast version.specPkg h min = some true) := by
  obtain ⟨hne, hchars⟩ := version.NewDottedVersion_chars V ver hV
  obtain ⟨hlen, hfield⟩ := versionLine_fields name V rest hnl hsep
    (fun c hc => isDigit_ne_blank c (hchars c hc)) hne
  have hres : AtLeast version.specPkg h min =
      some (decide (version.DottedVersion.AtMost minVer ver)) := by
    unfold AtLeast
    rw [hout]
    simp only [strings.Split_newline_first, hlen, if_false, hfield, TrimPrefix_version]
    have hp : version.specPkg.Parse V = some ver := hV
    have hm : version.specPkg.NewDottedVersion min = some minVer := hmin
    rw [hp, hm]
    simp only [Option.some.injEq, decide_eq_decide]
    exact version.Compare_nonneg_iff ver minVer
  refine ⟨hres, fun heq => ?_⟩
  rw [hres, heq]
  simp [version.DottedVersion.AtMost]

theorem AtLeast_iff_version_ge_witness :
    AtLeast version.specPkg
      { Debug := false, RunWrapper := none,
        rsyncVersion := .ok ("rsync" ++ "  version " ++ "3.10.0" ++ "  " ++
          "protocol version 31\nCopyright (C) 1996-2022"),
        MkdirAll := fun _ => none, run := fun _ => ⟨"", "", .exited 0⟩,
        AddSlash := fun s => s, ABSTRACT_UNIX_SOCK_LEN := 107 } "3.9.0" = some true :=
  (AtLeast_iff_version_ge _ "rsync" "3.10.0" "protocol version 31\nCopyright (C) 1996-2022"
    "3.9.0" ⟨3, 10, 0⟩ ⟨3, 9, 0⟩ rfl (by decide) (by decide) (by decide) (by decide)).1

/-! ## The local copy -/

theorem last_two_of_append (front : List String) (a b c : String) :
    (front ++ [a, b, c]).length ≥ 2 ∧
      (front ++ [a, b, c])[(front ++ [a, b, c]).length - 2]? = some b ∧
      (front ++ [a, b, c])[(front ++ [a, b, c]).length - 1]? = some c := by
  have hlen : (front ++ [a, b, c]).length = front.length + 3 := by simp
  refine ⟨by omega, ?_, ?_⟩
  · rw [hlen, List.getElem?_append_right (by omega)]
    have : front.length + 3 - 2 - front.length = 1 := by omega
    rw [this]; rfl
  · rw [hlen, List.getElem?_append_right (by omega)]
    have : front.length + 3 - 1 - front.length = 2 := by omega
    rw [this]; rfl

/-- The argument list of `LocalCopy` always exists and ends with the verbosity flag,
the source with its slash and the destination. -/
theorem LocalCopyArgs_shape (v : version.Pkg) (h : Host) (source dest bwlimit : String)
    (xattrs : Bool) (rsyncArgs : List String) :
    ∃ front, LocalCopyArgs v h source dest bwlimit xattrs rsyncArgs =
      some (front ++ [if h.Debug then "-vi" else "-q", h.AddSlash source, dest]) := by
  obtain ⟨b, hb⟩ := AtLeast_some v h "3.1.3"
  unfold LocalCopyArgs
  cases xattrs <;> cases b <;> simp [hb]

/-- What `rsync` does with an argument list of that shape when the hook does not
fail on it. -/
theorem rsync_of_shape (h : Host) (front : List String) (a b c : String)
    (hhook : ∀ w, h.RunWrapper = some w → w (front ++ [a, b, c]) b c = none) :
    rsync h (front ++ [a, b, c]) =
      match cmdWait (h.run (front ++ [a, b, c])).exit with
      | some err => some ((h.run (front ++ [a, b, c])).stdout,
          some (NewRunError "rsync" (front ++ [a, b, c]) err
            (h.run (front ++ [a, b, c])).stdout (h.run (front ++ [a, b, c])).stderr))
      | none => some ((h.run (front ++ [a, b, c])).stdout, none) := by
  obtain ⟨hlen, h2, h1⟩ := last_two_of_append front a b c
  unfold rsync
  rw [if_neg (by omega)]
  cases hw : h.RunWrapper with
  | none => simp only
  | some w =>
    simp only [h2, h1, hhook w hw]


/-- What `LocalCopy` returns once the destination exists and the hook does not fail:
the standard output of the run, with the error of the run unless the exit is
tolerated. -/
theorem LocalCopy_of_run (v : version.Pkg) (h : Host) (source dest bwlimit : String)
    (xattrs : Bool) (rsyncArgs args : List String)
    (hargs : LocalCopyArgs v h source dest bwlimit xattrs rsyncArgs = some args)
    (hmk : h.MkdirAll dest = none)
    (hhook : ∀ w, h.RunWrapper = some w → w args (h.AddSlash source) dest = none) :
    LocalCopy v h source dest bwlimit xattrs rsyncArgs =
      some ((h.run args).stdout,
        match cmdWait (h.run args).exit with
        | none => none
        | some (.exitError code text) =>
          if code = 24 then none
          else some (NewRunError "rsync" args (.exitError code text)
            (h.run args).stdout (h.run args).stderr)
        | some (.other text) =>
          some (NewRunError "rsync" args (.other text) (h.run args).stdout (h.run args).stderr)) := by
  obtain ⟨front, hfront⟩ := LocalCopyArgs_shape v h source dest bwlimit xattrs rsyncArgs
  have hargs2 : args = front ++ [if h.Debug then "-vi" else "-q", h.AddSlash source, dest] := by
    rw [hargs] at hfront; exact Option.some.inj hfront
  unfold LocalCopy
  rw [hmk, hargs]
  simp only
  have hr := rsync_of_shape h front (if h.Debug then "-vi" else "-q") (h.AddSlash source) dest
    (by rw [← hargs2]; exact hhook)
  rw [← hargs2] at hr
  rw [hr]
  cases hw : cmdWait (h.run args).exit with
  | none => rfl
  | some e =>
    cases e with
    | exitError code text =>
      simp only [NewRunError, RunError.Unwrap]
      split <;> rfl
    | other text => rfl

theorem cmdWait_eq_none_iff (e : ProcExit) : cmdWait e = none ↔ e = .exited 0 := by
  cases e with
  | exited n => cases n <;> simp [cmdWait]
  | signaled t => simp [cmdWait]
  | broken t => simp [cmdWait]

theorem cmdWait_exit24_iff (e : ProcExit) :
    (∃ text, cmdWait e = some (.exitError 24 text)) ↔ e = .exited 24 := by
  cases e with
  | exited n =>
    cases n with
    | zero => simp [cmdWait]
    | succ k =>
      simp only [cmdWait, Option.some.injEq, BasicError.exitError.injEq, ProcExit.exited.injEq]
      constructor
      · rintro ⟨_, hk, _⟩
        have : ((k + 1 : Nat) : Int) = 24 := hk
        omega
      · intro hk
        refine ⟨_, ?_, rfl⟩
        rw [hk]; rfl
  | signaled t => simp [cmdWait]
  | broken t => simp [cmdWait]

/-- C5: when the destination directory could be created and the confinement hook
does not fail on the built invocation, `LocalCopy` returns, and it returns no error
exactly when the tool exited with status 0 or with status 24; for every other end of
the run (another exit status, a signal, a run error that is not an exit status) it
returns the run error that wraps the error of the run. -/
theorem LocalCopy_error_iff (v : version.Pkg) (h : Host) (source dest bwlimit : String)
    (xattrs : Bool) (rsyncArgs : List String)
    (hmk : h.MkdirAll dest = none)
    (hhook : ∀ w args, h.RunWrapper = some w →
      LocalCopyArgs v h source dest bwlimit xattrs rsyncArgs = some args →
      w args (h.AddSlash source) dest = none) :
    ∃ args err,
      LocalCopyArgs v h source dest bwlimit xattrs rsyncArgs = some args ∧
      LocalCopy v h source dest bwlimit xattrs rsyncArgs = some ((h.run args).stdout, err) ∧
      (err = none ↔ ((h.run args).exit = .exited 0 ∨ (h.run args).exit = .exited 24)) ∧
      (∀ e, cmdWait (h.run args).exit = some e → (h.run args).exit ≠ .exited 24 →
        err = some (NewRunError "rsync" args e (h.run args).stdout (h.run args).stderr)) := by
  obtain ⟨front, hfront⟩ := LocalCopyArgs_shape v h source dest bwlimit xattrs rsyncArgs
  have hrun := LocalCopy_of_run v h source dest bwlimit xattrs rsyncArgs _ hfront hmk
    (fun w hw => hhook w _ hw hfront)
  refine ⟨_, _, hfront, hrun, ?_, ?_⟩
  · generalize h.run (front ++ [if h.Debug then "-vi" else "-q", h.AddSlash source, dest]) = out
    have h0 := cmdWait_eq_none_iff out.exit
    have h24 := cmdWait_exit24_iff out.exit
    cases hw : cmdWait out.exit with
    | none =>
      simp only [true_iff]
      exact Or.inl (h0.mp hw)
    | some e =>
      have hne : out.exit ≠ .exited 0 := fun hc => by rw [h0.mpr hc] at hw; cases hw
      cases e with
      | exitError code text =>
        by_cases hc : code = 24
        · subst hc
          simp only [if_true, true_iff]
          exact Or.inr (h24.mp ⟨text, hw⟩)
        · simp only [hc, if_false, NewRunError]
          constructor
          · intro hcontra; cases hcontra
          · rintro (h1 | h1)
            · exact absurd h1 hne
            · obtain ⟨t, ht⟩ := h24.mpr h1
              rw [hw] at ht
              cases ht
              exact absurd rfl hc
      | other text =>
        simp only [NewRunError]
        constructor
        · intro hcontra; cases hcontra
        · rintro (h1 | h1)
          · exact absurd h1 hne
          · obtain ⟨t, ht⟩ := h24.mpr h1
            rw [hw] at ht
            cases ht
  · intro e he hn24
    generalize h.run (front ++ [if h.Debug then "-vi" else "-q", h.AddSlash source, dest]) = out
      at he hn24 ⊢
    have h24 := cmdWait_exit24_iff out.exit
    rw [he]
    cases e with
    | exitError code text =>
      by_cases hc : code = 24
      · subst hc
        exact absurd (h24.mp ⟨text, he⟩) hn24
      · simp only [hc, if_false]
    | other text => rfl


theorem rsync_of_hook_failure (h : Host) (front : List String) (a b c : String)
    (w : List String → String → String → Option GoError) (e : GoError)
    (hw : h.RunWrapper = some w) (he : w (front ++ [a, b, c]) b c = some e) :
    rsync h (front ++ [a, b, c]) = some ("", some e) := by
  obtain ⟨hlen, h2, h1⟩ := last_two_of_append front a b c
  unfold rsync
  rw [if_neg (by omega), hw]
  simp only [h2, h1, he]

/-- C6, as amended: for every outcome of `LocalCopy` the text it returns is the
standard output of the subprocess alone, and the empty text when no subprocess ran
(the destination could not be created, or the hook failed); the standard error is
not part of it. -/
theorem LocalCopy_diagnostics_is_stdout (v : version.Pkg) (h : Host)
    (source dest bwlimit : String) (xattrs : Bool) (rsyncArgs : List String) :
    ∃ args msg err,
      LocalCopyArgs v h source dest bwlimit xattrs rsyncArgs = some args ∧
      LocalCopy v h source dest bwlimit xattrs rsyncArgs = some (msg, err) ∧
      (h.MkdirAll dest ≠ none → msg = "") ∧
      (∀ w e, h.RunWrapper = some w → w args (h.AddSlash source) dest = some e → msg = "") ∧
      (h.MkdirAll dest = none →
        (∀ w, h.RunWrapper = some w → w args (h.AddSlash source) dest = none) →
        msg = (h.run args).stdout) := by
  obtain ⟨front, hfront⟩ := LocalCopyArgs_shape v h source dest bwlimit xattrs rsyncArgs
  refine ⟨front ++ [if h.Debug then "-vi" else "-q", h.AddSlash source, dest], ?_⟩
  cases hmk : h.MkdirAll dest with
  | some e0 =>
    refine ⟨"", some (.basic e0), hfront, ?_, fun _ => rfl, fun _ _ _ _ => rfl, fun hc => ?_⟩
    · unfold LocalCopy; rw [hmk]
    · cases hc
  | none =>
    by_cases hfail : ∃ w e, h.RunWrapper = some w ∧
        w (front ++ [if h.Debug then "-vi" else "-q", h.AddSlash source, dest])
          (h.AddSlash source) dest = some e
    · obtain ⟨w, e, hw, he⟩ := hfail
      have hcopy : ∃ err, LocalCopy v h source dest bwlimit xattrs rsyncArgs =
          some ("", err) := by
        unfold LocalCopy
        rw [hmk, hfront]
        simp only [rsync_of_hook_failure h front _ _ _ w e hw he]
        cases e with
        | basic e1 => exact ⟨_, rfl⟩
        | run r =>
          simp only
          cases hr : r.Unwrap with
          | other text => exact ⟨_, rfl⟩
          | exitError code text =>
            simp only
            by_cases hc : code = 24
            · rw [if_pos hc]; exact ⟨_, rfl⟩
            · rw [if_neg hc]; exact ⟨_, rfl⟩
      obtain ⟨err, herr⟩ := hcopy
      refine ⟨"", err, hfront, herr, fun _ => rfl, fun _ _ _ _ => rfl, fun _ hok => ?_⟩
      rw [hok w hw] at he; cases he
    · have hok : ∀ w, h.RunWrapper = some w →
          w (front ++ [if h.Debug then "-vi" else "-q", h.AddSlash source, dest])
            (h.AddSlash source) dest = none := by
        intro w hw
        cases hr : w (front ++ [if h.Debug then "-vi" else "-q", h.AddSlash source, dest])
            (h.AddSlash source) dest with
        | none => rfl
        | some e => exact absurd ⟨w, e, hw, hr⟩ hfail
      have hrun := LocalCopy_of_run v h source dest bwlimit xattrs rsyncArgs _ hfront hmk hok
      refine ⟨_, _, hfront, hrun, fun hc => absurd rfl hc, fun w e hw he => ?_, fun _ _ => rfl⟩
      rw [hok w hw] at he; cases he

/-- C6, as stated, fails: a run that prints `out` on its standard output and `err` on
its standard error and exits with status 1 makes `LocalCopy` return the text `out`,
which is not the two outputs combined and does not contain the standard error. -/
theorem LocalCopy_diagnostics_not_combined :
    LocalCopy version.specPkg (hostRunning ⟨"out", "err", .exited 1⟩) "/a" "/b" "" false [] =
        some ("out", some (NewRunError "rsync"
          ["-a", "-HA", "--sparse", "--devices", "--delete", "--checksum", "--numeric-ids",
            "-q", "/a/", "/b"]
          (.exitError 1 "exit status 1") "out" "err")) ∧
      "out" ≠ "out" ++ "err" ∧ ¬ Contains "out" "err" := by
  decide

theorem LocalCopy_error_iff_witness :
    ∃ args err,
      LocalCopyArgs version.specPkg (hostRunning ⟨"sent 120 bytes", "file has vanished", .exited 24⟩)
        "/a" "/b" "10" true ["-x"] = some args ∧
      LocalCopy version.specPkg (hostRunning ⟨"sent 120 bytes", "file has vanished", .exited 24⟩)
        "/a" "/b" "10" true ["-x"] = some ("sent 120 bytes", err) ∧
      (err = none ↔ (ProcExit.exited 24 = .exited 0 ∨ ProcExit.exited 24 = .exited 24)) ∧
      (∀ e, cmdWait (.exited 24) = some e → ProcExit.exited 24 ≠ .exited 24 →
        err = some (NewRunError "rsync" args e "sent 120 bytes" "file has vanished")) :=
  LocalCopy_error_iff version.specPkg
    (hostRunning ⟨"sent 120 bytes", "file has vanished", .exited 24⟩) "/a" "/b" "10" true ["-x"] rfl
    (fun w args hw _ => by cases hw; rfl)

/-! ## The bridged transfer -/

theorem rsyncFeatureArgs_some (v : version.Pkg) (h : Host) (features : List String) :
    ∃ args, rsyncFeatureArgs v h features = some args := by
  obtain ⟨b, hb⟩ := AtLeast_some v h "3.1.3"
  exact ⟨_, rsyncFeatureArgs_eq v h features b hb⟩

theorem sendArgs_some (v : version.Pkg) (h : Host) (s : SendSession)
    (name path bwlimit execPath : String) (features rsyncArgs : List String) :
    ∃ args, sendArgs v h s name path bwlimit execPath features rsyncArgs = some args := by
  obtain ⟨fargs, hf⟩ := rsyncFeatureArgs_some v h features
  unfold sendArgs
  by_cases hl : features.length > 0 <;> simp [hl, hf]

theorem recvArgs_some (v : version.Pkg) (h : Host) (path : String) (features : List String) :
    ∃ args, recvArgs v h path features = some args := by
  obtain ⟨fargs, hf⟩ := rsyncFeatureArgs_some v h features
  unfold recvArgs
  by_cases hl : features.length > 0 <;> simp [hl, hf]

theorem collectErrors_eq (err first second : Option BasicError) :
    collectErrors err first second =
      match err with
      | none => []
      | some e => e :: (first.toList ++ second.toList) := by
  cases err <;> cases first <;> cases second <;> rfl

/-- A session past setup has all three handles. -/
theorem sendSetup_of_pastSetup (v : version.Pkg) (h : Host) (s : SendSession)
    (name path bwlimit execPath : String) (features rsyncArgs : List String)
    (hp : SendPastSetup v h s name path bwlimit execPath features rsyncArgs) :
    ∃ args, sendSetup v h s name path bwlimit execPath features rsyncArgs =
      some ⟨some ⟨args⟩, some ⟨sendAuds h s⟩, some ⟨⟩, none⟩ := by
  obtain ⟨setup, hs, herr⟩ := hp
  obtain ⟨args, hargs⟩ := sendArgs_some v h s name path bwlimit execPath features rsyncArgs
  refine ⟨args, ?_⟩
  rw [hs]
  unfold sendSetup at hs
  rw [hargs] at hs
  cases hl : s.listenErr with
  | some e => rw [hl] at hs; simp only [Option.some.injEq] at hs; subst hs; cases herr
  | none =>
    rw [hl] at hs
    simp only at hs
    split at hs
    · simp only [Option.some.injEq] at hs; subst hs; cases herr
    · cases hp : s.stderrPipeErr with
      | some e => rw [hp] at hs; simp only [Option.some.injEq] at hs; subst hs; cases herr
      | none =>
        rw [hp] at hs
        cases hst : s.startErr with
        | some e => rw [hst] at hs; simp only [Option.some.injEq] at hs; subst hs; cases herr
        | none =>
          rw [hst] at hs
          cases ha : s.accept with
          | failed => rw [ha] at hs; simp only [Option.some.injEq] at hs; subst hs; cases herr
          | timedOut => rw [ha] at hs; simp only [Option.some.injEq] at hs; subst hs; cases herr
          | connected => rw [ha] at hs; simp only at hs; exact hs.symm ▸ rfl

/-- What `Send` returns once setup is past. -/
theorem Send_of_pastSetup (v : version.Pkg) (h : Host) (s : SendSession)
    (name path : String) (features : List String) (bwlimit execPath : String)
    (rsyncArgs : List String)
    (hp : SendPastSetup v h s name path bwlimit execPath features rsyncArgs) :
    Send v h s name path features bwlimit execPath rsyncArgs =
      some (if (collectErrors (cmdWait s.exit) s.copyNetcat s.copyTarget).length > 0 then
        some (.basic (.other ("Rsync send failed: " ++ name ++ ", " ++ path ++ ": " ++
          fmtErrors (collectErrors (cmdWait s.exit) s.copyNetcat s.copyTarget) ++
          " (" ++ s.stderrRead.1 ++ ")")))
      else none) := by
  obtain ⟨args, hs⟩ := sendSetup_of_pastSetup v h s name path bwlimit execPath features rsyncArgs hp
  unfold Send
  rw [hs]
  simp only
  split <;> rfl

/-- What `Recv` returns once the subprocess is started. -/
theorem Recv_of_started (v : version.Pkg) (h : Host) (s : RecvSession) (path : String)
    (features : List String) (hp : RecvStarted v h s path features) :
    Recv v h s path features =
      some (if (collectErrors (cmdWait s.exit) s.copyRsync s.copySource).length > 0 then
        some (.basic (.other ("Rsync receive failed: " ++ path ++ ": " ++
          fmtErrors (collectErrors (cmdWait s.exit) s.copyRsync s.copySource) ++
          " (" ++ s.stderrRead.1 ++ ")")))
      else none) := by
  obtain ⟨hhook, hout, hin, herr, hstart⟩ := hp
  obtain ⟨args, hargs⟩ := recvArgs_some v h path features
  unfold Recv
  rw [hargs, hout, hin, herr, hstart]
  have hw : (match h.RunWrapper with
      | none => (none : Option GoError)
      | some wrapper => wrapper args "" path) = none := by
    cases hr : h.RunWrapper with
    | none => rfl
    | some w => exact hhook w args hr hargs
  simp only [hw]
  split <;> rfl


theorem Contains.refl (a : String) : Contains a a :=
  List.infix_refl _

theorem Contains.append_left {a p : String} (b : String) (h : Contains a p) :
    Contains (a ++ b) p := by
  unfold Contains at *
  rw [String.data_append]
  exact h.trans (List.infix_append' [] a.data b.data)

theorem Contains.append_right {b p : String} (a : String) (h : Contains b p) :
    Contains (a ++ b) p := by
  unfold Contains at *
  rw [String.data_append]
  exact h.trans (List.suffix_append a.data b.data).isInfix

theorem joinErrors_contains (errs : List BasicError) :
    ∀ e ∈ errs, Contains (joinErrors errs) e.Error := by
  induction errs with
  | nil => intro e he; cases he
  | cons d ds ih =>
    intro e he
    cases ds with
    | nil =>
      rcases List.mem_cons.mp he with rfl | hmem
      · exact Contains.refl _
      · cases hmem
    | cons d2 ds2 =>
      have hj : joinErrors (d :: d2 :: ds2) = d.Error ++ " " ++ joinErrors (d2 :: ds2) := rfl
      rw [hj]
      rcases List.mem_cons.mp he with rfl | hmem
      · exact Contains.append_left _ (Contains.append_left _ (Contains.refl _))
      · exact Contains.append_right _ (ih e hmem)

theorem fmtErrors_contains (errs : List BasicError) (e : BasicError) (he : e ∈ errs) :
    Contains (fmtErrors errs) e.Error :=
  Contains.append_left _ (Contains.append_right _ (joinErrors_contains errs e he))

/-- The text of the aggregated failure contains every collected error and the stderr
text. -/
theorem failure_text_contains (head output : String) (errs : List BasicError) :
    (∀ e ∈ errs, Contains (head ++ fmtErrors errs ++ " (" ++ output ++ ")") e.Error) ∧
      Contains (head ++ fmtErrors errs ++ " (" ++ output ++ ")") output := by
  constructor
  · intro e he
    exact Contains.append_left _ (Contains.append_left _ (Contains.append_left _
      (Contains.append_right _ (fmtErrors_contains errs e he))))
  · exact Contains.append_left _ (Contains.append_right _ (Contains.refl _))

theorem collectErrors_length_pos_iff (err first second : Option BasicError) :
    (collectErrors err first second).length > 0 ↔ err ≠ none := by
  rw [collectErrors_eq]
  cases err <;> simp

theorem collectErrors_mem (e : BasicError) (first second : Option BasicError) :
    e ∈ collectErrors (some e) first second ∧
      (∀ c, first = some c → c ∈ collectErrors (some e) first second) ∧
      (∀ c, second = some c → c ∈ collectErrors (some e) first second) := by
  rw [collectErrors_eq]
  refine ⟨List.mem_cons_self _ _, ?_, ?_⟩
  · rintro c rfl; simp
  · rintro c rfl; simp


/-! ## The result of `Send` and `Recv` -/

/-- C1, as amended: for every `Send` session that got past setup, `Send` returns, and
it returns an error exactly when the wait on the subprocess gave one; when the
subprocess exited with status zero it returns no error, whatever the two copies
ended with. -/
theorem Send_error_iff_wait_error (v : version.Pkg) (h : Host) (s : SendSession)
    (name path : String) (features : List String) (bwlimit execPath : String)
    (rsyncArgs : List String)
    (hp : SendPastSetup v h s name path bwlimit execPath features rsyncArgs) :
    ∃ r, Send v h s name path features bwlimit execPath rsyncArgs = some r ∧
      (r ≠ none ↔ cmdWait s.exit ≠ none) ∧ (s.exit = .exited 0 → r = none) := by
  rw [Send_of_pastSetup v h s name path features bwlimit execPath rsyncArgs hp]
  refine ⟨_, rfl, ?_, ?_⟩
  · rw [← collectErrors_length_pos_iff (cmdWait s.exit) s.copyNetcat s.copyTarget]
    split <;> simp_all
  · intro h0
    have hn : ¬ (collectErrors (cmdWait s.exit) s.copyNetcat s.copyTarget).length > 0 := by
      rw [collectErrors_length_pos_iff, h0]; simp [cmdWait]
    rw [if_neg hn]

theorem Send_error_iff_wait_error_witness :
    ∃ r, Send version.specPkg (hostRunning ⟨"", "", .exited 0⟩)
        (sendSessionEnding (.exited 23) none none "rsync error: some files could not be transferred")
        "c1" "/var/lib/incus/c1" ["xattrs"] "" "/usr/bin/incusd" [] = some r ∧
      (r ≠ none ↔ cmdWait (.exited 23) ≠ none) ∧ (ProcExit.exited 23 = .exited 0 → r = none) :=
  Send_error_iff_wait_error version.specPkg (hostRunning ⟨"", "", .exited 0⟩)
    (sendSessionEnding (.exited 23) none none "rsync error: some files could not be transferred")
    "c1" "/var/lib/incus/c1" ["xattrs"] "" "/usr/bin/incusd" [] ⟨_, rfl, rfl⟩

/-- C1, as stated, fails: in a session past setup whose copy from the rendezvous
connection into the stream ended with an I/O error while the subprocess exited with
status zero, `Send` returns no error. -/
theorem Send_ignores_copy_error_on_exit_zero :
    SendPastSetup version.specPkg (hostRunning ⟨"", "", .exited 0⟩)
        (sendSessionEnding (.exited 0) (some (.other "write: broken pipe")) none "")
        "c1" "/var/lib/incus/c1" "" "/usr/bin/incusd" [] [] ∧
      (sendSessionEnding (.exited 0) (some (.other "write: broken pipe")) none "").copyNetcat =
        some (.other "write: broken pipe") ∧
      Send version.specPkg (hostRunning ⟨"", "", .exited 0⟩)
        (sendSessionEnding (.exited 0) (some (.other "write: broken pipe")) none "")
        "c1" "/var/lib/incus/c1" [] "" "/usr/bin/incusd" [] = some none :=
  ⟨⟨_, rfl, rfl⟩, rfl, by decide⟩

/-- C2, as amended: for every `Recv` session whose subprocess was started, `Recv`
returns, and it returns an error exactly when the wait on the subprocess gave one;
when the subprocess exited with status zero it returns no error, whatever the two
copies ended with. -/
theorem Recv_error_iff_wait_error (v : version.Pkg) (h : Host) (s : RecvSession)
    (path : String) (features : List String) (hp : RecvStarted v h s path features) :
    ∃ r, Recv v h s path features = some r ∧
      (r ≠ none ↔ cmdWait s.exit ≠ none) ∧ (s.exit = .exited 0 → r = none) := by
  rw [Recv_of_started v h s path features hp]
  refine ⟨_, rfl, ?_, ?_⟩
  · rw [← collectErrors_length_pos_iff (cmdWait s.exit) s.copyRsync s.copySource]
    split <;> simp_all
  · intro h0
    have hn : ¬ (collectErrors (cmdWait s.exit) s.copyRsync s.copySource).length > 0 := by
      rw [collectErrors_length_pos_iff, h0]; simp [cmdWait]
    rw [if_neg hn]

theorem Recv_error_iff_wait_error_witness :
    ∃ r, Recv version.specPkg (hostRunning ⟨"", "", .exited 0⟩)
        (recvSessionEnding (.exited 12) (some (.other "write: broken pipe")) none
          "rsync error: error in rsync protocol data stream")
        "/var/lib/incus/c1" ["compress"] = some r ∧
      (r ≠ none ↔ cmdWait (.exited 12) ≠ none) ∧ (ProcExit.exited 12 = .exited 0 → r = none) :=
  Recv_error_iff_wait_error version.specPkg (hostRunning ⟨"", "", .exited 0⟩)
    (recvSessionEnding (.exited 12) (some (.other "write: broken pipe")) none
      "rsync error: error in rsync protocol data stream")
    "/var/lib/incus/c1" ["compress"]
    ⟨fun w args hw _ => by cases hw; rfl, rfl, rfl, rfl, rfl⟩

/-- C2, as stated, fails: in a session whose subprocess was started and exited with
status zero while the copy from the stream into its standard input ended with an I/O
error, `Recv` returns no error. -/
theorem Recv_ignores_copy_error_on_exit_zero :
    RecvStarted version.specPkg (hostRunning ⟨"", "", .exited 0⟩)
        (recvSessionEnding (.exited 0) none (some (.other "read: connection reset by peer")) "")
        "/var/lib/incus/c1" [] ∧
      (recvSessionEnding (.exited 0) none
        (some (.other "read: connection reset by peer")) "").copySource =
        some (.other "read: connection reset by peer") ∧
      Recv version.specPkg (hostRunning ⟨"", "", .exited 0⟩)
        (recvSessionEnding (.exited 0) none (some (.other "read: connection reset by peer")) "")
        "/var/lib/incus/c1" [] = some none :=
  ⟨⟨fun w args hw _ => by cases hw; rfl, rfl, rfl, rfl, rfl⟩, rfl, by decide⟩

/-- C3: `Send` (past setup) and `Recv` (subprocess started) return an error for every
exit status of the subprocess other than zero, status 24 included: no exit status
but zero counts as success. -/
theorem Send_Recv_error_on_nonzero_exit :
    (∀ (v : version.Pkg) (h : Host) (s : SendSession) (name path : String)
        (features : List String) (bwlimit execPath : String) (rsyncArgs : List String)
        (status : Nat),
        SendPastSetup v h s name path bwlimit execPath features rsyncArgs →
        s.exit = .exited status → status ≠ 0 →
        ∃ e, Send v h s name path features bwlimit execPath rsyncArgs = some (some e)) ∧
      (∀ (v : version.Pkg) (h : Host) (s : RecvSession) (path : String)
        (features : List String) (status : Nat),
        RecvStarted v h s path features → s.exit = .exited status → status ≠ 0 →
        ∃ e, Recv v h s path features = some (some e)) := by
  constructor
  · intro v h s name path features bwlimit execPath rsyncArgs status hp hexit hne
    rw [Send_of_pastSetup v h s name path features bwlimit execPath rsyncArgs hp]
    have hpos : (collectErrors (cmdWait s.exit) s.copyNetcat s.copyTarget).length > 0 := by
      rw [collectErrors_length_pos_iff, hexit]
      cases status with
      | zero => exact absurd rfl hne
      | succ k => simp [cmdWait]
    rw [if_pos hpos]
    exact ⟨_, rfl⟩
  · intro v h s path features status hp hexit hne
    rw [Recv_of_started v h s path features hp]
    have hpos : (collectErrors (cmdWait s.exit) s.copyRsync s.copySource).length > 0 := by
      rw [collectErrors_length_pos_iff, hexit]
      cases status with
      | zero => exact absurd rfl hne
      | succ k => simp [cmdWait]
    rw [if_pos hpos]
    exact ⟨_, rfl⟩

theorem Send_Recv_error_on_nonzero_exit_witness :
    (∃ e, Send version.specPkg (hostRunning ⟨"", "", .exited 0⟩)
        (sendSessionEnding (.exited 24) none none "file has vanished")
        "c1" "/var/lib/incus/c1" [] "" "/usr/bin/incusd" [] = some (some e)) ∧
      (∃ e, Recv version.specPkg (hostRunning ⟨"", "", .exited 0⟩)
        (recvSessionEnding (.exited 24) none none "file has vanished")
        "/var/lib/incus/c1" [] = some (some e)) :=
  ⟨Send_Recv_error_on_nonzero_exit.1 version.specPkg (hostRunning ⟨"", "", .exited 0⟩)
      (sendSessionEnding (.exited 24) none none "file has vanished")
      "c1" "/var/lib/incus/c1" [] "" "/usr/bin/incusd" [] 24 ⟨_, rfl, rfl⟩ rfl (by decide),
    Send_Recv_error_on_nonzero_exit.2 version.specPkg (hostRunning ⟨"", "", .exited 0⟩)
      (recvSessionEnding (.exited 24) none none "file has vanished")
      "/var/lib/incus/c1" [] 24
      ⟨fun w args hw _ => by cases hw; rfl, rfl, rfl, rfl, rfl⟩ rfl (by decide)⟩


/-- C4: whenever `Send` (past setup) or `Recv` (subprocess started) returns an error,
the wait on the subprocess gave an error, and the returned error is a text that
contains the text of that error, the text of the error of each copy that ended with
one, and the whole stderr text that was read. -/
theorem Send_Recv_error_text_lists_causes :
    (∀ (v : version.Pkg) (h : Host) (s : SendSession) (name path : String)
        (features : List String) (bwlimit execPath : String) (rsyncArgs : List String)
        (e : GoError),
        SendPastSetup v h s name path bwlimit execPath features rsyncArgs →
        Send v h s name path features bwlimit execPath rsyncArgs = some (some e) →
        ∃ w text, cmdWait s.exit = some w ∧ e = .basic (.other text) ∧
          Contains text w.Error ∧
          (∀ c, s.copyNetcat = some c → Contains text c.Error) ∧
          (∀ c, s.copyTarget = some c → Contains text c.Error) ∧
          Contains text s.stderrRead.1) ∧
      (∀ (v : version.Pkg) (h : Host) (s : RecvSession) (path : String)
        (features : List String) (e : GoError),
        RecvStarted v h s path features →
        Recv v h s path features = some (some e) →
        ∃ w text, cmdWait s.exit = some w ∧ e = .basic (.other text) ∧
          Contains text w.Error ∧
          (∀ c, s.copyRsync = some c → Contains text c.Error) ∧
          (∀ c, s.copySource = some c → Contains text c.Error) ∧
          Contains text s.stderrRead.1) := by
  constructor
  · intro v h s name path features bwlimit execPath rsyncArgs e hp hsend
    rw [Send_of_pastSetup v h s name path features bwlimit execPath rsyncArgs hp] at hsend
    cases hw : cmdWait s.exit with
    | none =>
      have hn : ¬ (collectErrors (cmdWait s.exit) s.copyNetcat s.copyTarget).length > 0 := by
        rw [collectErrors_length_pos_iff, hw]; simp
      rw [if_neg hn] at hsend
      cases hsend
    | some w =>
      have hpos : (collectErrors (cmdWait s.exit) s.copyNetcat s.copyTarget).length > 0 := by
        rw [collectErrors_length_pos_iff, hw]; simp
      rw [if_pos hpos, hw] at hsend
      have he : e = .basic (.other ("Rsync send failed: " ++ name ++ ", " ++ path ++ ": " ++
          fmtErrors (collectErrors (some w) s.copyNetcat s.copyTarget) ++
          " (" ++ s.stderrRead.1 ++ ")")) := by
        cases hsend; rfl
      obtain ⟨hmem, hfirst, hsecond⟩ := collectErrors_mem w s.copyNetcat s.copyTarget
      obtain ⟨hall, hout⟩ := failure_text_contains
        ("Rsync send failed: " ++ name ++ ", " ++ path ++ ": ") s.stderrRead.1
        (collectErrors (some w) s.copyNetcat s.copyTarget)
      exact ⟨w, _, rfl, he, hall w hmem, fun c hc => hall c (hfirst c hc),
        fun c hc => hall c (hsecond c hc), hout⟩
  · intro v h s path features e hp hrecv
    rw [Recv_of_started v h s path features hp] at hrecv
    cases hw : cmdWait s.exit with
    | none =>
      have hn : ¬ (collectErrors (cmdWait s.exit) s.copyRsync s.copySource).length > 0 := by
        rw [collectErrors_length_pos_iff, hw]; simp
      rw [if_neg hn] at hrecv
      cases hrecv
    | some w =>
      have hpos : (collectErrors (cmdWait s.exit) s.copyRsync s.copySource).length > 0 := by
        rw [collectErrors_length_pos_iff, hw]; simp
      rw [if_pos hpos, hw] at hrecv
      have he : e = .basic (.other ("Rsync receive failed: " ++ path ++ ": " ++
          fmtErrors (collectErrors (some w) s.copyRsync s.copySource) ++
          " (" ++ s.stderrRead.1 ++ ")")) := by
        cases hrecv; rfl
      obtain ⟨hmem, hfirst, hsecond⟩ := collectErrors_mem w s.copyRsync s.copySource
      obtain ⟨hall, hout⟩ := failure_text_contains
        ("Rsync receive failed: " ++ path ++ ": ") s.stderrRead.1
        (collectErrors (some w) s.copyRsync s.copySource)
      exact ⟨w, _, rfl, he, hall w hmem, fun c hc => hall c (hfirst c hc),
        fun c hc => hall c (hsecond c hc), hout⟩

theorem Send_Recv_error_text_lists_causes_witness :
    (∃ w text, cmdWait (.exited 12) = some w ∧
        GoError.basic (.other ("Rsync send failed: c1, /var/lib/incus/c1: " ++
          "[exit status 12 write: broken pipe read: connection reset] " ++
          "(rsync: connection closed)")) = .basic (.other text) ∧
        Contains text w.Error ∧
        Contains text "write: broken pipe" ∧
        Contains text "read: connection reset" ∧
        Contains text "rsync: connection closed") ∧
      (∃ w text, cmdWait (.exited 12) = some w ∧
        GoError.basic (.other ("Rsync receive failed: /var/lib/incus/c1: " ++
          "[exit status 12 write: broken pipe] (rsync: connection closed)")) =
          .basic (.other text) ∧
        Contains text w.Error ∧
        Contains text "write: broken pipe" ∧
        Contains text "rsync: connection closed") := by
  obtain ⟨w, text, hw, he, hc, h1, h2, hout⟩ := Send_Recv_error_text_lists_causes.1
    version.specPkg (hostRunning ⟨"", "", .exited 0⟩)
    (sendSessionEnding (.exited 12) (some (.other "write: broken pipe"))
      (some (.other "read: connection reset")) "rsync: connection closed")
    "c1" "/var/lib/incus/c1" [] "" "/usr/bin/incusd" []
    (.basic (.other ("Rsync send failed: c1, /var/lib/incus/c1: " ++
      "[exit status 12 write: broken pipe read: connection reset] " ++
      "(rsync: connection closed)")))
    ⟨_, rfl, rfl⟩ (by decide)
  obtain ⟨w2, text2, hw2, he2, hc2, h3, _, hout2⟩ := Send_Recv_error_text_lists_causes.2
    version.specPkg (hostRunning ⟨"", "", .exited 0⟩)
    (recvSessionEnding (.exited 12) (some (.other "write: broken pipe")) none
      "rsync: connection closed")
    "/var/lib/incus/c1" []
    (.basic (.other ("Rsync receive failed: /var/lib/incus/c1: " ++
      "[exit status 12 write: broken pipe] (rsync: connection closed)")))
    ⟨fun w args hw _ => by cases hw; rfl, rfl, rfl, rfl, rfl⟩ (by decide)
  exact ⟨⟨w, text, hw, he, hc, h1 _ rfl, h2 _ rfl, hout⟩,
    ⟨w2, text2, hw2, he2, hc2, h3 _ rfl, hout2⟩⟩

/-! ## The version probe and the feature flags, summed up -/

/-- C10: `AtLeast` is total: for every tool output and every minimum version it
returns a boolean without panicking, and the boolean is false whenever the version
command fails, the first line has fewer than three fields separated by two blanks,
the version token does not parse, or the minimum version does not parse; the empty
output and an output of one short line without a newline give false. -/
theorem AtLeast_total (v : version.Pkg) (h : Host) (min : String) :
    ∃ b, AtLeast v h min = some b ∧
      (∀ e, h.rsyncVersion = .error e → b = false) ∧
      (∀ out, h.rsyncVersion = .ok out →
        ((strings.Split (firstLine out) "  ").length < 3 → b = false) ∧
        (∀ field, (strings.Split (firstLine out) "  ")[1]? = some field →
          v.Parse (strings.TrimPrefix field "version ") = none → b = false)) ∧
      (v.NewDottedVersion min = none → b = false) ∧
      AtLeast v { h with rsyncVersion := .ok "" } min = some false ∧
      AtLeast v { h with rsyncVersion := .ok "rsync 3.2.7" } min = some false := by
  obtain ⟨b, hb, h1, h2, h3⟩ := AtLeast_false_on_failure v h min
  exact ⟨b, hb, h1, h2, h3, AtLeast_short_output v h min "" (by decide),
    AtLeast_short_output v h min "rsync 3.2.7" (by decide)⟩

theorem rsyncFeatureArgs_membership_only_witness :
    rsyncFeatureArgs version.specPkg (hostRunning ⟨"", "", .exited 0⟩)
        ["compress", "bogus", "xattrs", "compress"] =
      rsyncFeatureArgs version.specPkg (hostRunning ⟨"", "", .exited 0⟩) ["xattrs", "compress"] ∧
    ∃ args, rsyncFeatureArgs version.specPkg (hostRunning ⟨"", "", .exited 0⟩)
        ["compress", "bogus", "xattrs", "compress"] = some args :=
  rsyncFeatureArgs_membership_only version.specPkg (hostRunning ⟨"", "", .exited 0⟩)
    ["compress", "bogus", "xattrs", "compress"] ["xattrs", "compress"]
    (by decide) (by decide) (by decide)

/-! ## The events of the calls -/

/-- The result next to the events of `sendSetupRun` is the result of `sendSetup`. -/
theorem sendSetupRun_result (v : version.Pkg) (h : Host) (s : SendSession)
    (name path bwlimit execPath : String) (features rsyncArgs : List String) :
    (sendSetupRun v h s name path bwlimit execPath features rsyncArgs).result =
      sendSetup v h s name path bwlimit execPath features rsyncArgs := by
  unfold sendSetupRun sendSetup
  cases s.listenErr with
  | some e => rfl
  | none =>
    simp only
    cases sendArgs v h s name path bwlimit execPath features rsyncArgs with
    | none => rfl
    | some args =>
      simp only
      split
      · rfl
      · cases s.stderrPipeErr with
        | some e => rfl
        | none =>
          cases s.startErr with
          | some e => rfl
          | none => cases s.accept <;> rfl

/-- The result next to the events of `SendRun` is the result of `Send`. -/
theorem SendRun_result (v : version.Pkg) (h : Host) (s : SendSession) (name path : String)
    (features : List String) (bwlimit execPath : String) (rsyncArgs : List String) :
    (SendRun v h s name path features bwlimit execPath rsyncArgs).result =
      Send v h s name path features bwlimit execPath rsyncArgs := by
  unfold SendRun Send
  simp only [sendSetupRun_result]
  cases sendSetup v h s name path bwlimit execPath features rsyncArgs with
  | none => rfl
  | some r =>
    simp only
    cases r.err with
    | some e => rfl
    | none =>
      simp only
      cases r.cmd <;> cases r.conn <;> cases r.stderr <;> rfl

/-- The result next to the events of `RecvRun` is the result of `Recv`. -/
theorem RecvRun_result (v : version.Pkg) (h : Host) (s : RecvSession) (path : String)
    (features : List String) :
    (RecvRun v h s path features).result = Recv v h s path features := by
  unfold RecvRun Recv
  cases recvArgs v h path features with
  | none => rfl
  | some args =>
    simp only
    split
    · rfl
    · cases s.stdoutPipeErr with
      | some e => rfl
      | none =>
        cases s.stdinPipeErr with
        | some e => rfl
        | none =>
          cases s.stderrPipeErr with
          | some e => rfl
          | none =>
            cases s.startErr with
            | some e => rfl
            | none => rfl

theorem wrapperEvents_cases (h : Host) (args : List String) (source destination : String) :
    wrapperEvents h args source destination = [] ∨
      ∃ ok, wrapperEvents h args source destination = [.runWrapper source destination ok] := by
  unfold wrapperEvents
  cases h.RunWrapper with
  | none => exact Or.inl rfl
  | some w => exact Or.inr ⟨_, rfl⟩

theorem cleanupEvents_cases (h : Host) :
    cleanupEvents h = [] ∨ cleanupEvents h = [.cleanup] := by
  unfold cleanupEvents
  cases h.RunWrapper with
  | none => exact Or.inl rfl
  | some w => exact Or.inr rfl

/-- C13: on every path of `sendSetup` after the listener was opened (hook failure,
stderr-pipe failure, start failure, accept failure, timeout, success) the listener is
closed exactly once, by the calling goroutine as its last operation, and among all
the operations of the call and of its tasks there is at most one accept. -/
theorem sendSetup_closes_listener_once (v : version.Pkg) (h : Host) (s : SendSession)
    (name path bwlimit execPath : String) (features rsyncArgs : List String)
    (hl : s.listenErr = none) :
    (sendSetupRun v h s name path bwlimit execPath features rsyncArgs).events.head? =
        some (.listen (sendAuds h s) true) ∧
      (sendSetupRun v h s name path bwlimit execPath features rsyncArgs).allEvents.count
        .closeListener = 1 ∧
      (sendSetupRun v h s name path bwlimit execPath features rsyncArgs).events.getLast? =
        some .closeListener ∧
      (sendSetupRun v h s name path bwlimit execPath features rsyncArgs).allEvents.count
        .accept ≤ 1 := by
  unfold Run.allEvents sendSetupRun
  rw [hl]
  simp only
  cases sendArgs v h s name path bwlimit execPath features rsyncArgs with
  | none => simp [spawnedTasks]
  | some args =>
    simp only
    rcases wrapperEvents_cases h args path "" with hw | ⟨ok, hw⟩ <;>
      rcases cleanupEvents_cases h with hc | hc <;>
      rw [hw, hc] <;>
      split <;> try (simp [spawnedTasks, taskProgram])
    all_goals
      cases s.stderrPipeErr <;> cases s.startErr <;> cases s.accept <;>
        simp [spawnedTasks, taskProgram]

/-- The hook did not fail on the invocation of `sendSetup`. -/
theorem wrapped_none_of_events (h : Host) (args : List String) (source destination : String)
    (hw : (match h.RunWrapper with
      | none => (none : Option GoError)
      | some wrapper => wrapper args source destination) = none) :
    wrapperEvents h args source destination = [] ∨
      wrapperEvents h args source destination = [.runWrapper source destination true] := by
  unfold wrapperEvents
  cases hr : h.RunWrapper with
  | none => exact Or.inl rfl
  | some w =>
    rw [hr] at hw
    simp only at hw
    right
    simp [hw]

/-- What `sendSetupRun` is once the subprocess is started: the events up to the spawn
of the accept task, then what follows the `select`, then the deferred calls. -/
theorem sendSetupRun_of_started (v : version.Pkg) (h : Host) (s : SendSession)
    (name path bwlimit execPath : String) (features rsyncArgs args : List String)
    (hl : s.listenErr = none)
    (hargs : sendArgs v h s name path bwlimit execPath features rsyncArgs = some args)
    (hw : (match h.RunWrapper with
      | none => (none : Option GoError)
      | some wrapper => wrapper args path "") = none)
    (hp : s.stderrPipeErr = none) (hs : s.startErr = none) :
    sendSetupRun v h s name path bwlimit execPath features rsyncArgs =
      match s.accept with
      | .failed =>
        ⟨.listen (sendAuds h s) true :: wrapperEvents h args path "" ++
            [.stderrPipe true, .start true, .spawn .accept] ++
            [.recv .accept, .readStderr, .kill, .wait] ++ (cleanupEvents h ++ [.closeListener]),
          some ⟨none, none, none, some (.basic (.other
            ("Failed to connect to rsync socket (" ++ s.setupStderr ++ ")")))⟩⟩
      | .timedOut =>
        ⟨.listen (sendAuds h s) true :: wrapperEvents h args path "" ++
            [.stderrPipe true, .start true, .spawn .accept] ++
            [.timeout, .readStderr, .kill, .wait] ++ (cleanupEvents h ++ [.closeListener]),
          some ⟨none, none, none, some (.basic (.other
            ("rsync failed to spawn after 10s (" ++ s.setupStderr ++ ")")))⟩⟩
      | .connected =>
        ⟨.listen (sendAuds h s) true :: wrapperEvents h args path "" ++
            [.stderrPipe true, .start true, .spawn .accept] ++
            [.recv .accept] ++ (cleanupEvents h ++ [.closeListener]),
          some ⟨some ⟨args⟩, some ⟨sendAuds h s⟩, some ⟨⟩, none⟩⟩ := by
  unfold sendSetupRun
  rw [hl, hargs]
  simp only [hw, hp, hs]

/-- The subprocess of `sendSetup` is started only when the listener was opened, the
hook did not fail, the stderr pipe was obtained and the start gave no error. -/
theorem sendSetupRun_started_iff (v : version.Pkg) (h : Host) (s : SendSession)
    (name path bwlimit execPath : String) (features rsyncArgs : List String)
    (hst : Event.start true ∈
      (sendSetupRun v h s name path bwlimit execPath features rsyncArgs).events) :
    ∃ args, s.listenErr = none ∧
      sendArgs v h s name path bwlimit execPath features rsyncArgs = some args ∧
      (match h.RunWrapper with
        | none => (none : Option GoError)
        | some wrapper => wrapper args path "") = none ∧
      s.stderrPipeErr = none ∧ s.startErr = none := by
  unfold sendSetupRun at hst
  cases hl : s.listenErr with
  | some e => rw [hl] at hst; simp at hst
  | none =>
    rw [hl] at hst
    simp only at hst
    cases hargs : sendArgs v h s name path bwlimit execPath features rsyncArgs with
    | none => rw [hargs] at hst; simp at hst
    | some args =>
      rw [hargs] at hst
      simp only at hst
      refine ⟨args, rfl, rfl, ?_⟩
      rcases wrapperEvents_cases h args path "" with hw | ⟨ok, hw⟩ <;>
        rcases cleanupEvents_cases h with hc | hc <;>
        rw [hw, hc] at hst <;>
        split at hst <;> try (simp at hst)
      all_goals
        rename_i hwr
        refine ⟨hwr, ?_⟩
        cases hp : s.stderrPipeErr with
        | some e => rw [hp] at hst; simp at hst
        | none =>
          cases hs : s.startErr with
          | some e => rw [hp, hs] at hst; simp at hst
          | none => exact ⟨rfl, rfl⟩

/-- The events of `Send` after a failed read of stderr or a good one. -/
theorem drained_cases (r : Option BasicError) :
    (match r with
      | none => [Event.readStderr]
      | some _ => [Event.readStderr, Event.kill, Event.log]) = [Event.readStderr] ∨
    (match r with
      | none => [Event.readStderr]
      | some _ => [Event.readStderr, Event.kill, Event.log]) =
        [Event.readStderr, Event.kill, Event.log] := by
  cases r with
  | none => exact Or.inl rfl
  | some e => exact Or.inr rfl

/-- What `SendRun` is once the subprocess is started: after a failed accept or the
timeout, the events and the error of the setup; after a connection, the events of
the setup, the two spawns, the read of stderr, the wait and the two joins. -/
theorem SendRun_of_started (v : version.Pkg) (h : Host) (s : SendSession)
    (name path : String) (features : List String) (bwlimit execPath : String)
    (rsyncArgs args : List String)
    (hl : s.listenErr = none)
    (hargs : sendArgs v h s name path bwlimit execPath features rsyncArgs = some args)
    (hw : (match h.RunWrapper with
      | none => (none : Option GoError)
      | some wrapper => wrapper args path "") = none)
    (hp : s.stderrPipeErr = none) (hs : s.startErr = none) :
    (SendRun v h s name path features bwlimit execPath rsyncArgs).events =
      match s.accept with
      | .failed =>
        .listen (sendAuds h s) true :: wrapperEvents h args path "" ++
          [.stderrPipe true, .start true, .spawn .accept] ++
          [.recv .accept, .readStderr, .kill, .wait] ++ (cleanupEvents h ++ [.closeListener])
      | .timedOut =>
        .listen (sendAuds h s) true :: wrapperEvents h args path "" ++
          [.stderrPipe true, .start true, .spawn .accept] ++
          [.timeout, .readStderr, .kill, .wait] ++ (cleanupEvents h ++ [.closeListener])
      | .connected =>
        .listen (sendAuds h s) true :: wrapperEvents h args path "" ++
          [.stderrPipe true, .start true, .spawn .accept] ++
          [.recv .accept] ++ (cleanupEvents h ++ [.closeListener]) ++
          [.spawn .copyNetcat, .spawn .copyTarget] ++
          (match s.stderrRead.2 with
            | none => [.readStderr]
            | some _ => [.readStderr, .kill, .log]) ++
          [.wait, .recv .copyNetcat, .recv .copyTarget] := by
  unfold SendRun
  rw [sendSetupRun_of_started v h s name path bwlimit execPath features rsyncArgs args
    hl hargs hw hp hs]
  cases s.accept <;> rfl

/-- The events of `Send` begin with the events of its setup, and what follows holds
no start. -/
theorem SendRun_started (v : version.Pkg) (h : Host) (s : SendSession)
    (name path : String) (features : List String) (bwlimit execPath : String)
    (rsyncArgs : List String)
    (hst : Event.start true ∈
      (SendRun v h s name path features bwlimit execPath rsyncArgs).events) :
    Event.start true ∈
      (sendSetupRun v h s name path bwlimit execPath features rsyncArgs).events := by
  unfold SendRun at hst
  generalize sendSetupRun v h s name path bwlimit execPath features rsyncArgs = setup at hst ⊢
  obtain ⟨ev, res⟩ := setup
  cases res with
  | none => exact hst
  | some r =>
    obtain ⟨c, n, p, e⟩ := r
    cases e with
    | some e => exact hst
    | none =>
      rcases drained_cases s.stderrRead.2 with hd | hd <;>
        cases c <;> cases n <;> cases p <;>
        simp only [hd] at hst <;> simp at hst <;> exact hst

/-- The events of `Recv` after a failed read of stderr or a good one. -/
theorem drainedRecv_cases (r : Option BasicError) :
    (match r with
      | none => [Event.readStderr]
      | some _ => [Event.readStderr, Event.log]) = [Event.readStderr] ∨
    (match r with
      | none => [Event.readStderr]
      | some _ => [Event.readStderr, Event.log]) = [Event.readStderr, Event.log] := by
  cases r with
  | none => exact Or.inl rfl
  | some e => exact Or.inr rfl

/-- What `RecvRun` does once the subprocess is started. -/
theorem RecvRun_of_started (v : version.Pkg) (h : Host) (s : RecvSession) (path : String)
    (features args : List String)
    (hargs : recvArgs v h path features = some args)
    (hw : (match h.RunWrapper with
      | none => (none : Option GoError)
      | some wrapper => wrapper args "" path) = none)
    (hout : s.stdoutPipeErr = none) (hin : s.stdinPipeErr = none)
    (herr : s.stderrPipeErr = none) (hs : s.startErr = none) :
    (RecvRun v h s path features).events =
      wrapperEvents h args "" path ++
        [.stdoutPipe true, .spawn .copyRsync, .stdinPipe true, .spawn .copySource] ++
        [.stderrPipe true, .start true] ++
        (match s.stderrRead.2 with
          | none => [.readStderr]
          | some _ => [.readStderr, .log]) ++
        [.wait, .recv .copyRsync, .recv .copySource] ++ cleanupEvents h := by
  unfold RecvRun
  rw [hargs]
  simp only [hw, hout, hin, herr, hs]

/-- The subprocess of `Recv` is started only when the hook did not fail, the three
pipes were obtained and the start gave no error. -/
theorem RecvRun_started_iff (v : version.Pkg) (h : Host) (s : RecvSession) (path : String)
    (features : List String)
    (hst : Event.start true ∈ (RecvRun v h s path features).events) :
    ∃ args, recvArgs v h path features = some args ∧
      (match h.RunWrapper with
        | none => (none : Option GoError)
        | some wrapper => wrapper args "" path) = none ∧
      s.stdoutPipeErr = none ∧ s.stdinPipeErr = none ∧ s.stderrPipeErr = none ∧
      s.startErr = none := by
  unfold RecvRun at hst
  cases hargs : recvArgs v h path features with
  | none => rw [hargs] at hst; simp at hst
  | some args =>
    rw [hargs] at hst
    simp only at hst
    refine ⟨args, rfl, ?_⟩
    rcases wrapperEvents_cases h args "" path with hw | ⟨ok, hw⟩ <;>
      rcases cleanupEvents_cases h with hc | hc <;>
      rw [hw, hc] at hst <;>
      split at hst <;> try (simp at hst)
    all_goals
      rename_i hwr
      refine ⟨hwr, ?_⟩
      cases hout : s.stdoutPipeErr with
      | some e => rw [hout] at hst; simp at hst
      | none =>
        cases hin : s.stdinPipeErr with
        | some e => rw [hout, hin] at hst; simp at hst
        | none =>
          cases herr : s.stderrPipeErr with
          | some e => rw [hout, hin, herr] at hst; simp at hst
          | none =>
            cases hs : s.startErr with
            | some e => rw [hout, hin, herr, hs] at hst; simp at hst
            | none => exact ⟨rfl, rfl, rfl, rfl⟩

theorem spawnedTasks_append (a b : List Event) :
    spawnedTasks (a ++ b) = spawnedTasks a ++ spawnedTasks b := by
  induction a with
  | nil => rfl
  | cons e es ih => cases e <;> simp [spawnedTasks, ih]

theorem wrapperEvents_mem (h : Host) (args : List String) (source destination : String)
    (e : Event) (he : e ∈ wrapperEvents h args source destination) :
    ∃ ok, e = .runWrapper source destination ok := by
  rcases wrapperEvents_cases h args source destination with hw | ⟨ok, hw⟩
  · rw [hw] at he; cases he
  · rw [hw] at he
    exact ⟨ok, List.mem_singleton.mp he⟩

theorem cleanupEvents_mem (h : Host) (e : Event) (he : e ∈ cleanupEvents h) :
    e = .cleanup := by
  rcases cleanupEvents_cases h with hc | hc
  · rw [hc] at he; cases he
  · rw [hc] at he
    exact List.mem_singleton.mp he

theorem spawnedTasks_wrapperEvents (h : Host) (args : List String)
    (source destination : String) :
    spawnedTasks (wrapperEvents h args source destination) = [] := by
  rcases wrapperEvents_cases h args source destination with hw | ⟨ok, hw⟩ <;> rw [hw] <;> rfl

theorem spawnedTasks_cleanupEvents (h : Host) : spawnedTasks (cleanupEvents h) = [] := by
  rcases cleanupEvents_cases h with hc | hc <;> rw [hc] <;> rfl

/-- The hook call is none of the other operations. -/
theorem wrapperEvents_count (h : Host) (args : List String) (source destination : String)
    (x : Event) (hx : ∀ ok, x ≠ .runWrapper source destination ok) :
    (wrapperEvents h args source destination).count x = 0 := by
  apply List.count_eq_zero_of_not_mem
  intro hmem
  obtain ⟨ok, hok⟩ := wrapperEvents_mem h args source destination x hmem
  exact hx ok hok

/-- The cleanup is none of the other operations. -/
theorem cleanupEvents_count (h : Host) (x : Event) (hx : x ≠ .cleanup) :
    (cleanupEvents h).count x = 0 := by
  apply List.count_eq_zero_of_not_mem
  intro hmem
  exact hx (cleanupEvents_mem h x hmem)

/-- An event comes before another when the sequence splits at the first: nothing
before the split is the first event, and the second comes after the split. -/
theorem Before.of_split (a b : Event) (l₁ l₂ : List Event) (ha : a ∉ l₁) (hb : b ∈ l₂) :
    Before a b (l₁ ++ a :: l₂) := by
  unfold Before
  induction l₁ with
  | nil => simpa [List.dropWhile] using hb
  | cons e es ih =>
    have hne : e ≠ a := fun hc => ha (hc ▸ List.mem_cons_self _ _)
    have hes : a ∉ es := fun hc => ha (List.mem_cons_of_mem _ hc)
    have hb2 : (e != a) = true := by simpa using hne
    simp only [List.cons_append, List.dropWhile, hb2]
    exact ih hes

/-- C12: on every path of `Send` and of `Recv` on which the subprocess was started
(success, accept failure, timeout, failed read of stderr, copy error, any exit
status) the call returns, and among all the operations of the call and of its tasks
there is exactly one wait on the subprocess; it is done by the calling goroutine,
after the start and before the return. -/
theorem Send_Recv_wait_once :
    (∀ (v : version.Pkg) (h : Host) (s : SendSession) (name path : String)
        (features : List String) (bwlimit execPath : String) (rsyncArgs : List String),
        Event.start true ∈ (SendRun v h s name path features bwlimit execPath rsyncArgs).events →
        (SendRun v h s name path features bwlimit execPath rsyncArgs).allEvents.count .wait = 1 ∧
        Before (.start true) .wait
          (SendRun v h s name path features bwlimit execPath rsyncArgs).events ∧
        (SendRun v h s name path features bwlimit execPath rsyncArgs).result ≠ none) ∧
      (∀ (v : version.Pkg) (h : Host) (s : RecvSession) (path : String)
        (features : List String),
        Event.start true ∈ (RecvRun v h s path features).events →
        (RecvRun v h s path features).allEvents.count .wait = 1 ∧
        Before (.start true) .wait (RecvRun v h s path features).events ∧
        (RecvRun v h s path features).result ≠ none) := by
  constructor
  · intro v h s name path features bwlimit execPath rsyncArgs hst
    obtain ⟨args, hl, hargs, hw, hp, hs⟩ := sendSetupRun_started_iff v h s name path bwlimit
      execPath features rsyncArgs (SendRun_started v h s name path features bwlimit execPath
        rsyncArgs hst)
    have hev := SendRun_of_started v h s name path features bwlimit execPath rsyncArgs args
      hl hargs hw hp hs
    have hwc := wrapperEvents_count h args path "" .wait (fun _ hc => by cases hc)
    have hcc := cleanupEvents_count h .wait (fun hc => by cases hc)
    have hws := spawnedTasks_wrapperEvents h args path ""
    have hcs := spawnedTasks_cleanupEvents h
    have hnw : Event.start true ∉
        Event.listen (sendAuds h s) true :: wrapperEvents h args path "" ++ [.stderrPipe true] := by
      have hnot : Event.start true ∉ wrapperEvents h args path "" := fun hm => by
        obtain ⟨ok, hok⟩ := wrapperEvents_mem h args path "" _ hm
        cases hok
      simp [hnot]
    refine ⟨?_, ?_, ?_⟩
    · unfold Run.allEvents
      rw [hev]
      rcases drained_cases s.stderrRead.2 with hd | hd <;> cases s.accept <;>
        simp only [hd] <;>
        simp [spawnedTasks_append, spawnedTasks, taskProgram, List.count_append, hwc, hcc,
          hws, hcs, List.count_cons]
    · rw [hev]
      cases s.accept with
      | failed =>
        have := Before.of_split (.start true) .wait _
          ([.spawn .accept, .recv .accept, .readStderr, .kill, .wait] ++
            (cleanupEvents h ++ [.closeListener])) hnw (by simp)
        simpa [List.append_assoc] using this
      | timedOut =>
        have := Before.of_split (.start true) .wait _
          ([.spawn .accept, .timeout, .readStderr, .kill, .wait] ++
            (cleanupEvents h ++ [.closeListener])) hnw (by simp)
        simpa [List.append_assoc] using this
      | connected =>
        have := Before.of_split (.start true) .wait _
          ([.spawn .accept, .recv .accept] ++ (cleanupEvents h ++ [.closeListener]) ++
            [.spawn .copyNetcat, .spawn .copyTarget] ++
            (match s.stderrRead.2 with
              | none => [.readStderr]
              | some _ => [.readStderr, .kill, .log]) ++
            [.wait, .recv .copyNetcat, .recv .copyTarget]) hnw (by simp)
        simpa [List.append_assoc] using this
    · rw [SendRun_result]
      have hpast : s.accept = .connected →
          SendPastSetup v h s name path bwlimit execPath features rsyncArgs := by
        intro hacc
        refine ⟨⟨some ⟨args⟩, some ⟨sendAuds h s⟩, some ⟨⟩, none⟩, ?_, rfl⟩
        rw [← sendSetupRun_result, sendSetupRun_of_started v h s name path bwlimit execPath
          features rsyncArgs args hl hargs hw hp hs, hacc]
      cases hacc : s.accept with
      | connected =>
        rw [Send_of_pastSetup v h s name path features bwlimit execPath rsyncArgs (hpast hacc)]
        simp
      | failed =>
        unfold Send
        rw [← sendSetupRun_result, sendSetupRun_of_started v h s name path bwlimit execPath
          features rsyncArgs args hl hargs hw hp hs, hacc]
        simp
      | timedOut =>
        unfold Send
        rw [← sendSetupRun_result, sendSetupRun_of_started v h s name path bwlimit execPath
          features rsyncArgs args hl hargs hw hp hs, hacc]
        simp
  · intro v h s path features hst
    obtain ⟨args, hargs, hw, hout, hin, herr, hs⟩ := RecvRun_started_iff v h s path features hst
    have hev := RecvRun_of_started v h s path features args hargs hw hout hin herr hs
    have hwc := wrapperEvents_count h args "" path .wait (fun _ hc => by cases hc)
    have hcc := cleanupEvents_count h .wait (fun hc => by cases hc)
    have hws := spawnedTasks_wrapperEvents h args "" path
    have hcs := spawnedTasks_cleanupEvents h
    have hnw : Event.start true ∉
        wrapperEvents h args "" path ++ [.stdoutPipe true, .spawn .copyRsync, .stdinPipe true,
          .spawn .copySource, .stderrPipe true] := by
      have hnot : Event.start true ∉ wrapperEvents h args "" path := fun hm => by
        obtain ⟨ok, hok⟩ := wrapperEvents_mem h args "" path _ hm
        cases hok
      simp [hnot]
    refine ⟨?_, ?_, ?_⟩
    · unfold Run.allEvents
      rw [hev]
      rcases drainedRecv_cases s.stderrRead.2 with hd | hd <;>
        simp only [hd] <;>
        simp [spawnedTasks_append, spawnedTasks, taskProgram, List.count_append, hwc, hcc,
          hws, hcs, List.count_cons]
    · rw [hev]
      have := Before.of_split (.start true) .wait _
        ((match s.stderrRead.2 with
            | none => [.readStderr]
            | some _ => [.readStderr, .log]) ++
          [.wait, .recv .copyRsync, .recv .copySource] ++ cleanupEvents h) hnw (by simp)
      simpa [List.append_assoc] using this
    · rw [RecvRun_result]
      unfold Recv
      rw [hargs]
      simp only [hw, hout, hin, herr, hs]
      split <;> simp

/-- The failure paths of `sendSetup` in program order, and what a call returns on
them when its read of stderr returns: when the subprocess was started and the accept
fails or the deadline passes first, the program has the read of stderr, then the
kill, then the wait, each once; the error text contains what was read, no
subprocess handle and no connection are returned, and `Send` returns that error
after the events of the setup alone, spawning no copy task. -/
theorem sendSetupRun_failure_path (v : version.Pkg) (h : Host) (s : SendSession)
    (name path bwlimit execPath : String) (features rsyncArgs : List String)
    (hst : Event.start true ∈
      (sendSetupRun v h s name path bwlimit execPath features rsyncArgs).events)
    (hacc : s.accept = .failed ∨ s.accept = .timedOut) :
    ∃ pre deferred text,
      (sendSetupRun v h s name path bwlimit execPath features rsyncArgs).events =
        pre ++ [.readStderr, .kill, .wait] ++ deferred ∧
      (.readStderr ∉ pre ∧ .kill ∉ pre ∧ .wait ∉ pre) ∧
      (.readStderr ∉ deferred ∧ .kill ∉ deferred ∧ .wait ∉ deferred) ∧
      (sendSetupRun v h s name path bwlimit execPath features rsyncArgs).result =
        some ⟨none, none, none, some (.basic (.other text))⟩ ∧
      Contains text s.setupStderr ∧
      (SendRun v h s name path features bwlimit execPath rsyncArgs).result =
        some (some (.basic (.other text))) ∧
      (SendRun v h s name path features bwlimit execPath rsyncArgs).events =
        (sendSetupRun v h s name path bwlimit execPath features rsyncArgs).events ∧
      Event.spawn .copyNetcat ∉
        (SendRun v h s name path features bwlimit execPath rsyncArgs).events ∧
      Event.spawn .copyTarget ∉
        (SendRun v h s name path features bwlimit execPath rsyncArgs).events := by
  obtain ⟨args, hl, hargs, hw, hp, hs⟩ := sendSetupRun_started_iff v h s name path bwlimit
    execPath features rsyncArgs hst
  have hrun := sendSetupRun_of_started v h s name path bwlimit execPath features rsyncArgs args
    hl hargs hw hp hs
  have hwm : ∀ e, e ∈ wrapperEvents h args path "" →
      e ≠ .readStderr ∧ e ≠ .kill ∧ e ≠ .wait ∧ e ≠ .spawn .copyNetcat ∧
        e ≠ .spawn .copyTarget := by
    intro e he
    obtain ⟨ok, hok⟩ := wrapperEvents_mem h args path "" e he
    subst hok
    simp
  have hcm : ∀ e, e ∈ cleanupEvents h →
      e ≠ .readStderr ∧ e ≠ .kill ∧ e ≠ .wait ∧ e ≠ .spawn .copyNetcat ∧
        e ≠ .spawn .copyTarget := by
    intro e he
    rw [cleanupEvents_mem h e he]
    simp
  have hpre : ∀ (sel x : Event), x ∈
      Event.listen (sendAuds h s) true :: wrapperEvents h args path "" ++
        [.stderrPipe true, .start true, .spawn .accept] ++ [sel] →
      x = .listen (sendAuds h s) true ∨ x ∈ wrapperEvents h args path "" ∨
        x = .stderrPipe true ∨ x = .start true ∨ x = .spawn .accept ∨ x = sel := by
    intro sel x hx
    simpa [or_assoc] using hx
  have hdef : ∀ x : Event, x ∈ cleanupEvents h ++ [.closeListener] →
      x ∈ cleanupEvents h ∨ x = .closeListener := by
    intro x hx
    simpa using hx
  have key : ∀ (sel : Event) (msg : String), (sel = .recv .accept ∨ sel = .timeout) →
      sendSetupRun v h s name path bwlimit execPath features rsyncArgs =
        ⟨.listen (sendAuds h s) true :: wrapperEvents h args path "" ++
            [.stderrPipe true, .start true, .spawn .accept] ++
            [sel, .readStderr, .kill, .wait] ++ (cleanupEvents h ++ [.closeListener]),
          some ⟨none, none, none, some (.basic (.other (msg ++ s.setupStderr ++ ")")))⟩⟩ →
      ∃ pre deferred text,
        (sendSetupRun v h s name path bwlimit execPath features rsyncArgs).events =
          pre ++ [.readStderr, .kill, .wait] ++ deferred ∧
        (.readStderr ∉ pre ∧ .kill ∉ pre ∧ .wait ∉ pre) ∧
        (.readStderr ∉ deferred ∧ .kill ∉ deferred ∧ .wait ∉ deferred) ∧
        (sendSetupRun v h s name path bwlimit execPath features rsyncArgs).result =
          some ⟨none, none, none, some (.basic (.other text))⟩ ∧
        Contains text s.setupStderr ∧
        (SendRun v h s name path features bwlimit execPath rsyncArgs).result =
          some (some (.basic (.other text))) ∧
        (SendRun v h s name path features bwlimit execPath rsyncArgs).events =
          (sendSetupRun v h s name path bwlimit execPath features rsyncArgs).events ∧
        Event.spawn .copyNetcat ∉
          (SendRun v h s name path features bwlimit execPath rsyncArgs).events ∧
        Event.spawn .copyTarget ∉
          (SendRun v h s name path features bwlimit execPath rsyncArgs).events := by
    intro sel msg hsel heq
    have hnotin : ∀ x : Event, (x = .readStderr ∨ x = .kill ∨ x = .wait ∨
        x = .spawn .copyNetcat ∨ x = .spawn .copyTarget) →
        x ∉ Event.listen (sendAuds h s) true :: wrapperEvents h args path "" ++
          [.stderrPipe true, .start true, .spawn .accept] ++ [sel] := by
      intro x hx hmem
      rcases hpre sel x hmem with h1 | h1 | h1 | h1 | h1 | h1
      · subst h1; simp at hx
      · obtain ⟨a, b, c, d, e⟩ := hwm x h1
        rcases hx with hx | hx | hx | hx | hx
        · exact a hx
        · exact b hx
        · exact c hx
        · exact d hx
        · exact e hx
      · subst h1; simp at hx
      · subst h1; simp at hx
      · subst h1; simp at hx
      · subst h1
        rcases hsel with hsel | hsel <;> subst hsel <;> simp at hx
    have hnotdef : ∀ x : Event, (x = .readStderr ∨ x = .kill ∨ x = .wait ∨
        x = .spawn .copyNetcat ∨ x = .spawn .copyTarget) →
        x ∉ cleanupEvents h ++ [.closeListener] := by
      intro x hx hmem
      rcases hdef x hmem with h1 | h1
      · obtain ⟨a, b, c, d, e⟩ := hcm x h1
        rcases hx with hx | hx | hx | hx | hx
        · exact a hx
        · exact b hx
        · exact c hx
        · exact d hx
        · exact e hx
      · subst h1; simp at hx
    have hsend : SendRun v h s name path features bwlimit execPath rsyncArgs =
        ⟨(sendSetupRun v h s name path bwlimit execPath features rsyncArgs).events,
          some (some (.basic (.other (msg ++ s.setupStderr ++ ")"))))⟩ := by
      unfold SendRun
      rw [heq]
    refine ⟨Event.listen (sendAuds h s) true :: wrapperEvents h args path "" ++
        [.stderrPipe true, .start true, .spawn .accept] ++ [sel],
      cleanupEvents h ++ [.closeListener], msg ++ s.setupStderr ++ ")",
      ?_, ⟨?_, ?_, ?_⟩, ⟨?_, ?_, ?_⟩, ?_, ?_, ?_, ?_, ?_, ?_⟩
    · rw [heq]
      simp [List.append_assoc]
    · exact hnotin _ (Or.inl rfl)
    · exact hnotin _ (Or.inr (Or.inl rfl))
    · exact hnotin _ (Or.inr (Or.inr (Or.inl rfl)))
    · exact hnotdef _ (Or.inl rfl)
    · exact hnotdef _ (Or.inr (Or.inl rfl))
    · exact hnotdef _ (Or.inr (Or.inr (Or.inl rfl)))
    · rw [heq]
    · exact Contains.append_left _ (Contains.append_right _ (Contains.refl _))
    · rw [hsend]
    · rw [hsend]
    · rw [hsend, heq]
      intro hmem
      have hm : Event.spawn .copyNetcat ∈
          (Event.listen (sendAuds h s) true :: wrapperEvents h args path "" ++
            [.stderrPipe true, .start true, .spawn .accept] ++ [sel]) ++
            ([.readStderr, .kill, .wait] ++ (cleanupEvents h ++ [.closeListener])) := by
        simpa [List.append_assoc] using hmem
      rcases List.mem_append.mp hm with h1 | h1
      · exact hnotin _ (Or.inr (Or.inr (Or.inr (Or.inl rfl)))) h1
      · rcases List.mem_append.mp h1 with h2 | h2
        · simp at h2
        · exact hnotdef _ (Or.inr (Or.inr (Or.inr (Or.inl rfl)))) h2
    · rw [hsend, heq]
      intro hmem
      have hm : Event.spawn .copyTarget ∈
          (Event.listen (sendAuds h s) true :: wrapperEvents h args path "" ++
            [.stderrPipe true, .start true, .spawn .accept] ++ [sel]) ++
            ([.readStderr, .kill, .wait] ++ (cleanupEvents h ++ [.closeListener])) := by
        simpa [List.append_assoc] using hmem
      rcases List.mem_append.mp hm with h1 | h1
      · exact hnotin _ (Or.inr (Or.inr (Or.inr (Or.inr rfl)))) h1
      · rcases List.mem_append.mp h1 with h2 | h2
        · simp at h2
        · exact hnotdef _ (Or.inr (Or.inr (Or.inr (Or.inr rfl)))) h2
  rcases hacc with hacc | hacc
  · rw [hacc] at hrun
    exact key (.recv .accept) "Failed to connect to rsync socket (" (Or.inl rfl) hrun
  · rw [hacc] at hrun
    exact key .timeout "rsync failed to spawn after 10s (" (Or.inr rfl) hrun

/-- The paths of `Send`: the events of the calling goroutine are of one of eight
forms, in which `W` is the hook call (if any), `C` the deferred cleanup of the hook
(if any) and `D` the read of stderr with what follows a failed read. -/
theorem SendRun_paths (v : version.Pkg) (h : Host) (s : SendSession) (name path : String)
    (features : List String) (bwlimit execPath : String) (rsyncArgs : List String) :
    ∃ (W C D : List Event) (a : String),
      (W = [] ∨ ∃ ok, W = [.runWrapper path "" ok]) ∧
      (C = [] ∨ C = [.cleanup]) ∧
      (D = [.readStderr] ∨ D = [.readStderr, .kill, .log]) ∧
      ((SendRun v h s name path features bwlimit execPath rsyncArgs).events =
          [.listen a false] ∨
        (SendRun v h s name path features bwlimit execPath rsyncArgs).events =
          [.listen a true, .closeListener] ∨
        (SendRun v h s name path features bwlimit execPath rsyncArgs).events =
          .listen a true :: W ++ [.closeListener] ∨
        (SendRun v h s name path features bwlimit execPath rsyncArgs).events =
          .listen a true :: W ++ [.stderrPipe false] ++ C ++ [.closeListener] ∨
        (SendRun v h s name path features bwlimit execPath rsyncArgs).events =
          .listen a true :: W ++ [.stderrPipe true, .start false] ++ C ++ [.closeListener] ∨
        (SendRun v h s name path features bwlimit execPath rsyncArgs).events =
          .listen a true :: W ++ [.stderrPipe true, .start true, .spawn .accept,
            .recv .accept, .readStderr, .kill, .wait] ++ C ++ [.closeListener] ∨
        (SendRun v h s name path features bwlimit execPath rsyncArgs).events =
          .listen a true :: W ++ [.stderrPipe true, .start true, .spawn .accept,
            .timeout, .readStderr, .kill, .wait] ++ C ++ [.closeListener] ∨
        (SendRun v h s name path features bwlimit execPath rsyncArgs).events =
          .listen a true :: W ++ [.stderrPipe true, .start true, .spawn .accept,
            .recv .accept] ++ C ++ [.closeListener, .spawn .copyNetcat, .spawn .copyTarget] ++
            D ++ [.wait, .recv .copyNetcat, .recv .copyTarget]) := by
  cases hl : s.listenErr with
  | some e =>
    refine ⟨[], [], [.readStderr], sendAuds h s, Or.inl rfl, Or.inl rfl, Or.inl rfl, Or.inl ?_⟩
    unfold SendRun sendSetupRun
    rw [hl]
  | none =>
    cases hargs : sendArgs v h s name path bwlimit execPath features rsyncArgs with
    | none =>
      refine ⟨[], [], [.readStderr], sendAuds h s, Or.inl rfl, Or.inl rfl, Or.inl rfl,
        Or.inr (Or.inl ?_)⟩
      unfold SendRun sendSetupRun
      rw [hl, hargs]
    | some args =>
      refine ⟨wrapperEvents h args path "", cleanupEvents h, _, sendAuds h s,
        wrapperEvents_cases h args path "", cleanupEvents_cases h,
        drained_cases s.stderrRead.2, ?_⟩
      cases hw : (match h.RunWrapper with
          | none => (none : Option GoError)
          | some wrapper => wrapper args path "") with
      | some e =>
        refine Or.inr (Or.inr (Or.inl ?_))
        unfold SendRun sendSetupRun
        rw [hl, hargs]
        simp only [hw]
      | none =>
        cases hp : s.stderrPipeErr with
        | some e =>
          refine Or.inr (Or.inr (Or.inr (Or.inl ?_)))
          unfold SendRun sendSetupRun
          rw [hl, hargs]
          simp only [hw, hp]
          simp [List.append_assoc]
        | none =>
          cases hs : s.startErr with
          | some e =>
            refine Or.inr (Or.inr (Or.inr (Or.inr (Or.inl ?_))))
            unfold SendRun sendSetupRun
            rw [hl, hargs]
            simp only [hw, hp, hs]
            simp [List.append_assoc]
          | none =>
            have hev := SendRun_of_started v h s name path features bwlimit execPath rsyncArgs
              args hl hargs hw hp hs
            rw [hev]
            cases s.accept with
            | failed =>
              refine Or.inr (Or.inr (Or.inr (Or.inr (Or.inr (Or.inl ?_)))))
              simp [List.append_assoc]
            | timedOut =>
              refine Or.inr (Or.inr (Or.inr (Or.inr (Or.inr (Or.inr (Or.inl ?_))))))
              simp [List.append_assoc]
            | connected =>
              refine Or.inr (Or.inr (Or.inr (Or.inr (Or.inr (Or.inr (Or.inr ?_))))))
              simp [List.append_assoc]

/-- The paths of `Recv`: the events of the calling goroutine are of one of seven
forms, in which `W` is the hook call (if any), `C` the deferred cleanup of the hook
(if any) and `D` the read of stderr with the log line after a failed read. -/
theorem RecvRun_paths (v : version.Pkg) (h : Host) (s : RecvSession) (path : String)
    (features : List String) :
    ∃ (W C D : List Event),
      (W = [] ∨ ∃ ok, W = [.runWrapper "" path ok]) ∧
      (C = [] ∨ C = [.cleanup]) ∧
      (D = [.readStderr] ∨ D = [.readStderr, .log]) ∧
      ((RecvRun v h s path features).events = [] ∨
        (RecvRun v h s path features).events = W ∨
        (RecvRun v h s path features).events = W ++ [.stdoutPipe false] ++ C ∨
        (RecvRun v h s path features).events =
          W ++ [.stdoutPipe true, .spawn .copyRsync, .stdinPipe false] ++ C ∨
        (RecvRun v h s path features).events =
          W ++ [.stdoutPipe true, .spawn .copyRsync, .stdinPipe true, .spawn .copySource,
            .stderrPipe false, .kill] ++ C ∨
        (RecvRun v h s path features).events =
          W ++ [.stdoutPipe true, .spawn .copyRsync, .stdinPipe true, .spawn .copySource,
            .stderrPipe true, .start false] ++ C ∨
        (RecvRun v h s path features).events =
          W ++ [.stdoutPipe true, .spawn .copyRsync, .stdinPipe true, .spawn .copySource,
            .stderrPipe true, .start true] ++ D ++
            [.wait, .recv .copyRsync, .recv .copySource] ++ C) := by
  cases hargs : recvArgs v h path features with
  | none =>
    refine ⟨[], [], [.readStderr], Or.inl rfl, Or.inl rfl, Or.inl rfl, Or.inl ?_⟩
    unfold RecvRun
    rw [hargs]
  | some args =>
    refine ⟨wrapperEvents h args "" path, cleanupEvents h, _,
      wrapperEvents_cases h args "" path, cleanupEvents_cases h,
      drainedRecv_cases s.stderrRead.2, ?_⟩
    cases hw : (match h.RunWrapper with
        | none => (none : Option GoError)
        | some wrapper => wrapper args "" path) with
    | some e =>
      refine Or.inr (Or.inl ?_)
      unfold RecvRun
      rw [hargs]
      simp only [hw]
    | none =>
      cases hout : s.stdoutPipeErr with
      | some e =>
        refine Or.inr (Or.inr (Or.inl ?_))
        unfold RecvRun
        rw [hargs]
        simp only [hw, hout]
      | none =>
        cases hin : s.stdinPipeErr with
        | some e =>
          refine Or.inr (Or.inr (Or.inr (Or.inl ?_)))
          unfold RecvRun
          rw [hargs]
          simp only [hw, hout, hin]
        | none =>
          cases herr : s.stderrPipeErr with
          | some e =>
            refine Or.inr (Or.inr (Or.inr (Or.inr (Or.inl ?_))))
            unfold RecvRun
            rw [hargs]
            simp only [hw, hout, hin, herr]
            simp [List.append_assoc]
          | none =>
            cases hs : s.startErr with
            | some e =>
              refine Or.inr (Or.inr (Or.inr (Or.inr (Or.inr (Or.inl ?_)))))
              unfold RecvRun
              rw [hargs]
              simp only [hw, hout, hin, herr, hs]
              simp [List.append_assoc]
            | none =>
              refine Or.inr (Or.inr (Or.inr (Or.inr (Or.inr (Or.inr ?_)))))
              rw [RecvRun_of_started v h s path features args hargs hw hout hin herr hs]
              simp [List.append_assoc]

/-- A session is past setup exactly when `sendSetup` went all the way: listener
opened, hook not failing, stderr pipe obtained, subprocess started, connection
accepted. -/
theorem SendPastSetup_iff (v : version.Pkg) (h : Host) (s : SendSession)
    (name path bwlimit execPath : String) (features rsyncArgs : List String) :
    SendPastSetup v h s name path bwlimit execPath features rsyncArgs ↔
      ∃ args, s.listenErr = none ∧
        sendArgs v h s name path bwlimit execPath features rsyncArgs = some args ∧
        (match h.RunWrapper with
          | none => (none : Option GoError)
          | some wrapper => wrapper args path "") = none ∧
        s.stderrPipeErr = none ∧ s.startErr = none ∧ s.accept = .connected := by
  constructor
  · rintro ⟨setup, hsetup, herr⟩
    unfold sendSetup at hsetup
    cases hl : s.listenErr with
    | some e => rw [hl] at hsetup; cases hsetup; cases herr
    | none =>
      rw [hl] at hsetup
      simp only at hsetup
      cases hargs : sendArgs v h s name path bwlimit execPath features rsyncArgs with
      | none => rw [hargs] at hsetup; cases hsetup
      | some args =>
        rw [hargs] at hsetup
        simp only at hsetup
        cases hw : (match h.RunWrapper with
            | none => (none : Option GoError)
            | some wrapper => wrapper args path "") with
        | some e => simp only [hw] at hsetup; cases hsetup; cases herr
        | none =>
          simp only [hw] at hsetup
          cases hp : s.stderrPipeErr with
          | some e => simp only [hp] at hsetup; cases hsetup; cases herr
          | none =>
            cases hs : s.startErr with
            | some e => simp only [hp, hs] at hsetup; cases hsetup; cases herr
            | none =>
              cases ha : s.accept with
              | failed => simp only [hp, hs, ha] at hsetup; cases hsetup; cases herr
              | timedOut => simp only [hp, hs, ha] at hsetup; cases hsetup; cases herr
              | connected => exact ⟨args, rfl, rfl, hw, rfl, rfl, rfl⟩
  · rintro ⟨args, hl, hargs, hw, hp, hs, ha⟩
    refine ⟨⟨some ⟨args⟩, some ⟨sendAuds h s⟩, some ⟨⟩, none⟩, ?_, rfl⟩
    rw [← sendSetupRun_result, sendSetupRun_of_started v h s name path bwlimit execPath
      features rsyncArgs args hl hargs hw hp hs, ha]

/-- The copy tasks of `Send` are spawned exactly in the sessions past setup. -/
theorem SendRun_spawns_iff (v : version.Pkg) (h : Host) (s : SendSession)
    (name path : String) (features : List String) (bwlimit execPath : String)
    (rsyncArgs : List String) :
    Event.spawn .copyNetcat ∈
        (SendRun v h s name path features bwlimit execPath rsyncArgs).events ↔
      SendPastSetup v h s name path bwlimit execPath features rsyncArgs := by
  constructor
  · intro hmem
    by_contra hnot
    have hst : Event.start true ∈
        (SendRun v h s name path features bwlimit execPath rsyncArgs).events := by
      obtain ⟨W, C, D, a, hW, hC, hD, hE⟩ :=
        SendRun_paths v h s name path features bwlimit execPath rsyncArgs
      rcases hW with rfl | ⟨ok, rfl⟩ <;> rcases hC with rfl | rfl <;>
        rcases hD with rfl | rfl <;>
        rcases hE with hE | hE | hE | hE | hE | hE | hE | hE <;>
        rw [hE] at hmem ⊢ <;> simp at hmem ⊢
    obtain ⟨args, hl, hargs, hw, hp, hs⟩ := sendSetupRun_started_iff v h s name path bwlimit
      execPath features rsyncArgs (SendRun_started v h s name path features bwlimit execPath
        rsyncArgs hst)
    have hev := SendRun_of_started v h s name path features bwlimit execPath rsyncArgs args
      hl hargs hw hp hs
    have hwn : Event.spawn .copyNetcat ∉ wrapperEvents h args path "" := fun hm => by
      obtain ⟨ok, hok⟩ := wrapperEvents_mem h args path "" _ hm
      cases hok
    have hcn : Event.spawn .copyNetcat ∉ cleanupEvents h := fun hm => by
      cases cleanupEvents_mem h _ hm
    cases ha : s.accept with
    | connected =>
      exact hnot ((SendPastSetup_iff v h s name path bwlimit execPath features rsyncArgs).mpr
        ⟨args, hl, hargs, hw, hp, hs, ha⟩)
    | failed => rw [hev, ha] at hmem; simp [hwn, hcn] at hmem
    | timedOut => rw [hev, ha] at hmem; simp [hwn, hcn] at hmem
  · intro hpast
    obtain ⟨args, hl, hargs, hw, hp, hs, ha⟩ :=
      (SendPastSetup_iff v h s name path bwlimit execPath features rsyncArgs).mp hpast
    rw [SendRun_of_started v h s name path features bwlimit execPath rsyncArgs args
      hl hargs hw hp hs, ha]
    simp

/-- On the failure paths of `sendSetup` the read of stderr stands before the kill:
against a subprocess that keeps running until it is killed, the call gets as far as
that read and stays in it, so that neither the kill nor the close of the listener is
carried out. -/
theorem sendSetupRun_failure_stays_in_drain (v : version.Pkg) (h : Host) (s : SendSession)
    (name path bwlimit execPath : String) (features rsyncArgs : List String)
    (hst : Event.start true ∈
      (sendSetupRun v h s name path bwlimit execPath features rsyncArgs).events)
    (hacc : s.accept = .failed ∨ s.accept = .timedOut) :
    ∃ pre rest,
      (sendSetupRun v h s name path bwlimit execPath features rsyncArgs).events =
        pre ++ .readStderr :: .kill :: rest ∧
      reachedWhileRunning false
          (sendSetupRun v h s name path bwlimit execPath features rsyncArgs).events =
        pre ++ [.readStderr] ∧
      Event.kill ∉ pre ∧ Event.closeListener ∉ pre := by
  obtain ⟨args, hl, hargs, hw, hp, hs⟩ := sendSetupRun_started_iff v h s name path bwlimit
    execPath features rsyncArgs hst
  have hrun := sendSetupRun_of_started v h s name path bwlimit execPath features rsyncArgs args
    hl hargs hw hp hs
  rw [hrun]
  rcases hacc with ha | ha <;> rw [ha] <;>
    rcases wrapperEvents_cases h args path "" with hW | ⟨ok, hW⟩ <;> rw [hW]
  · exact ⟨[.listen (sendAuds h s) true, .stderrPipe true, .start true, .spawn .accept,
      .recv .accept], [.wait] ++ (cleanupEvents h ++ [.closeListener]),
      by simp, by simp [reachedWhileRunning], by simp, by simp⟩
  · exact ⟨[.listen (sendAuds h s) true, .runWrapper path "" ok, .stderrPipe true,
      .start true, .spawn .accept, .recv .accept],
      [.wait] ++ (cleanupEvents h ++ [.closeListener]),
      by simp, by simp [reachedWhileRunning], by simp, by simp⟩
  · exact ⟨[.listen (sendAuds h s) true, .stderrPipe true, .start true, .spawn .accept,
      .timeout], [.wait] ++ (cleanupEvents h ++ [.closeListener]),
      by simp, by simp [reachedWhileRunning], by simp, by simp⟩
  · exact ⟨[.listen (sendAuds h s) true, .runWrapper path "" ok, .stderrPipe true,
      .start true, .spawn .accept, .timeout],
      [.wait] ++ (cleanupEvents h ++ [.closeListener]),
      by simp, by simp [reachedWhileRunning], by simp, by simp⟩

/-- C11 (as the code behaves): in a session whose accept times out, `sendSetup` has
the read of the stderr of the subprocess before the kill, not after it. Against a
subprocess that is still running at the deadline the call, and `Send` with it, gets
as far as that read and stays in it: the subprocess is not killed, the listener is
not closed and no error is returned. -/
theorem sendSetup_timeout_stays_in_drain :
    (sendSetupRun version.specPkg (hostRunning ⟨"", "", .exited 0⟩)
        (sendSessionAccepting .timedOut "")
        "c1" "/var/lib/incus/c1" "" "/usr/bin/incusd" [] []).events =
      [.listen "@incusd/6ba7b810-9dad-11d1-80b4-00c04fd430c8" true,
        .runWrapper "/var/lib/incus/c1" "" true, .stderrPipe true, .start true,
        .spawn .accept, .timeout, .readStderr, .kill, .wait, .cleanup, .closeListener] ∧
      Before .readStderr .kill
        (sendSetupRun version.specPkg (hostRunning ⟨"", "", .exited 0⟩)
          (sendSessionAccepting .timedOut "")
          "c1" "/var/lib/incus/c1" "" "/usr/bin/incusd" [] []).events ∧
      ¬ Before .kill .readStderr
        (sendSetupRun version.specPkg (hostRunning ⟨"", "", .exited 0⟩)
          (sendSessionAccepting .timedOut "")
          "c1" "/var/lib/incus/c1" "" "/usr/bin/incusd" [] []).events ∧
      reachedWhileRunning false
          (sendSetupRun version.specPkg (hostRunning ⟨"", "", .exited 0⟩)
            (sendSessionAccepting .timedOut "")
            "c1" "/var/lib/incus/c1" "" "/usr/bin/incusd" [] []).events =
        [.listen "@incusd/6ba7b810-9dad-11d1-80b4-00c04fd430c8" true,
          .runWrapper "/var/lib/incus/c1" "" true, .stderrPipe true, .start true,
          .spawn .accept, .timeout, .readStderr] ∧
      reachedWhileRunning false
          (SendRun version.specPkg (hostRunning ⟨"", "", .exited 0⟩)
            (sendSessionAccepting .timedOut "")
            "c1" "/var/lib/incus/c1" [] "" "/usr/bin/incusd" []).events =
        [.listen "@incusd/6ba7b810-9dad-11d1-80b4-00c04fd430c8" true,
          .runWrapper "/var/lib/incus/c1" "" true, .stderrPipe true, .start true,
          .spawn .accept, .timeout, .readStderr] ∧
      Event.kill ∉ reachedWhileRunning false
          (sendSetupRun version.specPkg (hostRunning ⟨"", "", .exited 0⟩)
            (sendSessionAccepting .timedOut "")
            "c1" "/var/lib/incus/c1" "" "/usr/bin/incusd" [] []).events ∧
      Event.closeListener ∉ reachedWhileRunning false
          (sendSetupRun version.specPkg (hostRunning ⟨"", "", .exited 0⟩)
            (sendSessionAccepting .timedOut "")
            "c1" "/var/lib/incus/c1" "" "/usr/bin/incusd" [] []).events := by
  decide

set_option maxHeartbeats 1600000 in
/-- The closes of the stream among all events of `Send`: one when the copy tasks
were spawned, none otherwise; the calling goroutine itself never closes it. -/
theorem SendRun_closeStream_count (v : version.Pkg) (h : Host) (s : SendSession)
    (name path : String) (features : List String) (bwlimit execPath : String)
    (rsyncArgs : List String) :
    Event.closeStream ∉ (SendRun v h s name path features bwlimit execPath rsyncArgs).events ∧
      (Event.spawn .copyNetcat ∈
          (SendRun v h s name path features bwlimit execPath rsyncArgs).events →
        (SendRun v h s name path features bwlimit execPath rsyncArgs).allEvents.count
          .closeStream = 1) ∧
      (Event.spawn .copyNetcat ∉
          (SendRun v h s name path features bwlimit execPath rsyncArgs).events →
        (SendRun v h s name path features bwlimit execPath rsyncArgs).allEvents.count
          .closeStream = 0) := by
  obtain ⟨W, C, D, a, hW, hC, hD, hE⟩ :=
    SendRun_paths v h s name path features bwlimit execPath rsyncArgs
  unfold Run.allEvents
  rcases hW with rfl | ⟨ok, rfl⟩ <;> rcases hC with rfl | rfl <;>
    rcases hD with rfl | rfl <;>
    rcases hE with hE | hE | hE | hE | hE | hE | hE | hE <;>
    rw [hE] <;> simp [spawnedTasks, taskProgram]

set_option maxHeartbeats 1600000 in
/-- The closes of the stream among all events of `Recv`: one when the copy out of
the subprocess was spawned, none otherwise; the calling goroutine itself never
closes it. -/
theorem RecvRun_closeStream_count (v : version.Pkg) (h : Host) (s : RecvSession)
    (path : String) (features : List String) :
    Event.closeStream ∉ (RecvRun v h s path features).events ∧
      (Event.spawn .copyRsync ∈ (RecvRun v h s path features).events ↔
        Event.stdoutPipe true ∈ (RecvRun v h s path features).events) ∧
      (Event.stdoutPipe true ∈ (RecvRun v h s path features).events →
        (RecvRun v h s path features).allEvents.count .closeStream = 1) ∧
      (Event.stdoutPipe true ∉ (RecvRun v h s path features).events →
        (RecvRun v h s path features).allEvents.count .closeStream = 0) := by
  obtain ⟨W, C, D, hW, hC, hD, hE⟩ := RecvRun_paths v h s path features
  unfold Run.allEvents
  rcases hW with rfl | ⟨ok, rfl⟩ <;> rcases hC with rfl | rfl <;>
    rcases hD with rfl | rfl <;>
    rcases hE with hE | hE | hE | hE | hE | hE | hE <;>
    rw [hE] <;> simp [spawnedTasks, taskProgram]

/-- C14, as amended: in every `Send` call that got past setup and in every `Recv`
call that obtained the stdout pipe of the subprocess, the close of the stream of the
caller occurs exactly once among the operations of the call and of its tasks: in the
task of the outbound copy, after that copy has returned. The calling goroutine never
closes the stream, and a `Send` call that fails in setup or a `Recv` call that fails
before the stdout pipe has no close of the stream at all. -/
theorem stream_closed_by_outbound_copy :
    (∀ (v : version.Pkg) (h : Host) (s : SendSession) (name path : String)
        (features : List String) (bwlimit execPath : String) (rsyncArgs : List String),
        (SendPastSetup v h s name path bwlimit execPath features rsyncArgs →
          (SendRun v h s name path features bwlimit execPath rsyncArgs).allEvents.count
            .closeStream = 1 ∧
          Event.spawn .copyNetcat ∈
            (SendRun v h s name path features bwlimit execPath rsyncArgs).events) ∧
        (¬ SendPastSetup v h s name path bwlimit execPath features rsyncArgs →
          (SendRun v h s name path features bwlimit execPath rsyncArgs).allEvents.count
            .closeStream = 0) ∧
        Event.closeStream ∉
          (SendRun v h s name path features bwlimit execPath rsyncArgs).events) ∧
      (∀ (v : version.Pkg) (h : Host) (s : RecvSession) (path : String)
        (features : List String),
        (Event.stdoutPipe true ∈ (RecvRun v h s path features).events →
          (RecvRun v h s path features).allEvents.count .closeStream = 1 ∧
          Event.spawn .copyRsync ∈ (RecvRun v h s path features).events) ∧
        (Event.stdoutPipe true ∉ (RecvRun v h s path features).events →
          (RecvRun v h s path features).allEvents.count .closeStream = 0) ∧
        Event.closeStream ∉ (RecvRun v h s path features).events) ∧
      ((taskProgram .copyNetcat).count .closeStream = 1 ∧
        Before (.copy .copyNetcat) .closeStream (taskProgram .copyNetcat) ∧
        (taskProgram .copyRsync).count .closeStream = 1 ∧
        Before (.copy .copyRsync) .closeStream (taskProgram .copyRsync) ∧
        ∀ t, t ≠ .copyNetcat → t ≠ .copyRsync → .closeStream ∉ taskProgram t) := by
  refine ⟨?_, ?_, by decide, by decide, by decide, by decide, ?_⟩
  · intro v h s name path features bwlimit execPath rsyncArgs
    obtain ⟨hmain, hone, hzero⟩ :=
      SendRun_closeStream_count v h s name path features bwlimit execPath rsyncArgs
    have hiff := SendRun_spawns_iff v h s name path features bwlimit execPath rsyncArgs
    exact ⟨fun hp => ⟨hone (hiff.mpr hp), hiff.mpr hp⟩,
      fun hn => hzero (fun hm => hn (hiff.mp hm)), hmain⟩
  · intro v h s path features
    obtain ⟨hmain, hiff, hone, hzero⟩ := RecvRun_closeStream_count v h s path features
    exact ⟨fun hp => ⟨hone hp, hiff.mpr hp⟩, hzero, hmain⟩
  · intro t h1 h2
    cases t <;> simp [taskProgram] at h1 h2 ⊢

/-- C14, as stated, fails: a `Send` call whose listener cannot be opened returns the
error of the listen, and no operation of the call closes the stream. -/
theorem Send_setup_failure_leaves_stream_open :
    (SendRun version.specPkg (hostRunning ⟨"", "", .exited 0⟩) sendSessionNotListening
        "c1" "/var/lib/incus/c1" [] "" "/usr/bin/incusd" []).result =
      some (some (.basic (.other "listen unix: address already in use"))) ∧
    (SendRun version.specPkg (hostRunning ⟨"", "", .exited 0⟩) sendSessionNotListening
        "c1" "/var/lib/incus/c1" [] "" "/usr/bin/incusd" []).allEvents =
      [.listen "@incusd/6ba7b810-9dad-11d1-80b4-00c04fd430c8" false] ∧
    (SendRun version.specPkg (hostRunning ⟨"", "", .exited 0⟩) sendSessionNotListening
        "c1" "/var/lib/incus/c1" [] "" "/usr/bin/incusd" []).allEvents.count .closeStream = 0 := by
  decide

theorem Before.nil (a b : Event) : ¬ Before a b [] := by
  simp [Before]

theorem Before.cons (a b e : Event) (l : List Event) :
    Before a b (e :: l) ↔ (e = a ∧ b ∈ l) ∨ (e ≠ a ∧ Before a b l) := by
  unfold Before
  by_cases he : e = a
  · subst he
    simp [List.dropWhile]
  · have hb : (e != a) = true := by simpa using he
    simp [List.dropWhile, hb, he]

set_option maxHeartbeats 3200000 in
/-- C15, as amended: on every path of `Send` other than the accept timeout, and on
the path of `Recv` on which the subprocess was started, every task the call has
spawned is joined before the call returns: a receive of its result follows its
spawn. On the accept timeout of `Send` the accept task was spawned and is not
joined. -/
theorem tasks_joined_unless_timeout :
    (∀ (v : version.Pkg) (h : Host) (s : SendSession) (name path : String)
        (features : List String) (bwlimit execPath : String) (rsyncArgs : List String),
        (Event.timeout ∉ (SendRun v h s name path features bwlimit execPath rsyncArgs).events →
          AllJoined (SendRun v h s name path features bwlimit execPath rsyncArgs).events) ∧
        (Event.timeout ∈ (SendRun v h s name path features bwlimit execPath rsyncArgs).events →
          Event.spawn .accept ∈
            (SendRun v h s name path features bwlimit execPath rsyncArgs).events ∧
          Event.recv .accept ∉
            (SendRun v h s name path features bwlimit execPath rsyncArgs).events)) ∧
      (∀ (v : version.Pkg) (h : Host) (s : RecvSession) (path : String)
        (features : List String),
        Event.start true ∈ (RecvRun v h s path features).events →
        AllJoined (RecvRun v h s path features).events) := by
  constructor
  · intro v h s name path features bwlimit execPath rsyncArgs
    obtain ⟨W, C, D, a, hW, hC, hD, hE⟩ :=
      SendRun_paths v h s name path features bwlimit execPath rsyncArgs
    unfold AllJoined
    rcases hW with rfl | ⟨ok, rfl⟩ <;> rcases hC with rfl | rfl <;>
      rcases hD with rfl | rfl <;>
      rcases hE with hE | hE | hE | hE | hE | hE | hE | hE <;>
      rw [hE] <;> simp [spawnedTasks, Before.cons, Before.nil]
  · intro v h s path features
    obtain ⟨W, C, D, hW, hC, hD, hE⟩ := RecvRun_paths v h s path features
    unfold AllJoined
    rcases hW with rfl | ⟨ok, rfl⟩ <;> rcases hC with rfl | rfl <;>
      rcases hD with rfl | rfl <;>
      rcases hE with hE | hE | hE | hE | hE | hE | hE <;>
      rw [hE] <;> simp [spawnedTasks, Before.cons, Before.nil]

theorem tasks_joined_unless_timeout_witness :
    AllJoined (SendRun version.specPkg (hostRunning ⟨"", "", .exited 0⟩)
        (sendSessionEnding (.exited 0) none none "")
        "c1" "/var/lib/incus/c1" [] "" "/usr/bin/incusd" []).events ∧
      AllJoined (RecvRun version.specPkg (hostRunning ⟨"", "", .exited 0⟩)
        (recvSessionEnding (.exited 0) none none "") "/var/lib/incus/c1" []).events :=
  ⟨(tasks_joined_unless_timeout.1 version.specPkg (hostRunning ⟨"", "", .exited 0⟩)
      (sendSessionEnding (.exited 0) none none "")
      "c1" "/var/lib/incus/c1" [] "" "/usr/bin/incusd" []).1 (by decide),
    tasks_joined_unless_timeout.2 version.specPkg (hostRunning ⟨"", "", .exited 0⟩)
      (recvSessionEnding (.exited 0) none none "") "/var/lib/incus/c1" [] (by decide)⟩

/-- C15, as stated, fails: when the accept times out, `Send` returns with the accept
task spawned and never joined. -/
theorem Send_timeout_leaves_accept_unjoined :
    (SendRun version.specPkg (hostRunning ⟨"", "", .exited 0⟩)
        (sendSessionAccepting .timedOut "")
        "c1" "/var/lib/incus/c1" [] "" "/usr/bin/incusd" []).events =
      [.listen "@incusd/6ba7b810-9dad-11d1-80b4-00c04fd430c8" true,
        .runWrapper "/var/lib/incus/c1" "" true, .stderrPipe true, .start true,
        .spawn .accept, .timeout, .readStderr, .kill, .wait, .cleanup, .closeListener] ∧
      (SendRun version.specPkg (hostRunning ⟨"", "", .exited 0⟩)
        (sendSessionAccepting .timedOut "")
        "c1" "/var/lib/incus/c1" [] "" "/usr/bin/incusd" []).result =
        some (some (.basic (.other "rsync failed to spawn after 10s ()"))) ∧
      ¬ AllJoined (SendRun version.specPkg (hostRunning ⟨"", "", .exited 0⟩)
        (sendSessionAccepting .timedOut "")
        "c1" "/var/lib/incus/c1" [] "" "/usr/bin/incusd" []).events := by
  decide

/-! ## The argument lists -/

theorem rsyncFeatureArgs_nil (v : version.Pkg) (h : Host) :
    rsyncFeatureArgs v h [] = some [] := by
  obtain ⟨b, hb⟩ := AtLeast_some v h "3.1.3"
  rw [rsyncFeatureArgs_eq v h [] b hb]
  simp

/-- C16: for every source, destination, limit, xattrs flag and extra arguments, the
argument list `LocalCopy` builds is the seven base flags, then (when xattrs is
requested) the flags `rsyncFeatureArgs` returns for the one feature `xattrs`, then
`--bwlimit` and the limit when the limit is not empty, then the extra arguments in
order, then the verbosity flag (`-q`, or `-vi` when `Debug` is set), then the source
as `AddSlash` returns it, then the destination; and this list is what `LocalCopy`
hands to the tool: once the destination exists and the hook does not fail, the text
it returns is the standard output of the run on that list. -/
theorem LocalCopy_argument_list (v : version.Pkg) (h : Host) (source dest bwlimit : String)
    (xattrs : Bool) (rsyncArgs : List String) :
    ∃ fa args, rsyncFeatureArgs v h ["xattrs"] = some fa ∧
      LocalCopyArgs v h source dest bwlimit xattrs rsyncArgs = some args ∧
      args =
        ["-a", "-HA", "--sparse", "--devices", "--delete", "--checksum", "--numeric-ids"] ++
        (if xattrs = true then fa else []) ++
        (if bwlimit ≠ "" then ["--bwlimit", bwlimit] else []) ++
        rsyncArgs ++
        [if h.Debug = true then "-vi" else "-q", h.AddSlash source, dest] ∧
      (h.MkdirAll dest = none →
        (∀ w, h.RunWrapper = some w → w args (h.AddSlash source) dest = none) →
        (LocalCopy v h source dest bwlimit xattrs rsyncArgs).map Prod.fst =
          some (h.run args).stdout) := by
  obtain ⟨b, hb⟩ := AtLeast_some v h "3.1.3"
  have hfa := rsyncFeatureArgs_eq v h ["xattrs"] b hb
  have hargs : LocalCopyArgs v h source dest bwlimit xattrs rsyncArgs = some
      (["-a", "-HA", "--sparse", "--devices", "--delete", "--checksum", "--numeric-ids"] ++
        (if xattrs = true then
          "--xattrs" :: (if b = true then ["--filter=-x security.selinux"] else []) else []) ++
        (if bwlimit ≠ "" then ["--bwlimit", bwlimit] else []) ++
        rsyncArgs ++
        [if h.Debug = true then "-vi" else "-q", h.AddSlash source, dest]) := by
    unfold LocalCopyArgs
    cases xattrs <;> cases b <;> by_cases hbw : bwlimit = "" <;>
      cases rsyncArgs <;> simp [hb, hbw]
  refine ⟨_, _, hfa, hargs, ?_, ?_⟩
  · simp
  · intro hmk hhook
    rw [LocalCopy_of_run v h source dest bwlimit xattrs rsyncArgs _ hargs hmk hhook]
    rfl

/-- The argument list of the sender, in the order of the code: the base flags, the
bandwidth cap, the feature flags, the extra arguments, then the source path, the
placeholder destination, `-e` and the remote command. -/
theorem sendArgs_eq (v : version.Pkg) (h : Host) (s : SendSession)
    (name path bwlimit execPath : String) (features rsyncArgs fa : List String)
    (hfa : rsyncFeatureArgs v h features = some fa) :
    sendArgs v h s name path bwlimit execPath features rsyncArgs = some
      (["-ar", "--devices", "--numeric-ids", "--partial", "--sparse"] ++
        (if bwlimit ≠ "" then ["--bwlimit", bwlimit] else []) ++
        fa ++ rsyncArgs ++
        [path, "localhost:/tmp/foo", "-e",
          execPath ++ " netcat " ++ sendAuds h s ++ " " ++ name ++ " --"]) := by
  unfold sendArgs
  cases features with
  | nil =>
    have hnil := rsyncFeatureArgs_nil v h
    rw [hnil] at hfa
    cases hfa
    by_cases hbw : bwlimit = "" <;> cases rsyncArgs <;> simp [hbw]
  | cons f fs =>
    by_cases hbw : bwlimit = "" <;> cases rsyncArgs <;> simp [hbw, hfa]

/-- C17, as amended: for every input, the argument list of the sender is the base
flags `-ar`, `--devices`, `--numeric-ids`, `--partial`, `--sparse`, followed by the
bandwidth cap (`--bwlimit` and the limit, only when the limit is not empty),
followed by the negotiated feature flags, followed by the extra arguments of the
caller in order, followed by the source path, the placeholder destination, `-e` and
the remote command; it is the argument list of the command `sendSetup` returns. -/
theorem sendArgs_order (v : version.Pkg) (h : Host) (s : SendSession)
    (name path bwlimit execPath : String) (features rsyncArgs : List String) :
    ∃ fa args, rsyncFeatureArgs v h features = some fa ∧
      sendArgs v h s name path bwlimit execPath features rsyncArgs = some args ∧
      args =
        ["-ar", "--devices", "--numeric-ids", "--partial", "--sparse"] ++
        (if bwlimit ≠ "" then ["--bwlimit", bwlimit] else []) ++
        fa ++ rsyncArgs ++
        [path, "localhost:/tmp/foo", "-e",
          execPath ++ " netcat " ++ sendAuds h s ++ " " ++ name ++ " --"] ∧
      (SendPastSetup v h s name path bwlimit execPath features rsyncArgs →
        ∃ setup, sendSetup v h s name path bwlimit execPath features rsyncArgs = some setup ∧
          setup.cmd = some ⟨args⟩) := by
  obtain ⟨fa, hfa⟩ := rsyncFeatureArgs_some v h features
  have hargs := sendArgs_eq v h s name path bwlimit execPath features rsyncArgs fa hfa
  refine ⟨fa, _, hfa, hargs, rfl, fun hp => ?_⟩
  obtain ⟨args2, hl, hargs2, hw, hpipe, hs, ha⟩ :=
    (SendPastSetup_iff v h s name path bwlimit execPath features rsyncArgs).mp hp
  rw [hargs] at hargs2
  cases hargs2
  refine ⟨⟨some ⟨_⟩, some ⟨sendAuds h s⟩, some ⟨⟩, none⟩, ?_, rfl⟩
  rw [← sendSetupRun_result, sendSetupRun_of_started v h s name path bwlimit execPath
    features rsyncArgs _ hl hargs hw hpipe hs, ha]

/-- C17, as stated, fails: with a bandwidth limit and the feature `delete` the
sender puts `--bwlimit 100` before `--delete`, not after. -/
theorem sendArgs_bwlimit_before_features :
    rsyncFeatureArgs version.specPkg (hostRunning ⟨"", "", .exited 0⟩) ["delete"] =
        some ["--delete"] ∧
      sendArgs version.specPkg (hostRunning ⟨"", "", .exited 0⟩)
        (sendSessionEnding (.exited 0) none none "")
        "c1" "/var/lib/incus/c1" "100" "/usr/bin/incusd" ["delete"] [] =
        some ["-ar", "--devices", "--numeric-ids", "--partial", "--sparse",
          "--bwlimit", "100", "--delete", "/var/lib/incus/c1", "localhost:/tmp/foo", "-e",
          "/usr/bin/incusd netcat @incusd/6ba7b810-9dad-11d1-80b4-00c04fd430c8 c1 --"] ∧
      sendArgs version.specPkg (hostRunning ⟨"", "", .exited 0⟩)
        (sendSessionEnding (.exited 0) none none "")
        "c1" "/var/lib/incus/c1" "100" "/usr/bin/incusd" ["delete"] [] ≠
        some (["-ar", "--devices", "--numeric-ids", "--partial", "--sparse"] ++
          ["--delete"] ++ ["--bwlimit", "100"] ++ [] ++
          ["/var/lib/incus/c1", "localhost:/tmp/foo", "-e",
            "/usr/bin/incusd netcat @incusd/6ba7b810-9dad-11d1-80b4-00c04fd430c8 c1 --"]) := by
  decide

/-- The first event of `sendSetup` is the listen on the endpoint name. -/
theorem sendSetupRun_head (v : version.Pkg) (h : Host) (s : SendSession)
    (name path bwlimit execPath : String) (features rsyncArgs : List String) :
    (sendSetupRun v h s name path bwlimit execPath features rsyncArgs).events.head? =
      some (.listen (sendAuds h s) s.listenErr.isNone) := by
  unfold sendSetupRun
  cases s.listenErr with
  | some e => rfl
  | none =>
    simp only
    cases sendArgs v h s name path bwlimit execPath features rsyncArgs with
    | none => rfl
    | some args =>
      simp only
      split
      · rfl
      · cases s.stderrPipeErr with
        | some e => rfl
        | none =>
          cases s.startErr with
          | some e => rfl
          | none => cases s.accept <;> rfl

/-- C18: for every helper path, endpoint name and remote name, the remote command is
the helper path, `netcat`, the endpoint name, the remote name and `--`, with single
blanks between them; it is the last argument of the tool invocation and comes right
after `-e`; the endpoint name in it is the name the listener is opened on, and the
name of the accepted connection. -/
theorem sendArgs_remote_command (v : version.Pkg) (h : Host) (s : SendSession)
    (name path bwlimit execPath : String) (features rsyncArgs : List String) :
    ∃ front args,
      sendArgs v h s name path bwlimit execPath features rsyncArgs = some args ∧
      args = front ++
        ["-e", execPath ++ " netcat " ++ sendAuds h s ++ " " ++ name ++ " --"] ∧
      args.getLast? = some (execPath ++ " netcat " ++ sendAuds h s ++ " " ++ name ++ " --") ∧
      (sendSetupRun v h s name path bwlimit execPath features rsyncArgs).events.head? =
        some (.listen (sendAuds h s) s.listenErr.isNone) ∧
      (∀ setup, sendSetup v h s name path bwlimit execPath features rsyncArgs = some setup →
        setup.err = none →
        setup.cmd = some ⟨args⟩ ∧ setup.conn = some ⟨sendAuds h s⟩) := by
  obtain ⟨fa, hfa⟩ := rsyncFeatureArgs_some v h features
  have hargs := sendArgs_eq v h s name path bwlimit execPath features rsyncArgs fa hfa
  refine ⟨["-ar", "--devices", "--numeric-ids", "--partial", "--sparse"] ++
      (if bwlimit ≠ "" then ["--bwlimit", bwlimit] else []) ++ fa ++ rsyncArgs ++
      [path, "localhost:/tmp/foo"], _, hargs, ?_, ?_,
    sendSetupRun_head v h s name path bwlimit execPath features rsyncArgs, ?_⟩
  · simp [List.append_assoc]
  · have hsplit : ["-ar", "--devices", "--numeric-ids", "--partial", "--sparse"] ++
        (if bwlimit ≠ "" then ["--bwlimit", bwlimit] else []) ++ fa ++ rsyncArgs ++
        [path, "localhost:/tmp/foo", "-e",
          execPath ++ " netcat " ++ sendAuds h s ++ " " ++ name ++ " --"] =
        (["-ar", "--devices", "--numeric-ids", "--partial", "--sparse"] ++
          (if bwlimit ≠ "" then ["--bwlimit", bwlimit] else []) ++ fa ++ rsyncArgs ++
          [path, "localhost:/tmp/foo", "-e"]) ++
        [execPath ++ " netcat " ++ sendAuds h s ++ " " ++ name ++ " --"] := by
      simp [List.append_assoc]
    rw [hsplit, List.getLast?_concat]
  · intro setup hsetup herr
    obtain ⟨args2, hl, hargs2, hw, hpipe, hs, ha⟩ :=
      (SendPastSetup_iff v h s name path bwlimit execPath features rsyncArgs).mp
        ⟨setup, hsetup, herr⟩
    rw [hargs] at hargs2
    cases hargs2
    rw [← sendSetupRun_result, sendSetupRun_of_started v h s name path bwlimit execPath
      features rsyncArgs _ hl hargs hw hpipe hs, ha] at hsetup
    cases hsetup
    exact ⟨rfl, rfl⟩

/-- C19: for every generated identifier and every maximum length of at least one,
the endpoint name is `@incusd/` followed by the identifier, cut to its first
`ABSTRACT_UNIX_SOCK_LEN - 1` characters when it is longer than that and left
unchanged otherwise; so it is never longer than `ABSTRACT_UNIX_SOCK_LEN - 1`
and always a prefix of `@incusd/` followed by the identifier. -/
theorem sendAuds_cut (h : Host) (s : SendSession) (hlen : 0 < h.ABSTRACT_UNIX_SOCK_LEN) :
    (("@incusd/" ++ s.uuid).length > h.ABSTRACT_UNIX_SOCK_LEN - 1 →
        (sendAuds h s).data = ("@incusd/" ++ s.uuid).data.take (h.ABSTRACT_UNIX_SOCK_LEN - 1) ∧
        (sendAuds h s).length = h.ABSTRACT_UNIX_SOCK_LEN - 1) ∧
      (("@incusd/" ++ s.uuid).length ≤ h.ABSTRACT_UNIX_SOCK_LEN - 1 →
        sendAuds h s = "@incusd/" ++ s.uuid) ∧
      (sendAuds h s).length ≤ h.ABSTRACT_UNIX_SOCK_LEN - 1 ∧
      (sendAuds h s).data <+: ("@incusd/" ++ s.uuid).data := by
  have _ := hlen
  unfold sendAuds
  simp only
  by_cases hlong : ("@incusd/" ++ s.uuid).length > h.ABSTRACT_UNIX_SOCK_LEN - 1
  · rw [if_pos hlong]
    have hl : ("@incusd/" ++ s.uuid).data.length > h.ABSTRACT_UNIX_SOCK_LEN - 1 := hlong
    have hlen2 : (String.mk (("@incusd/" ++ s.uuid).data.take
        (h.ABSTRACT_UNIX_SOCK_LEN - 1))).length = h.ABSTRACT_UNIX_SOCK_LEN - 1 := by
      show (("@incusd/" ++ s.uuid).data.take (h.ABSTRACT_UNIX_SOCK_LEN - 1)).length = _
      rw [List.length_take]
      omega
    refine ⟨fun _ => ⟨rfl, hlen2⟩, fun hle => absurd hlong (by omega), ?_, ?_⟩
    · omega
    · exact List.take_prefix _ _
  · rw [if_neg hlong]
    refine ⟨fun hc => absurd hc hlong, fun _ => rfl, by omega, List.prefix_refl _⟩

theorem sendAuds_cut_witness :
    (("@incusd/" ++ "6ba7b810-9dad-11d1-80b4-00c04fd430c8").length > 20 - 1 →
        (sendAuds { hostRunning ⟨"", "", .exited 0⟩ with ABSTRACT_UNIX_SOCK_LEN := 20 }
          (sendSessionEnding (.exited 0) none none "")).data =
          ("@incusd/" ++ "6ba7b810-9dad-11d1-80b4-00c04fd430c8").data.take (20 - 1) ∧
        (sendAuds { hostRunning ⟨"", "", .exited 0⟩ with ABSTRACT_UNIX_SOCK_LEN := 20 }
          (sendSessionEnding (.exited 0) none none "")).length = 20 - 1) ∧
      (("@incusd/" ++ "6ba7b810-9dad-11d1-80b4-00c04fd430c8").length ≤ 20 - 1 →
        sendAuds { hostRunning ⟨"", "", .exited 0⟩ with ABSTRACT_UNIX_SOCK_LEN := 20 }
          (sendSessionEnding (.exited 0) none none "") =
          "@incusd/" ++ "6ba7b810-9dad-11d1-80b4-00c04fd430c8") ∧
      (sendAuds { hostRunning ⟨"", "", .exited 0⟩ with ABSTRACT_UNIX_SOCK_LEN := 20 }
        (sendSessionEnding (.exited 0) none none "")).length ≤ 20 - 1 ∧
      (sendAuds { hostRunning ⟨"", "", .exited 0⟩ with ABSTRACT_UNIX_SOCK_LEN := 20 }
        (sendSessionEnding (.exited 0) none none "")).data <+:
        ("@incusd/" ++ "6ba7b810-9dad-11d1-80b4-00c04fd430c8").data :=
  sendAuds_cut { hostRunning ⟨"", "", .exited 0⟩ with ABSTRACT_UNIX_SOCK_LEN := 20 }
    (sendSessionEnding (.exited 0) none none "") (by decide)

/-! ## `ExtractInterfaceFromConfigName` -/

theorem isPrefixOf_append_self (p r : List Char) : p.isPrefixOf (p ++ r) = true := by
  induction p with
  | nil => simp [List.isPrefixOf]
  | cons c cs ih => simp [List.isPrefixOf, ih]

theorem takeWhile_notDot (n r : List Char) (hn : ∀ c ∈ n, c ≠ '.') :
    (n ++ '.' :: r).takeWhile (fun c => c != '.') = n ∧
      (n ++ '.' :: r).dropWhile (fun c => c != '.') = '.' :: r := by
  induction n with
  | nil => simp [List.takeWhile, List.dropWhile]
  | cons c cs ih =>
    have hc : (c != '.') = true := by simpa using hn c (List.mem_cons_self _ _)
    obtain ⟨h1, h2⟩ := ih (fun d hd => hn d (List.mem_cons_of_mem _ hd))
    simp [List.takeWhile, List.dropWhile, hc, h1, h2]

/-- The pattern matches a key `volatile.<n>.hwaddr` at its head, with `n` as the
group, when `n` holds no dot. -/
theorem regexp.matchVolatileHere_key (n : List Char) (hn : ∀ c ∈ n, c ≠ '.') :
    regexp.matchVolatileHere ("volatile.".data ++ n ++ ".hwaddr".data) =
      some ["volatile.".data ++ n ++ ".hwaddr".data, n] := by
  have hd : (".hwaddr" : String).data = '.' :: "hwaddr".data := rfl
  obtain ⟨h1, h2⟩ := takeWhile_notDot n "hwaddr".data hn
  unfold regexp.matchVolatileHere
  rw [List.append_assoc, if_pos (isPrefixOf_append_self _ _)]
  simp only [List.drop_left, hd, h1, h2]
  rw [if_pos (by decide)]
  simp [List.append_assoc]

/-- For every key `volatile.<n>.hwaddr` in which `n` holds no dot,
`ExtractInterfaceFromConfigName` returns `n` and no error. -/
theorem ExtractInterfaceFromConfigName_of_key (n : String) (hn : ∀ c ∈ n.data, c ≠ '.') :
    ExtractInterfaceFromConfigName ("volatile." ++ n ++ ".hwaddr") = some (n, none) := by
  have hfind : regexp.findVolatile ("volatile." ++ n ++ ".hwaddr").data =
      some ["volatile.".data ++ n.data ++ ".hwaddr".data, n.data] := by
    have hdata : ("volatile." ++ n ++ ".hwaddr").data =
        'v' :: ("olatile.".data ++ n.data ++ ".hwaddr".data) := by
      simp only [String.data_append]
      rfl
    have hm := regexp.matchVolatileHere_key n.data hn
    have hcons : "volatile.".data ++ n.data ++ ".hwaddr".data =
        'v' :: ("olatile.".data ++ n.data ++ ".hwaddr".data) := rfl
    rw [hdata]
    unfold regexp.findVolatile
    rw [← hcons, hm]
  unfold ExtractInterfaceFromConfigName
  rw [hfind]
  simp

/-- C20, at the failing input: a key with text before `volatile.` and after
`.hwaddr` is not of the form `volatile.<n>.hwaddr`, and
`ExtractInterfaceFromConfigName` returns the name `eth0` for it, with no error. -/
theorem ExtractInterfaceFromConfigName_unanchored :
    ExtractInterfaceFromConfigName "xvolatile.eth0.hwaddrzz" = some ("eth0", none) ∧
      ExtractInterfaceFromConfigName "user.volatile.eth0.hwaddr.bak" = some ("eth0", none) ∧
      (∀ n : String, "xvolatile.eth0.hwaddrzz" ≠ "volatile." ++ n ++ ".hwaddr") := by
  refine ⟨by decide, by decide, ?_⟩
  intro n hc
  have hd := congrArg String.data hc
  simp only [String.data_append] at hd
  have h0 := congrArg List.head? hd
  simp at h0

/-! ## Instances of the statements on events -/

theorem sendSetup_closes_listener_once_witness :
    (sendSetupRun version.specPkg (hostRunning ⟨"", "", .exited 0⟩)
        (sendSessionAccepting .failed "rsync: failed to connect")
        "c1" "/var/lib/incus/c1" "" "/usr/bin/incusd" [] []).events.head? =
        some (.listen (sendAuds (hostRunning ⟨"", "", .exited 0⟩)
          (sendSessionAccepting .failed "rsync: failed to connect")) true) ∧
      (sendSetupRun version.specPkg (hostRunning ⟨"", "", .exited 0⟩)
        (sendSessionAccepting .failed "rsync: failed to connect")
        "c1" "/var/lib/incus/c1" "" "/usr/bin/incusd" [] []).allEvents.count
        .closeListener = 1 ∧
      (sendSetupRun version.specPkg (hostRunning ⟨"", "", .exited 0⟩)
        (sendSessionAccepting .failed "rsync: failed to connect")
        "c1" "/var/lib/incus/c1" "" "/usr/bin/incusd" [] []).events.getLast? =
        some .closeListener ∧
      (sendSetupRun version.specPkg (hostRunning ⟨"", "", .exited 0⟩)
        (sendSessionAccepting .failed "rsync: failed to connect")
        "c1" "/var/lib/incus/c1" "" "/usr/bin/incusd" [] []).allEvents.count .accept ≤ 1 :=
  sendSetup_closes_listener_once version.specPkg (hostRunning ⟨"", "", .exited 0⟩)
    (sendSessionAccepting .failed "rsync: failed to connect")
    "c1" "/var/lib/incus/c1" "" "/usr/bin/incusd" [] [] rfl

theorem Send_Recv_wait_once_witness :
    ((SendRun version.specPkg (hostRunning ⟨"", "", .exited 0⟩)
        (sendSessionAccepting .timedOut "")
        "c1" "/var/lib/incus/c1" [] "" "/usr/bin/incusd" []).allEvents.count .wait = 1 ∧
      Before (.start true) .wait
        (SendRun version.specPkg (hostRunning ⟨"", "", .exited 0⟩)
          (sendSessionAccepting .timedOut "")
          "c1" "/var/lib/incus/c1" [] "" "/usr/bin/incusd" []).events ∧
      (SendRun version.specPkg (hostRunning ⟨"", "", .exited 0⟩)
        (sendSessionAccepting .timedOut "")
        "c1" "/var/lib/incus/c1" [] "" "/usr/bin/incusd" []).result ≠ none) ∧
    ((RecvRun version.specPkg (hostRunning ⟨"", "", .exited 0⟩)
        (recvSessionEnding (.exited 23) (some (.other "write: broken pipe")) none "")
        "/var/lib/incus/c1" []).allEvents.count .wait = 1 ∧
      Before (.start true) .wait
        (RecvRun version.specPkg (hostRunning ⟨"", "", .exited 0⟩)
          (recvSessionEnding (.exited 23) (some (.other "write: broken pipe")) none "")
          "/var/lib/incus/c1" []).events ∧
      (RecvRun version.specPkg (hostRunning ⟨"", "", .exited 0⟩)
        (recvSessionEnding (.exited 23) (some (.other "write: broken pipe")) none "")
        "/var/lib/incus/c1" []).result ≠ none) :=
  ⟨Send_Recv_wait_once.1 version.specPkg (hostRunning ⟨"", "", .exited 0⟩)
      (sendSessionAccepting .timedOut "")
      "c1" "/var/lib/incus/c1" [] "" "/usr/bin/incusd" [] (by decide),
    Send_Recv_wait_once.2 version.specPkg (hostRunning ⟨"", "", .exited 0⟩)
      (recvSessionEnding (.exited 23) (some (.other "write: broken pipe")) none "")
      "/var/lib/incus/c1" [] (by decide)⟩

/-! ## The file handler -/

/-- The handler answers bad request for a path outside the prefix test, and only
then, once the container is found and the path is given: the test is the one of
`strings.HasPrefix` on the cleaned paths. -/
theorem containerFileHandler_badRequest_iff (r : FileRequest) (h1 : r.containerErr = none)
    (h2 : r.targetPath ≠ "") :
    (∃ err, containerFileHandler r = .badRequest err) ↔
      strings.HasPrefix (path.Clean (path.Join [r.rootfs, r.targetPath])) (path.Clean r.rootfs)
        = false := by
  unfold containerFileHandler
  rw [h1]
  simp only [h2, if_false]
  cases hp : strings.HasPrefix (path.Clean (path.Join [r.rootfs, r.targetPath]))
      (path.Clean r.rootfs)
  · simp
  · simp only [Bool.not_true, Bool.false_eq_true, if_false]
    constructor
    · rintro ⟨err, he⟩
      split_ifs at he
    · intro h; cases h

/-- C21 (as the code behaves): for the root file system `/var/lib/lxd/lxc/c1/rootfs`
and the target `../rootfs.bak/etc/shadow` the cleaned join is
`/var/lib/lxd/lxc/c1/rootfs.bak/etc/shadow`, which is not inside the root file
system, yet the handler does not answer bad request: it serves that file of the
host. -/
theorem containerFileHandler_serves_sibling :
    path.Clean (path.Join [siblingRequest.rootfs, siblingRequest.targetPath]) =
        "/var/lib/lxd/lxc/c1/rootfs.bak/etc/shadow" ∧
      ¬ WithinDir siblingRequest.rootfs "/var/lib/lxd/lxc/c1/rootfs.bak/etc/shadow" ∧
      containerFileHandler siblingRequest =
        .fileGet "/var/lib/lxd/lxc/c1/rootfs.bak/etc/shadow" := by
  decide

/-! ## The rename of a snapshot -/

/-- The response `Conflict` is never given by `snapshotPost`: the branch that returns
it is taken only when `os.IsNotExist(err)` holds, which excludes a nil error. -/
theorem snapshotPost_ne_conflict (r : RenameRequest) : snapshotPost r ≠ .conflict := by
  unfold snapshotPost
  cases r.decodeErr with
  | some err => simp
  | none =>
    cases r.newName with
    | error err => simp
    | ok newName =>
      simp only
      cases r.stat (snapshotDir r.snapshotsDir newName) with
      | none => simp [IsNotExist]
      | some e => cases e <;> simp [IsNotExist]

/-- C28 (as the code behaves): when the directory of the new name exists, `os.Stat`
gives no error and `snapshotPost` answers `InternalError(nil)`, not `Conflict`;
when it does not exist the rename is scheduled. -/
theorem snapshotPost_existing_gives_internal_error :
    (renameRequest ["/var/lib/lxd/lxc/c1/snapshots/snap1"]).stat
        "/var/lib/lxd/lxc/c1/snapshots/snap1" = none ∧
      snapshotPost (renameRequest ["/var/lib/lxd/lxc/c1/snapshots/snap1"]) =
        .internalError none ∧
      snapshotPost (renameRequest []) =
        .asyncRename "/var/lib/lxd/lxc/c1/snapshots/snap0"
          "/var/lib/lxd/lxc/c1/snapshots/snap1" := by
  decide

/-! ## The next snapshot number -/

/-- Without a row that names a snapshot, `nextSnapshot` gives 0: when the query
fails, when it has no row, and when its row is the empty text. -/
theorem nextSnapshot_zero (name : String) (err : BasicError) :
    nextSnapshot (.error err) name = some 0 ∧ nextSnapshot (.ok []) name = some 0 ∧
      nextSnapshot (.ok [""]) name = some 0 := by
  simp [nextSnapshot, nextSnapshotLoop]

/-- C29 (as the code behaves): with the snapshots `c1/snap0` to `c1/snap10` the
greatest name in the order of texts is `c1/snap9`, on which `nextSnapshot` gives 10,
and `c1/snap10` is one of the existing names. -/
theorem nextSnapshot_gives_taken_number :
    greatestName elevenSnapshots "c1/snap" = some "c1/snap9" ∧
      nextSnapshot (.ok ["c1/snap9"]) "c1" = some 10 ∧
      defaultSnapshotName "c1" 10 = "c1/snap10" ∧
      defaultSnapshotName "c1" 10 ∈ elevenSnapshots := by
  decide

/-! ## The hook and its cleanup -/

theorem rsyncRun_result (h : Host) (args : List String) :
    (rsyncRun h args).result = rsync h args := by
  unfold rsyncRun rsync
  by_cases hlen : args.length < 2
  · simp [hlen]
  · simp only [hlen, if_false]
    cases h.RunWrapper with
    | none =>
      simp only
      cases cmdWait (h.run args).exit <;> rfl
    | some w =>
      simp only
      cases args[args.length - 2]? with
      | none => rfl
      | some source =>
        cases args[args.length - 1]? with
        | none => rfl
        | some destination =>
          simp only
          cases w args source destination with
          | some err => rfl
          | none =>
            simp only
            cases cmdWait (h.run args).exit <;> rfl

theorem LocalCopyRun_result (v : version.Pkg) (h : Host) (source dest bwlimit : String)
    (xattrs : Bool) (rsyncArgs : List String) :
    (LocalCopyRun v h source dest bwlimit xattrs rsyncArgs).result =
      LocalCopy v h source dest bwlimit xattrs rsyncArgs := by
  unfold LocalCopyRun LocalCopy
  cases h.MkdirAll dest with
  | some err => rfl
  | none =>
    simp only
    cases LocalCopyArgs v h source dest bwlimit xattrs rsyncArgs with
    | none => rfl
    | some args =>
      simp only
      rw [rsyncRun_result]

/-- The events of `rsync` on an argument list that ends in a source and a
destination: the hook call on these two, when the hook is set, then the run and the
cleanup when the hook gave no error. -/
theorem rsyncRun_events_of_shape (h : Host) (front : List String) (a b c : String) :
    (rsyncRun h (front ++ [a, b, c])).events =
      match h.RunWrapper with
      | none => [.run]
      | some w =>
        match w (front ++ [a, b, c]) b c with
        | some _ => [.runWrapper b c false]
        | none => [.runWrapper b c true, .run, .cleanup] := by
  obtain ⟨h1, h2, h3⟩ := last_two_of_append front a b c
  unfold rsyncRun
  have hlen : ¬ (front ++ [a, b, c]).length < 2 := by omega
  simp only [hlen, if_false]
  cases h.RunWrapper with
  | none =>
    simp only
    cases cmdWait (h.run (front ++ [a, b, c])).exit <;> rfl
  | some w =>
    simp only [h2, h3]
    cases w (front ++ [a, b, c]) b c with
    | some err => rfl
    | none =>
      simp only
      cases cmdWait (h.run (front ++ [a, b, c])).exit <;> rfl

/-- The hook on an invocation: either it is not set, and there is neither a hook call
nor a cleanup, or it is set, and there is one hook call, with the success the hook
gave, and one cleanup to run. -/
theorem hook_cases (h : Host) (args : List String) (source destination : String) :
    (h.RunWrapper = none ∧ wrapperEvents h args source destination = [] ∧
        cleanupEvents h = [] ∧
        (match h.RunWrapper with
          | none => (none : Option GoError)
          | some wrapper => wrapper args source destination) = none) ∨
      (∃ w, h.RunWrapper = some w ∧
        wrapperEvents h args source destination =
          [.runWrapper source destination (w args source destination).isNone] ∧
        cleanupEvents h = [.cleanup] ∧
        (match h.RunWrapper with
          | none => (none : Option GoError)
          | some wrapper => wrapper args source destination) = w args source destination) := by
  unfold wrapperEvents cleanupEvents
  cases h.RunWrapper with
  | none => exact Or.inl ⟨rfl, rfl, rfl, rfl⟩
  | some w => exact Or.inr ⟨w, rfl, rfl, rfl, rfl⟩

/-- The paths of `Send` once the listener is open, with the hook call `W` and the
cleanup `C` of the built invocation: the hook failed and only the listener is
closed, or the hook gave no error and the events are of one of five forms. -/
theorem SendRun_forms (v : version.Pkg) (h : Host) (s : SendSession) (name path : String)
    (features : List String) (bwlimit execPath : String) (rsyncArgs args : List String)
    (hl : s.listenErr = none)
    (hargs : sendArgs v h s name path bwlimit execPath features rsyncArgs = some args) :
    ∃ (D : List Event) (a : String),
      (D = [.readStderr] ∨ D = [.readStderr, .kill, .log]) ∧
      (((match h.RunWrapper with
          | none => (none : Option GoError)
          | some wrapper => wrapper args path "") ≠ none ∧
        (SendRun v h s name path features bwlimit execPath rsyncArgs).events =
          .listen a true :: wrapperEvents h args path "" ++ [.closeListener]) ∨
      ((match h.RunWrapper with
          | none => (none : Option GoError)
          | some wrapper => wrapper args path "") = none ∧
        ((SendRun v h s name path features bwlimit execPath rsyncArgs).events =
          .listen a true :: wrapperEvents h args path "" ++ [.stderrPipe false] ++
            cleanupEvents h ++ [.closeListener] ∨
        (SendRun v h s name path features bwlimit execPath rsyncArgs).events =
          .listen a true :: wrapperEvents h args path "" ++ [.stderrPipe true, .start false] ++
            cleanupEvents h ++ [.closeListener] ∨
        (SendRun v h s name path features bwlimit execPath rsyncArgs).events =
          .listen a true :: wrapperEvents h args path "" ++ [.stderrPipe true, .start true,
            .spawn .accept, .recv .accept, .readStderr, .kill, .wait] ++ cleanupEvents h ++
            [.closeListener] ∨
        (SendRun v h s name path features bwlimit execPath rsyncArgs).events =
          .listen a true :: wrapperEvents h args path "" ++ [.stderrPipe true, .start true,
            .spawn .accept, .timeout, .readStderr, .kill, .wait] ++ cleanupEvents h ++
            [.closeListener] ∨
        (SendRun v h s name path features bwlimit execPath rsyncArgs).events =
          .listen a true :: wrapperEvents h args path "" ++ [.stderrPipe true, .start true,
            .spawn .accept, .recv .accept] ++ cleanupEvents h ++
            [.closeListener, .spawn .copyNetcat, .spawn .copyTarget] ++
            D ++ [.wait, .recv .copyNetcat, .recv .copyTarget]))) := by
  refine ⟨_, sendAuds h s, drained_cases s.stderrRead.2, ?_⟩
  cases hw : (match h.RunWrapper with
      | none => (none : Option GoError)
      | some wrapper => wrapper args path "") with
  | some e =>
    refine Or.inl ⟨by simp, ?_⟩
    unfold SendRun sendSetupRun
    rw [hl, hargs]
    simp only [hw]
  | none =>
    refine Or.inr ⟨rfl, ?_⟩
    cases hp : s.stderrPipeErr with
    | some e =>
      refine Or.inl ?_
      unfold SendRun sendSetupRun
      rw [hl, hargs]
      simp only [hw, hp]
      simp [List.append_assoc]
    | none =>
      cases hs : s.startErr with
      | some e =>
        refine Or.inr (Or.inl ?_)
        unfold SendRun sendSetupRun
        rw [hl, hargs]
        simp only [hw, hp, hs]
        simp [List.append_assoc]
      | none =>
        have hev := SendRun_of_started v h s name path features bwlimit execPath rsyncArgs
          args hl hargs hw hp hs
        rw [hev]
        cases s.accept with
        | failed =>
          refine Or.inr (Or.inr (Or.inl ?_))
          simp [List.append_assoc]
        | timedOut =>
          refine Or.inr (Or.inr (Or.inr (Or.inl ?_)))
          simp [List.append_assoc]
        | connected =>
          refine Or.inr (Or.inr (Or.inr (Or.inr ?_)))
          simp [List.append_assoc]

/-- The paths of `Recv` with the hook call `W` and the cleanup `C` of the built
invocation: the hook failed and nothing else was done, or the hook gave no error
and the events are of one of five forms. -/
theorem RecvRun_forms (v : version.Pkg) (h : Host) (s : RecvSession) (path : String)
    (features args : List String) (hargs : recvArgs v h path features = some args) :
    ∃ (D : List Event),
      (D = [.readStderr] ∨ D = [.readStderr, .log]) ∧
      (((match h.RunWrapper with
          | none => (none : Option GoError)
          | some wrapper => wrapper args "" path) ≠ none ∧
        (RecvRun v h s path features).events = wrapperEvents h args "" path) ∨
      ((match h.RunWrapper with
          | none => (none : Option GoError)
          | some wrapper => wrapper args "" path) = none ∧
        ((RecvRun v h s path features).events =
          wrapperEvents h args "" path ++ [.stdoutPipe false] ++ cleanupEvents h ∨
        (RecvRun v h s path features).events =
          wrapperEvents h args "" path ++
            [.stdoutPipe true, .spawn .copyRsync, .stdinPipe false] ++ cleanupEvents h ∨
        (RecvRun v h s path features).events =
          wrapperEvents h args "" path ++
            [.stdoutPipe true, .spawn .copyRsync, .stdinPipe true, .spawn .copySource,
              .stderrPipe false, .kill] ++ cleanupEvents h ∨
        (RecvRun v h s path features).events =
          wrapperEvents h args "" path ++
            [.stdoutPipe true, .spawn .copyRsync, .stdinPipe true, .spawn .copySource,
              .stderrPipe true, .start false] ++ cleanupEvents h ∨
        (RecvRun v h s path features).events =
          wrapperEvents h args "" path ++
            [.stdoutPipe true, .spawn .copyRsync, .stdinPipe true, .spawn .copySource,
              .stderrPipe true, .start true] ++ D ++
            [.wait, .recv .copyRsync, .recv .copySource] ++ cleanupEvents h))) := by
  refine ⟨_, drainedRecv_cases s.stderrRead.2, ?_⟩
  cases hw : (match h.RunWrapper with
      | none => (none : Option GoError)
      | some wrapper => wrapper args "" path) with
  | some e =>
    refine Or.inl ⟨by simp, ?_⟩
    unfold RecvRun
    rw [hargs]
    simp only [hw]
  | none =>
    refine Or.inr ⟨rfl, ?_⟩
    cases hout : s.stdoutPipeErr with
    | some e =>
      refine Or.inl ?_
      unfold RecvRun
      rw [hargs]
      simp only [hw, hout]
    | none =>
      cases hin : s.stdinPipeErr with
      | some e =>
        refine Or.inr (Or.inl ?_)
        unfold RecvRun
        rw [hargs]
        simp only [hw, hout, hin]
      | none =>
        cases herr : s.stderrPipeErr with
        | some e =>
          refine Or.inr (Or.inr (Or.inl ?_))
          unfold RecvRun
          rw [hargs]
          simp only [hw, hout, hin, herr]
          simp [List.append_assoc]
        | none =>
          cases hs : s.startErr with
          | some e =>
            refine Or.inr (Or.inr (Or.inr (Or.inl ?_)))
            unfold RecvRun
            rw [hargs]
            simp only [hw, hout, hin, herr, hs]
            simp [List.append_assoc]
          | none =>
            refine Or.inr (Or.inr (Or.inr (Or.inr ?_)))
            rw [RecvRun_of_started v h s path features args hargs hw hout hin herr hs]
            simp [List.append_assoc]

/-- In `LocalCopy` the cleanup of a hook that succeeded runs once, after `cmd.Run` has
returned. -/
theorem LocalCopyRun_cleanup (v : version.Pkg) (h : Host) (source dest bwlimit : String)
    (xattrs : Bool) (rsyncArgs : List String) (src dst : String)
    (hok : Event.runWrapper src dst true ∈
      (LocalCopyRun v h source dest bwlimit xattrs rsyncArgs).events) :
    (LocalCopyRun v h source dest bwlimit xattrs rsyncArgs).events.count .cleanup = 1 ∧
      Before .run .cleanup (LocalCopyRun v h source dest bwlimit xattrs rsyncArgs).events := by
  obtain ⟨front, hf⟩ := LocalCopyArgs_shape v h source dest bwlimit xattrs rsyncArgs
  unfold LocalCopyRun at hok ⊢
  cases hmk : h.MkdirAll dest with
  | some err => rw [hmk] at hok; simp at hok
  | none =>
    rw [hmk, hf] at hok
    rw [hf]
    simp only [rsyncRun_events_of_shape] at hok ⊢
    cases hR : h.RunWrapper with
    | none => rw [hR] at hok; simp at hok
    | some w =>
      rw [hR] at hok
      simp only at hok ⊢
      cases hw : w (front ++ [if h.Debug then "-vi" else "-q", h.AddSlash source, dest])
          (h.AddSlash source) dest with
      | some err => rw [hw] at hok; simp at hok
      | none => simp [Before.cons]

/-- In `Send` the cleanup of a hook that succeeded runs once. -/
theorem SendRun_cleanup_once (v : version.Pkg) (h : Host) (s : SendSession)
    (name path : String) (features : List String) (bwlimit execPath : String)
    (rsyncArgs : List String) (src dst : String)
    (hok : Event.runWrapper src dst true ∈
      (SendRun v h s name path features bwlimit execPath rsyncArgs).events) :
    (SendRun v h s name path features bwlimit execPath rsyncArgs).events.count .cleanup = 1 := by
  obtain ⟨args, hargs⟩ := sendArgs_some v h s name path bwlimit execPath features rsyncArgs
  cases hl : s.listenErr with
  | some e =>
    have hev : (SendRun v h s name path features bwlimit execPath rsyncArgs).events =
        [.listen (sendAuds h s) false] := by
      unfold SendRun sendSetupRun
      rw [hl]
    rw [hev] at hok
    simp at hok
  | none =>
    obtain ⟨D, a, hD, hforms⟩ :=
      SendRun_forms v h s name path features bwlimit execPath rsyncArgs args hl hargs
    rcases hook_cases h args path "" with ⟨_, hW, hC, hw⟩ | ⟨w, _, hW, hC, hw⟩
    · rw [hW, hC, hw] at hforms
      rcases hforms with ⟨hne, _⟩ | ⟨_, hev | hev | hev | hev | hev⟩
      · exact absurd rfl hne
      all_goals
        rw [hev] at hok
        rcases hD with rfl | rfl <;> simp at hok
    · rw [hW, hC, hw] at hforms
      rcases hforms with ⟨hne, hev⟩ | ⟨he, hev | hev | hev | hev | hev⟩
      · rw [hev] at hok
        cases hwv : w args path "" with
        | none => exact absurd hwv hne
        | some e => rw [hwv] at hok; simp at hok
      all_goals
        rw [hev]
        rcases hD with rfl | rfl <;> simp

/-- In `Recv` the cleanup of a hook that succeeded runs once, and after the wait for
the subprocess when that was started. -/
theorem RecvRun_cleanup (v : version.Pkg) (h : Host) (s : RecvSession) (path : String)
    (features : List String) (src dst : String)
    (hok : Event.runWrapper src dst true ∈ (RecvRun v h s path features).events) :
    (RecvRun v h s path features).events.count .cleanup = 1 ∧
      (Event.start true ∈ (RecvRun v h s path features).events →
        Before .wait .cleanup (RecvRun v h s path features).events) := by
  obtain ⟨args, hargs⟩ := recvArgs_some v h path features
  obtain ⟨D, hD, hforms⟩ := RecvRun_forms v h s path features args hargs
  rcases hook_cases h args "" path with ⟨_, hW, hC, hw⟩ | ⟨w, _, hW, hC, hw⟩
  · rw [hW, hC, hw] at hforms
    rcases hforms with ⟨hne, _⟩ | ⟨_, hev | hev | hev | hev | hev⟩
    · exact absurd rfl hne
    all_goals
      rw [hev] at hok
      rcases hD with rfl | rfl <;> simp at hok
  · rw [hW, hC, hw] at hforms
    rcases hforms with ⟨hne, hev⟩ | ⟨he, hev | hev | hev | hev | hev⟩
    · rw [hev] at hok
      cases hwv : w args "" path with
      | none => exact absurd hwv hne
      | some e => rw [hwv] at hok; simp at hok
    all_goals
      rw [hev]
      rcases hD with rfl | rfl <;> simp [Before.cons, Before.nil]

/-- C24: in `LocalCopy`, for every extra-argument list, the built argument list has at
least two elements, its last two are the source with a trailing slash and `dest`,
and these are the descriptors of every hook call of `LocalCopy`, which is made as
soon as the hook is set and the directory could be made; so the test of `rsync` for
fewer than two arguments never holds there. In `Send` every hook call has the
descriptors (path, empty) and in `Recv` (empty, path), and the call is made as soon
as the hook is set (in `Send`: and the listener is open). -/
theorem hook_descriptors (v : version.Pkg) (h : Host) :
    (∀ (source dest bwlimit : String) (xattrs : Bool) (rsyncArgs : List String),
      ∃ args, LocalCopyArgs v h source dest bwlimit xattrs rsyncArgs = some args ∧
        ¬ args.length < 2 ∧
        args[args.length - 2]? = some (h.AddSlash source) ∧
        args[args.length - 1]? = some dest ∧
        (∀ src dst ok, Event.runWrapper src dst ok ∈
            (LocalCopyRun v h source dest bwlimit xattrs rsyncArgs).events →
          src = h.AddSlash source ∧ dst = dest) ∧
        (∀ w, h.RunWrapper = some w → h.MkdirAll dest = none →
          Event.runWrapper (h.AddSlash source) dest (w args (h.AddSlash source) dest).isNone ∈
            (LocalCopyRun v h source dest bwlimit xattrs rsyncArgs).events)) ∧
    (∀ (s : SendSession) (name path : String) (features : List String)
        (bwlimit execPath : String) (rsyncArgs : List String),
      (∀ src dst ok, Event.runWrapper src dst ok ∈
          (SendRun v h s name path features bwlimit execPath rsyncArgs).events →
        src = path ∧ dst = "") ∧
      (∀ w, h.RunWrapper = some w → s.listenErr = none →
        ∃ ok, Event.runWrapper path "" ok ∈
          (SendRun v h s name path features bwlimit execPath rsyncArgs).events)) ∧
    (∀ (s : RecvSession) (path : String) (features : List String),
      (∀ src dst ok, Event.runWrapper src dst ok ∈ (RecvRun v h s path features).events →
        src = "" ∧ dst = path) ∧
      (∀ w, h.RunWrapper = some w →
        ∃ ok, Event.runWrapper "" path ok ∈ (RecvRun v h s path features).events)) := by
  refine ⟨?_, ?_, ?_⟩
  · intro source dest bwlimit xattrs rsyncArgs
    obtain ⟨front, hf⟩ := LocalCopyArgs_shape v h source dest bwlimit xattrs rsyncArgs
    obtain ⟨h1, h2, h3⟩ := last_two_of_append front (if h.Debug then "-vi" else "-q")
      (h.AddSlash source) dest
    refine ⟨_, hf, by omega, h2, h3, ?_, ?_⟩
    · intro src dst ok hmem
      unfold LocalCopyRun at hmem
      cases hmk : h.MkdirAll dest with
      | some err => rw [hmk] at hmem; simp at hmem
      | none =>
        rw [hmk, hf] at hmem
        simp only [rsyncRun_events_of_shape] at hmem
        cases hR : h.RunWrapper with
        | none => rw [hR] at hmem; simp at hmem
        | some w =>
          rw [hR] at hmem
          simp only at hmem
          cases hw : w (front ++ [if h.Debug then "-vi" else "-q", h.AddSlash source, dest])
              (h.AddSlash source) dest with
          | some err =>
            rw [hw] at hmem
            simp at hmem
            exact ⟨hmem.1, hmem.2.1⟩
          | none =>
            rw [hw] at hmem
            simp at hmem
            exact ⟨hmem.1, hmem.2.1⟩
    · intro w hR hmk
      unfold LocalCopyRun
      rw [hmk, hf]
      simp only [rsyncRun_events_of_shape, hR]
      cases hw : w (front ++ [if h.Debug then "-vi" else "-q", h.AddSlash source, dest])
          (h.AddSlash source) dest <;> simp
  · intro s name path features bwlimit execPath rsyncArgs
    constructor
    · intro src dst ok hmem
      obtain ⟨W, C, D, a, hW, hC, hD, hev⟩ :=
        SendRun_paths v h s name path features bwlimit execPath rsyncArgs
      rcases hW with rfl | ⟨ok2, rfl⟩ <;> rcases hC with rfl | rfl <;>
        rcases hD with rfl | rfl <;>
        rcases hev with hev | hev | hev | hev | hev | hev | hev | hev <;>
        rw [hev] at hmem <;> simp at hmem <;> exact ⟨hmem.1, hmem.2.1⟩
    · intro w hR hl
      obtain ⟨args, hargs⟩ := sendArgs_some v h s name path bwlimit execPath features rsyncArgs
      obtain ⟨D, a, _, hforms⟩ :=
        SendRun_forms v h s name path features bwlimit execPath rsyncArgs args hl hargs
      have hW : wrapperEvents h args path "" =
          [.runWrapper path "" (w args path "").isNone] := by
        simp [wrapperEvents, hR]
      refine ⟨(w args path "").isNone, ?_⟩
      rw [hW] at hforms
      rcases hforms with ⟨_, hev⟩ | ⟨_, hev | hev | hev | hev | hev⟩ <;>
        rw [hev] <;> simp
  · intro s path features
    constructor
    · intro src dst ok hmem
      obtain ⟨W, C, D, hW, hC, hD, hev⟩ := RecvRun_paths v h s path features
      rcases hW with rfl | ⟨ok2, rfl⟩ <;> rcases hC with rfl | rfl <;>
        rcases hD with rfl | rfl <;>
        rcases hev with hev | hev | hev | hev | hev | hev | hev <;>
        rw [hev] at hmem <;> simp at hmem <;> exact ⟨hmem.1, hmem.2.1⟩
    · intro w hR
      obtain ⟨args, hargs⟩ := recvArgs_some v h path features
      obtain ⟨D, _, hforms⟩ := RecvRun_forms v h s path features args hargs
      have hW : wrapperEvents h args "" path =
          [.runWrapper "" path (w args "" path).isNone] := by
        simp [wrapperEvents, hR]
      refine ⟨(w args "" path).isNone, ?_⟩
      rw [hW] at hforms
      rcases hforms with ⟨_, hev⟩ | ⟨_, hev | hev | hev | hev | hev⟩ <;>
        rw [hev] <;> simp

/-- C25 (as the code behaves): in a `Send` call that gets past setup with a hook that
succeeded, the cleanup of the hook runs once, at the return of `sendSetup`: after
the start of the subprocess and before the wait for it, not after. -/
theorem Send_cleanup_before_wait :
    (SendRun version.specPkg (hostRunning ⟨"", "", .exited 0⟩)
        (sendSessionEnding (.exited 0) none none "")
        "c1" "/var/lib/incus/c1" [] "" "/usr/bin/incusd" []).events =
      [.listen "@incusd/6ba7b810-9dad-11d1-80b4-00c04fd430c8" true,
        .runWrapper "/var/lib/incus/c1" "" true, .stderrPipe true, .start true,
        .spawn .accept, .recv .accept, .cleanup, .closeListener,
        .spawn .copyNetcat, .spawn .copyTarget, .readStderr, .wait,
        .recv .copyNetcat, .recv .copyTarget] ∧
      (SendRun version.specPkg (hostRunning ⟨"", "", .exited 0⟩)
        (sendSessionEnding (.exited 0) none none "")
        "c1" "/var/lib/incus/c1" [] "" "/usr/bin/incusd" []).result = some none ∧
      (SendRun version.specPkg (hostRunning ⟨"", "", .exited 0⟩)
        (sendSessionEnding (.exited 0) none none "")
        "c1" "/var/lib/incus/c1" [] "" "/usr/bin/incusd" []).events.count .cleanup = 1 ∧
      Before (.start true) .cleanup (SendRun version.specPkg (hostRunning ⟨"", "", .exited 0⟩)
        (sendSessionEnding (.exited 0) none none "")
        "c1" "/var/lib/incus/c1" [] "" "/usr/bin/incusd" []).events ∧
      Before .cleanup .wait (SendRun version.specPkg (hostRunning ⟨"", "", .exited 0⟩)
        (sendSessionEnding (.exited 0) none none "")
        "c1" "/var/lib/incus/c1" [] "" "/usr/bin/incusd" []).events ∧
      ¬ Before .wait .cleanup (SendRun version.specPkg (hostRunning ⟨"", "", .exited 0⟩)
        (sendSessionEnding (.exited 0) none none "")
        "c1" "/var/lib/incus/c1" [] "" "/usr/bin/incusd" []).events := by
  decide

/-- C26 (as the code behaves): in a `Recv` call whose stderr pipe cannot be had, the
call issues `cmd.Process.Kill()` although no start of the subprocess was attempted;
the handle is nil there and the call panics instead of returning. -/
theorem Recv_kills_before_start :
    (RecvRun version.specPkg (hostRunning ⟨"", "", .exited 0⟩) recvSessionNoStderr
        "/var/lib/incus/c1" []).events =
      [.runWrapper "" "/var/lib/incus/c1" true, .stdoutPipe true, .spawn .copyRsync,
        .stdinPipe true, .spawn .copySource, .stderrPipe false, .kill, .cleanup] ∧
      (RecvRun version.specPkg (hostRunning ⟨"", "", .exited 0⟩) recvSessionNoStderr
        "/var/lib/incus/c1" []).result = none ∧
      Recv version.specPkg (hostRunning ⟨"", "", .exited 0⟩) recvSessionNoStderr
        "/var/lib/incus/c1" [] = none ∧
      (∀ ok, Event.start ok ∉ (RecvRun version.specPkg (hostRunning ⟨"", "", .exited 0⟩)
        recvSessionNoStderr "/var/lib/incus/c1" []).events) := by
  refine ⟨by decide, by decide, by decide, ?_⟩
  intro ok
  cases ok <;> decide

/-! ## `GenerateMacAddr` -/

/-- A number below sixteen is printed by `%x` as one lowercase hexadecimal digit. -/
theorem fmtHex_digit (d : Fin 16) : ∃ c, fmtHex d.val = [c] ∧ IsLowerHex c := by
  have h : ∀ d : Fin 16, (fmtHex d.val).length = 1 ∧ ∀ c ∈ fmtHex d.val, IsLowerHex c := by
    decide
  obtain ⟨hlen, hall⟩ := h d
  match hd : fmtHex d.val, hlen with
  | [c], _ => exact ⟨c, rfl, hall c (by rw [hd]; simp)⟩

theorem generateMacAddrLoop_nil (rand : Nat → Except BasicError (Fin 16)) (k : Nat)
    (ret : List Char) : generateMacAddrLoop rand [] k ret = .ok ret := rfl

theorem generateMacAddrLoop_x_ok (rand : Nat → Except BasicError (Fin 16)) (cs : List Char)
    (k : Nat) (ret : List Char) (d : Fin 16) (h : rand k = .ok d) :
    generateMacAddrLoop rand ('x' :: cs) k ret =
      generateMacAddrLoop rand cs (k + 1) (ret ++ fmtHex d.val) := by
  rw [generateMacAddrLoop, if_pos rfl, h]

theorem generateMacAddrLoop_x_error (rand : Nat → Except BasicError (Fin 16))
    (cs : List Char) (k : Nat) (ret : List Char) (e : BasicError) (h : rand k = .error e) :
    generateMacAddrLoop rand ('x' :: cs) k ret = .error e := by
  rw [generateMacAddrLoop, if_pos rfl, h]

theorem generateMacAddrLoop_other (rand : Nat → Except BasicError (Fin 16)) (c : Char)
    (cs : List Char) (k : Nat) (ret : List Char) (hc : c ≠ 'x') :
    generateMacAddrLoop rand (c :: cs) k ret =
      generateMacAddrLoop rand cs k (ret ++ [c]) := by
  rw [generateMacAddrLoop, if_neg hc]

/-- The loop of `GenerateMacAddr` either ends with the buffer grown by one character
for each character of the template, the same character or, for an `x`, a lowercase
hexadecimal digit, all draws having succeeded; or it ends with the error of a draw
it made. -/
theorem generateMacAddrLoop_spec (rand : Nat → Except BasicError (Fin 16)) :
    ∀ (cs : List Char) (k : Nat) (ret : List Char),
      (∃ out, generateMacAddrLoop rand cs k ret = .ok (ret ++ out) ∧
        List.Forall₂ (fun t o => (t ≠ 'x' → o = t) ∧ (t = 'x' → IsLowerHex o)) cs out ∧
        ∀ j, j < cs.count 'x' → ∃ d, rand (k + j) = .ok d) ∨
      (∃ e, generateMacAddrLoop rand cs k ret = .error e ∧
        ∃ j, j < cs.count 'x' ∧ rand (k + j) = .error e) := by
  intro cs
  induction cs with
  | nil =>
    intro k ret
    exact Or.inl ⟨[], by simp [generateMacAddrLoop_nil], List.Forall₂.nil, by simp⟩
  | cons c cs ih =>
    intro k ret
    by_cases hc : c = 'x'
    · subst hc
      cases hr : rand k with
      | error err =>
        exact Or.inr ⟨err, generateMacAddrLoop_x_error rand cs k ret err hr, 0, by simp,
          by simpa using hr⟩
      | ok d =>
        obtain ⟨x, hx, hhex⟩ := fmtHex_digit d
        rw [generateMacAddrLoop_x_ok rand cs k ret d hr, hx]
        rcases ih (k + 1) (ret ++ [x]) with ⟨out, hout, hall, hdraw⟩ | ⟨e, he, j, hj, hje⟩
        · refine Or.inl ⟨x :: out, by simpa using hout,
            List.Forall₂.cons ⟨fun hne => absurd rfl hne, fun _ => hhex⟩ hall, ?_⟩
          intro j hj
          cases j with
          | zero => exact ⟨d, by simpa using hr⟩
          | succ j =>
            have hj2 : j < cs.count 'x' := by simpa using hj
            obtain ⟨d2, hd2⟩ := hdraw j hj2
            exact ⟨d2, by rw [← hd2]; congr 1; omega⟩
        · refine Or.inr ⟨e, he, j + 1, by simpa using hj, ?_⟩
          rw [← hje]; congr 1; omega
    · rw [generateMacAddrLoop_other rand c cs k ret hc]
      have hcount : (c :: cs).count 'x' = cs.count 'x' := by
        rw [List.count_cons_of_ne]
        exact fun h => hc h.symm
      rw [hcount]
      rcases ih k (ret ++ [c]) with ⟨out, hout, hall, hdraw⟩ | ⟨e, he, j, hj, hje⟩
      · exact Or.inl ⟨c :: out, by simpa using hout,
          List.Forall₂.cons ⟨fun _ => rfl, fun h => absurd h hc⟩ hall, hdraw⟩
      · exact Or.inr ⟨e, he, j, hj, hje⟩

theorem GenerateMacAddr_ok (rand : Nat → Except BasicError (Fin 16)) (template : String)
    (out : List Char) (h : generateMacAddrLoop rand template.data 0 [] = .ok out) :
    GenerateMacAddr rand template = (String.mk out, none) := by
  unfold GenerateMacAddr
  rw [h]

theorem GenerateMacAddr_error (rand : Nat → Except BasicError (Fin 16)) (template : String)
    (e : BasicError) (h : generateMacAddrLoop rand template.data 0 [] = .error e) :
    GenerateMacAddr rand template = ("", some e) := by
  unfold GenerateMacAddr
  rw [h]

/-- C22: for every template and every random source, `GenerateMacAddr` succeeds
exactly when the draws it makes, one for each `x` of the template, all succeed; the
text it then returns has as many characters as the template, each character other
than `x` unchanged at its position and each `x` replaced by one lowercase
hexadecimal digit; when it fails it returns the empty text and the error of one of
these draws. -/
theorem GenerateMacAddr_spec (rand : Nat → Except BasicError (Fin 16)) (template : String) :
    ((GenerateMacAddr rand template).2 = none ↔
        ∀ j, j < template.data.count 'x' → ∃ d, rand j = .ok d) ∧
      (∀ out, GenerateMacAddr rand template = (out, none) →
        out.length = template.length ∧
        List.Forall₂ (fun t o => (t ≠ 'x' → o = t) ∧ (t = 'x' → IsLowerHex o))
          template.data out.data) ∧
      (∀ out e, GenerateMacAddr rand template = (out, some e) →
        out = "" ∧ ∃ j, j < template.data.count 'x' ∧ rand j = .error e) := by
  rcases generateMacAddrLoop_spec rand template.data 0 [] with
    ⟨out, hout, hall, hdraw⟩ | ⟨e, he, j, hj, hje⟩
  · rw [List.nil_append] at hout
    rw [GenerateMacAddr_ok rand template out hout]
    have hdraw2 : ∀ j, j < template.data.count 'x' → ∃ d, rand j = .ok d := by
      intro j hj
      obtain ⟨d, hd⟩ := hdraw j hj
      exact ⟨d, by rw [← hd, Nat.zero_add]⟩
    refine ⟨⟨fun _ => hdraw2, fun _ => rfl⟩, ?_, ?_⟩
    · intro o ho
      rw [Prod.mk.injEq] at ho
      rw [← ho.1]
      exact ⟨hall.length_eq.symm, hall⟩
    · intro o e ho
      rw [Prod.mk.injEq] at ho
      exact absurd ho.2 (by simp)
  · rw [GenerateMacAddr_error rand template e he]
    rw [Nat.zero_add] at hje
    refine ⟨⟨fun h => absurd h (by simp), fun h => ?_⟩, ?_, ?_⟩
    · obtain ⟨d, hd⟩ := h j hj
      rw [hd] at hje
      cases hje
    · intro o ho
      rw [Prod.mk.injEq] at ho
      exact absurd ho.2 (by simp)
    · intro o e2 ho
      rw [Prod.mk.injEq] at ho
      have h2 : e = e2 := Option.some.inj ho.2
      subst h2
      exact ⟨ho.1.symm, j, hj, hje⟩

/-- C22 at two sources: with a source that gives 10, 11, 12, ... the template
`00:16:3e:xx:xx:xx` becomes `00:16:3e:ab:cd:ef`; with a source that fails at its
third call the same template gives the empty text and that error. -/
theorem GenerateMacAddr_examples :
    GenerateMacAddr countingSource "00:16:3e:xx:xx:xx" = ("00:16:3e:ab:cd:ef", none) ∧
      GenerateMacAddr failingSource "00:16:3e:xx:xx:xx" =
        ("", some (.other "read /dev/urandom: input/output error")) := by
  decide

/-! ## `GetInstanceSnapshot` -/

/-- C23: `GetInstanceSnapshot` looks up by the filter of the project, the instance
and the name alone; when the lookup yields exactly one row it returns that row and
no error, when it yields none a status error with HTTP status 404 and no row, when
it yields more than one an error without a status and no row, and when the lookup
fails the error wrapped and no row. It always returns, and never with both a row
and an error, nor with neither. -/
theorem GetInstanceSnapshot_spec {σ : Type}
    (lookup : InstanceSnapshotFilter → Except BasicError (List σ))
    (project inst name : String) :
    (∀ row, lookup ⟨none, some project, some inst, some name⟩ = .ok [row] →
        GetInstanceSnapshot lookup project inst name = some (some row, none)) ∧
      (lookup ⟨none, some project, some inst, some name⟩ = .ok [] →
        ∃ e, GetInstanceSnapshot lookup project inst name = some (none, some e) ∧
          e.statusCode = some 404) ∧
      (∀ rows, lookup ⟨none, some project, some inst, some name⟩ = .ok rows →
        2 ≤ rows.length →
        ∃ e, GetInstanceSnapshot lookup project inst name = some (none, some e) ∧
          e.statusCode = none) ∧
      (∀ err, lookup ⟨none, some project, some inst, some name⟩ = .error err →
        ∃ text, GetInstanceSnapshot lookup project inst name =
          some (none, some (.wrapped text err))) ∧
      (∃ r, GetInstanceSnapshot lookup project inst name = some r ∧
        (r.1.isSome ↔ r.2 = none)) := by
  unfold GetInstanceSnapshot
  simp only
  cases hl : lookup ⟨none, some project, some inst, some name⟩ with
  | error err => simp
  | ok rows =>
    match rows with
    | [] => simp [DbError.statusCode, StatusNotFound]
    | [row] => simp
    | a :: b :: rest => simp [DbError.statusCode]

/-! ## `AuthorizationRun` -/

/-- C27: `AuthorizationRun` fails closed. On each failure path (the program cannot
be loaded, the initialisation fails, the globals have no `authorize`, the details
cannot be marshalled, the call fails, the call returns a value whose type is not
`bool`) it returns false with an error. It returns true only when all steps
succeeded and the call returned the boolean true, and then without an error; every
verdict it returns with an error is false. -/
theorem AuthorizationRun_fails_closed (s : AuthSession) :
    (∀ err, s.programErr = some err → AuthorizationRun s = some (false, some err)) ∧
      (s.programErr = none → ∀ err, s.globals = .error err →
        ∃ e, AuthorizationRun s = some (false, some e)) ∧
      (s.programErr = none → ∀ globals, s.globals = .ok globals →
        "authorize" ∉ globals → ∃ e, AuthorizationRun s = some (false, some e)) ∧
      (s.programErr = none → ∀ globals, s.globals = .ok globals → "authorize" ∈ globals →
        ∀ err, s.marshalErr = some err → ∃ e, AuthorizationRun s = some (false, some e)) ∧
      (s.programErr = none → ∀ globals, s.globals = .ok globals → "authorize" ∈ globals →
        s.marshalErr = none → ∀ err, s.call = .error err →
        ∃ e, AuthorizationRun s = some (false, some e)) ∧
      (s.programErr = none → ∀ globals, s.globals = .ok globals → "authorize" ∈ globals →
        s.marshalErr = none → ∀ v, s.call = .ok v → v.Type ≠ "bool" →
        ∃ e, AuthorizationRun s = some (false, some e)) ∧
      (s.programErr = none → ∀ globals, s.globals = .ok globals → "authorize" ∈ globals →
        s.marshalErr = none → ∀ b, s.call = .ok (.bool b) →
        AuthorizationRun s = some (b, none)) ∧
      (∀ err, AuthorizationRun s = some (true, err) →
        err = none ∧ s.programErr = none ∧ (∃ globals, s.globals = .ok globals ∧
          "authorize" ∈ globals) ∧ s.marshalErr = none ∧ s.call = .ok (.bool true)) ∧
      (∀ b e, AuthorizationRun s = some (b, some e) → b = false) := by
  unfold AuthorizationRun
  cases hp : s.programErr with
  | some err => simp
  | none =>
    cases hg : s.globals with
    | error err => simp
    | ok globals =>
      by_cases ha : "authorize" ∈ globals
      · cases hm : s.marshalErr with
        | some err => simp [ha]
        | none =>
          cases hc : s.call with
          | error err => simp [ha]
          | ok v =>
            cases v with
            | bool b => cases b <;> simp [ha, starlark.Value.Type]
            | other typ text =>
              by_cases ht : typ = "bool"
              · subst ht
                simp [ha, starlark.Value.Type]
              · simp [ha, starlark.Value.Type, ht]
      · simp [ha]

/-- C27 at three runs: the answer `True` gives true without an error, the answer
`False` gives false without an error, and an answer that is not a boolean gives false
with an error. -/
theorem AuthorizationRun_examples :
    AuthorizationRun (authSessionAnswering (.bool true)) = some (true, none) ∧
      AuthorizationRun (authSessionAnswering (.bool false)) = some (false, none) ∧
      AuthorizationRun (authSessionAnswering (.other "string" "\"yes\"")) =
        some (false, some (.other "Failed with unexpected return value: \"yes\"")) := by
  decide

end Incus
